import Mathlib

/-!
# Budget-Calculator: the cost-calculation and aggregation engine

A shallow embedding of the calculation code of `src/frontend/src/App.jsx`
(`calculatePositionSum`, `calculateSummaries`, `calculateHotelNights`,
`calculateComparison`, the body of the "Realkosten-Vergleich" view and
`handleDragOver`), and of the writing handlers of `src/backend/server.js` as
steps on a store of rows.

Numbers.  A JavaScript number is an IEEE 754 double; `JSNum` holds `NaN`, the
two infinities and the finite doubles, and `+`, `-` and `*` round their exact
result to the nearest double as the source's operators do.  On whole numbers
below `2^53` the arithmetic is exact (`add_ofInt`, `mul_ofInt`, `sub_ofInt`);
fractional amounts such as `0.1` are rounded.

Fields.  A numeric field of a record is a `JSVal`: `undefined` (the property is
missing), `null` (what the store returns for an empty column) or a number.
The three JavaScript operators the engine applies to fields are embedded
one-to-one: `x || 0` is `orZero`, `a ?? b` is `nullish`, and the implicit
conversion of an operand of `*` is `toNumber`.
-/

namespace BudgetCalculator

/-! ## JavaScript numbers

A JavaScript number is an IEEE 754 double.  `JSNum` holds one as `NaN`, an
infinity, or a finite double given by the integer `k` with value
`k * 2^-1074`: every finite double is such a multiple (`2^-1074` is the
smallest subnormal), and the doubles are the `k` that rounding returns.
The two zeros are one value here; `+`, `-`, `*`, `>`, `||` and `??`, the only
operators the engine applies, do not tell them apart.  Results are rounded to
nearest, ties to even, with gradual underflow and overflow to infinity. -/

/-- The value of a JavaScript arithmetic expression. -/
inductive JSNum where
  | nan
  | inf (neg : Bool)
  | fin (k : Int)
deriving DecidableEq, Repr

namespace JSNum

/-- The integer that stands for the number 1: `2^1074`. -/
@[irreducible] def scale : Nat := 2 ^ 1074

/-- The position of the leading bit of `a` (for `0 < a < 2^8192`): the largest
`l` with `2^l ≤ a`, found bit by bit. -/
def bitFloor (a : Nat) : Nat :=
  [4096, 2048, 1024, 512, 256, 128, 64, 32, 16, 8, 4, 2, 1].foldl
    (fun l w => if 2 ^ (l + w) ≤ a then l + w else l) 0

/-- Rounding of the magnitude `a * 2^-(1074 + extra)` to the nearest double,
ties to even; the result is the integer `k` of the double, `none` on overflow.
A double keeps 53 significant bits and no bit below `2^-1074`, so `t` bits of
`a` are dropped. -/
def roundMag (a extra : Nat) : Option Nat :=
  if a = 0 then some 0
  else
    let t := max (bitFloor a - 52) extra
    let m := a / 2 ^ t
    let r := a % 2 ^ t
    let m' := if 2 ^ t < 2 * r ∨ (2 * r = 2 ^ t ∧ m % 2 = 1) then m + 1 else m
    let k := m' * 2 ^ (t - extra)
    if 2 ^ 2098 ≤ k then none else some k

/-- Rounding of the real number `z * 2^-(1074 + extra)` to a double. -/
def round (z : Int) (extra : Nat) : JSNum :=
  match roundMag z.natAbs extra with
  | none => inf (decide (z < 0))
  | some k => fin (if z < 0 then -(k : Int) else (k : Int))

/-- JavaScript unary `-a`. -/
def neg : JSNum → JSNum
  | nan => nan
  | inf b => inf (!b)
  | fin k => fin (-k)

/-- JavaScript `a + b`: the exact sum, rounded.  Adding 0 returns the other
operand as it is. -/
def add : JSNum → JSNum → JSNum
  | nan, _ => nan
  | _, nan => nan
  | inf a, inf b => if a = b then inf a else nan
  | inf a, fin _ => inf a
  | fin _, inf b => inf b
  | fin a, fin b =>
    if b = 0 then fin a
    else if a = 0 then fin b
    else round (a + b) 0

/-- JavaScript `a * b`: the exact product, rounded; `0 * Infinity` is `NaN`. -/
def mul : JSNum → JSNum → JSNum
  | nan, _ => nan
  | _, nan => nan
  | inf a, inf b => inf (a != b)
  | inf a, fin k => if k = 0 then nan else inf (a != decide (k < 0))
  | fin k, inf b => if k = 0 then nan else inf (decide (k < 0) != b)
  | fin a, fin b => round (a * b) 1074

/-- JavaScript `a - b`, which is `a + (-b)`. -/
def sub (a b : JSNum) : JSNum := add a (neg b)

/-- JavaScript `a < b`: false when either side is `NaN`. -/
def lt : JSNum → JSNum → Bool
  | nan, _ => false
  | _, nan => false
  | inf a, inf b => a && !b
  | inf a, fin _ => a
  | fin _, inf b => !b
  | fin a, fin b => decide (a < b)

/-- JavaScript `a > 0`: false for `NaN`. -/
def gtZero (a : JSNum) : Bool := lt (fin 0) a

/-- JavaScript `a < 0`: false for `NaN`. -/
def ltZero (a : JSNum) : Bool := lt a (fin 0)

/-- JavaScript truthiness of a number, negated: `NaN` and 0 are falsy. -/
def falsy : JSNum → Bool
  | nan => true
  | inf _ => false
  | fin k => decide (k = 0)

/-- The double of a whole number `n` (exact for `|n| ≤ 2^53`). -/
def ofInt (n : Int) : JSNum := fin (n * (scale : Int))

/-- The double nearest to the fraction `p / q`, as a numeric literal denotes it. -/
def ofRatio (p : Int) (q : Nat) : JSNum :=
  let a := p.natAbs
  if a = 0 ∨ q = 0 then fin 0
  else
    -- the leading bit of `a / q` is at `e`
    let e0 : Int := (bitFloor a : Int) - (bitFloor q : Int)
    let e : Int := if q * 2 ^ e0.toNat ≤ a * 2 ^ (-e0).toNat then e0 else e0 - 1
    -- the last bit kept is at `x`
    let x : Int := max (e - 52) (-1074)
    let n := a * 2 ^ (-x).toNat
    let d := q * 2 ^ x.toNat
    let m := n / d
    let r := n % d
    let m' := if d < 2 * r ∨ (2 * r = d ∧ m % 2 = 1) then m + 1 else m
    let k := m' * 2 ^ (x + 1074).toNat
    if 2 ^ 2098 ≤ k then inf (decide (p < 0))
    else fin (if p < 0 then -(k : Int) else (k : Int))

/-- The double that the decimal literal `m * 10^-d` denotes: `dec 1 1` is
`0.1`. -/
def dec (m : Int) (d : Nat) : JSNum := ofRatio m (10 ^ d)

/-- The number is a whole number: a finite multiple of 1. -/
def isWhole : JSNum → Bool
  | fin k => decide (k % (scale : Int) = 0)
  | _ => false

/-- The whole number a whole `JSNum` holds (its integer part otherwise, 0 for
`NaN` and the infinities). -/
def intValue : JSNum → Int
  | fin k => k / (scale : Int)
  | _ => 0

/-- JavaScript `a >= 0`: a number, `+Infinity` included, that is not negative. -/
def nonneg : JSNum → Prop
  | nan => False
  | inf b => b = false
  | fin k => 0 ≤ k

instance : DecidablePred nonneg
  | nan => inferInstanceAs (Decidable False)
  | inf b => inferInstanceAs (Decidable (b = false))
  | fin k => inferInstanceAs (Decidable (0 ≤ k))

instance : Zero JSNum := ⟨fin 0⟩
instance : Add JSNum := ⟨add⟩
instance : Mul JSNum := ⟨mul⟩
instance : Sub JSNum := ⟨sub⟩

end JSNum

open JSNum (fin nan inf)

/-! ## JavaScript values -/

/-- A numeric record field as the engine reads it. -/
inductive JSVal where
  | undefined
  | null
  | num (x : JSNum)
deriving DecidableEq, Repr

/-- JavaScript `v || 0` on a numeric field: `undefined`, `null`, `0` and `NaN`
are falsy and give `0`, any other number gives itself. -/
def orZero : JSVal → JSNum
  | JSVal.num x => if x.falsy then 0 else x
  | _ => 0

/-- JavaScript `a ?? b`: `b` exactly when `a` is `undefined` or `null`. -/
def nullish : JSVal → JSVal → JSVal
  | JSVal.undefined, b => b
  | JSVal.null, b => b
  | JSVal.num x, _ => JSVal.num x

/-- JavaScript `ToNumber` as applied to an operand of `*`:
`undefined` is `NaN`, `null` is `0`. -/
def toNumber : JSVal → JSNum
  | JSVal.undefined => nan
  | JSVal.null => 0
  | JSVal.num x => x

/-! ## Data model -/

/-- A position record, with the fields the engine reads.  `active` is the
truthiness of the field (`1`/`0` from the store, `true`/`false` after a
toggle). -/
structure Position where
  id : String
  type : String
  name : String
  daily_rate : JSVal
  flat_fee : JSVal
  hotel_nights : JSVal
  travel_costs : JSVal
  days_on_set : JSVal
  costs : JSVal
  actual_costs : JSVal
  active : Bool
deriving DecidableEq, Repr

/-- A project record; `positions` is `none` when the property is missing. -/
structure Project where
  shooting_days : JSVal
  hotel_cost_per_night : JSVal
  per_diem : JSVal
  actual_per_diem : JSVal
  positions : Option (List Position)
deriving DecidableEq, Repr

/-- The local update `{ ...p, active: false }` that `updatePositionImmediate`
applies to a position when it is switched off (App.jsx 191-197, 454). -/
def Position.deactivate (p : Position) : Position :=
  { p with active := false }

/-! ## `calculatePositionSum` (App.jsx 256-269) -/

/-- The source function `calculatePositionSum`; `project` is the component
state it closes over (`none` for `null`). -/
def calculatePositionSum (project : Option Project) (position : Position) : JSNum :=
  match project with
  | none => 0
  | some project =>
    if !position.active then 0
    else
      let daysOnSet := nullish position.days_on_set project.shooting_days
      if position.type = "crew" ∨ position.type = "darsteller" then
        let dailyTotal := orZero position.daily_rate * toNumber daysOnSet
        let hotelTotal := orZero position.hotel_nights * orZero project.hotel_cost_per_night
        let perDiemTotal := orZero project.per_diem * toNumber daysOnSet
        dailyTotal + orZero position.flat_fee + hotelTotal + orZero position.travel_costs
          + perDiemTotal
      else
        orZero position.costs

/-! ## `calculateSummaries` (App.jsx 272-300) -/

/-- The seven running sums of `calculateSummaries`. -/
structure Buckets where
  crew : JSNum
  darsteller : JSNum
  hotel : JSNum
  travel : JSNum
  leihe : JSNum
  location : JSNum
  sonstiges : JSNum
deriving DecidableEq, Repr

/-- The record returned by `calculateSummaries`. -/
structure Summaries where
  crew : JSNum
  darsteller : JSNum
  hotel : JSNum
  travel : JSNum
  leihe : JSNum
  location : JSNum
  sonstiges : JSNum
  total : JSNum
deriving DecidableEq, Repr

/-- The record returned when there is no project or no position list. -/
def Summaries.zero : Summaries := ⟨0, 0, 0, 0, 0, 0, 0, 0⟩

/-- The body of the `forEach` callback of `calculateSummaries`. -/
def summaryStep (project : Project) (acc : Buckets) (p : Position) : Buckets :=
  let daysOnSet := nullish p.days_on_set project.shooting_days
  if p.type = "crew" then
    { acc with
      crew := acc.crew + (orZero p.daily_rate * toNumber daysOnSet
        + orZero p.flat_fee + orZero project.per_diem * toNumber daysOnSet)
      hotel := acc.hotel + orZero p.hotel_nights * orZero project.hotel_cost_per_night
      travel := acc.travel + orZero p.travel_costs }
  else if p.type = "darsteller" then
    { acc with
      darsteller := acc.darsteller + (orZero p.daily_rate * toNumber daysOnSet
        + orZero p.flat_fee + orZero project.per_diem * toNumber daysOnSet)
      hotel := acc.hotel + orZero p.hotel_nights * orZero project.hotel_cost_per_night
      travel := acc.travel + orZero p.travel_costs }
  else if p.type = "leihe" then
    { acc with leihe := acc.leihe + orZero p.costs }
  else if p.type = "location" then
    { acc with location := acc.location + orZero p.costs }
  else if p.type = "sonstiges" then
    { acc with sonstiges := acc.sonstiges + orZero p.costs }
  else acc

/-- The source function `calculateSummaries`. -/
def calculateSummaries (project : Option Project) : Summaries :=
  match project with
  | none => Summaries.zero
  | some project =>
    match project.positions with
    | none => Summaries.zero
    | some positions =>
      let activePositions := positions.filter (fun p => p.active)
      let b := activePositions.foldl (summaryStep project) ⟨0, 0, 0, 0, 0, 0, 0⟩
      { crew := b.crew, darsteller := b.darsteller, hotel := b.hotel, travel := b.travel,
        leihe := b.leihe, location := b.location, sonstiges := b.sonstiges,
        total := b.crew + b.darsteller + b.hotel + b.travel + b.leihe + b.location
          + b.sonstiges }

/-! ## `calculateHotelNights` (App.jsx 303-308) -/

/-- The source function `calculateHotelNights`. -/
def calculateHotelNights (project : Option Project) : JSNum :=
  match project with
  | none => 0
  | some project =>
    match project.positions with
    | none => 0
    | some positions =>
      (positions.filter
          (fun p => p.active && (p.type == "crew" || p.type == "darsteller"))).foldl
        (fun sum p => sum + orZero p.hotel_nights) 0

/-! ## `calculateComparison` (App.jsx 311-323) -/

/-- The record returned by `calculateComparison`. -/
structure Comparison where
  calculated : JSNum
  actual : JSNum
  difference : JSNum
deriving DecidableEq, Repr

/-- The source function `calculateComparison`. -/
def calculateComparison (project : Option Project) : Comparison :=
  match project with
  | none => ⟨0, 0, 0⟩
  | some pr =>
    match pr.positions with
    | none => ⟨0, 0, 0⟩
    | some positions =>
      let calculated := (positions.filter (fun p => p.active)).foldl
        (fun sum p => sum + calculatePositionSum project p) 0
      let actual := (positions.filter (fun p => p.active)).foldl
        (fun sum p => sum + orZero p.actual_costs) 0
      ⟨calculated, actual, calculated - actual⟩

/-! ## The comparison view (App.jsx 521-630) -/

/-- The local function `getPositionCostWithoutPerDiem` of the comparison view. -/
def getPositionCostWithoutPerDiem (project : Project) (pos : Position) : JSNum :=
  if pos.type = "leihe" ∨ pos.type = "location" ∨ pos.type = "sonstiges" then
    orZero pos.costs
  else
    let daysOnSet := nullish pos.days_on_set project.shooting_days
    let dailyRate := orZero pos.daily_rate * toNumber daysOnSet
    let flatFee := orZero pos.flat_fee
    let hotelCosts := orZero pos.hotel_nights * orZero project.hotel_cost_per_night
    let travelCosts := orZero pos.travel_costs
    dailyRate + flatFee + hotelCosts + travelCosts

/-- One table row of the comparison view. -/
structure ComparisonRow where
  key : String
  type : String
  name : String
  calculated : JSNum
  actual : JSNum
  diff : JSNum
deriving DecidableEq, Repr

/-- The synthetic "Verpflegungen gesamt" row. -/
structure PerDiemRow where
  calculated : JSNum
  actual : JSNum
  diff : JSNum
deriving DecidableEq, Repr

/-- Everything the comparison view computes and shows. -/
structure ComparisonView where
  rows : List ComparisonRow
  perDiemRow : Option PerDiemRow
  totalPerDiem : JSNum
  totalCalculated : JSNum
  totalActual : JSNum
deriving DecidableEq, Repr

/-- The row rendered for one active position (App.jsx 572-605). -/
def comparisonRow (project : Project) (pos : Position) : ComparisonRow :=
  let calculated := getPositionCostWithoutPerDiem project pos
  let actual := orZero pos.actual_costs
  let diff := calculated - actual
  { key := pos.id, type := pos.type,
    name := if pos.name = "" then "(ohne Name)" else pos.name,
    calculated := calculated, actual := actual, diff := diff }

/-- The body of the comparison view (App.jsx 521-630) on the position list
`positions` of `project`.  The view evaluates it when the list is non-empty. -/
def comparisonView (project : Project) (positions : List Position) : ComparisonView :=
  let perDiem := orZero project.per_diem
  let activePositions := positions.filter (fun p => p.active)
  let crewDarstellerPositions :=
    activePositions.filter (fun p => p.type == "crew" || p.type == "darsteller")
  let totalPerDiem := crewDarstellerPositions.foldl
    (fun acc pos => acc + perDiem * toNumber (nullish pos.days_on_set project.shooting_days)) 0
  let totalCalculated := activePositions.foldl
    (fun acc pos => acc + getPositionCostWithoutPerDiem project pos) 0 + totalPerDiem
  let totalActual := activePositions.foldl
    (fun acc pos => acc + orZero pos.actual_costs) (orZero project.actual_per_diem)
  { rows := activePositions.map (comparisonRow project),
    perDiemRow :=
      if totalPerDiem.gtZero then
        some { calculated := totalPerDiem, actual := orZero project.actual_per_diem,
               diff := totalPerDiem - orZero project.actual_per_diem }
      else none,
    totalPerDiem := totalPerDiem,
    totalCalculated := totalCalculated,
    totalActual := totalActual }

/-- The comparison section as rendered (App.jsx 518): the view is evaluated
only when the project has a non-empty position list, otherwise the section
shows a notice and no totals. -/
def comparisonSection (project : Project) : Option ComparisonView :=
  match project.positions with
  | some (p :: ps) => some (comparisonView project (p :: ps))
  | _ => none

/-! ## Vocabulary of the statements -/

/-- The five position types of the data model. -/
def recognizedType (t : String) : Prop :=
  t = "crew" ∨ t = "darsteller" ∨ t = "leihe" ∨ t = "location" ∨ t = "sonstiges"

instance : DecidablePred recognizedType := fun t => by
  unfold recognizedType
  infer_instance

/-- The three types whose positions cost their `costs`. -/
def simpleType (t : String) : Prop := t = "leihe" ∨ t = "location" ∨ t = "sonstiges"

instance : DecidablePred simpleType := fun t => by
  unfold simpleType
  infer_instance

/-- The days on set a position is charged for, as the number the arithmetic
sees: `position.days_on_set ?? project.shooting_days`. -/
def resolvedDays (project : Project) (p : Position) : JSNum :=
  toNumber (nullish p.days_on_set project.shooting_days)

/-- The day-dependent amount `dailyRate*d + flatFee + perDiem*d` of a crew or
darsteller position as the source computes it, missing fields counting as 0. -/
def dayCost (project : Project) (p : Position) : JSNum :=
  orZero p.daily_rate * resolvedDays project p + orZero p.flat_fee
    + orZero project.per_diem * resolvedDays project p

/-- The project record holding the position list `ps`. -/
abbrev Project.withPositions (pr : Project) (ps : List Position) : Project :=
  { pr with positions := some ps }

/-- A field is missing: the property is absent (`undefined`) or `null`. -/
def missing (v : JSVal) : Prop := v = JSVal.undefined ∨ v = JSVal.null

instance : DecidablePred missing := fun v => by
  unfold missing
  infer_instance

/-- The JavaScript sum of the numbers `xs` added one after the other to
`init`, as a `reduce` or a `forEach` with `+=` computes it:
`((init + x1) + x2) + ...`. -/
def sumFrom (init : JSNum) (xs : List JSNum) : JSNum :=
  xs.foldl (fun s x => s + x) init

/-- The field holding the whole number `n`. -/
def JSVal.int (n : Int) : JSVal := JSVal.num (JSNum.ofInt n)

/-- The field holding the double of the decimal literal `m * 10^-d`:
`JSVal.dec 1 1` is the field `0.1`. -/
def JSVal.dec (m : Int) (d : Nat) : JSVal := JSVal.num (JSNum.dec m d)

/-- The project of the examples: 5 shooting days, 80 per hotel night, per diem 20. -/
def exampleProject : Project :=
  { shooting_days := JSVal.int 5, hotel_cost_per_night := JSVal.int 80,
    per_diem := JSVal.int 20, actual_per_diem := JSVal.undefined, positions := none }

/-- The crew position of the examples: daily rate 300, 2 hotel nights, travel 50. -/
def exampleCrew : Position :=
  { id := "p1", type := "crew", name := "", daily_rate := JSVal.int 300,
    flat_fee := JSVal.undefined, hotel_nights := JSVal.int 2, travel_costs := JSVal.int 50,
    days_on_set := JSVal.undefined, costs := JSVal.undefined,
    actual_costs := JSVal.undefined, active := true }

/-- The location position of the examples: costs 450. -/
def exampleLocation : Position :=
  { id := "p2", type := "location", name := "", daily_rate := JSVal.undefined,
    flat_fee := JSVal.undefined, hotel_nights := JSVal.undefined,
    travel_costs := JSVal.undefined, days_on_set := JSVal.undefined,
    costs := JSVal.int 450, actual_costs := JSVal.undefined, active := true }

/-- A position of a type outside the data model (the type the store gives a
position created without one), with a daily rate of 100. -/
def exampleUnknown : Position :=
  { id := "p3", type := "position", name := "", daily_rate := JSVal.int 100,
    flat_fee := JSVal.undefined, hotel_nights := JSVal.undefined,
    travel_costs := JSVal.undefined, days_on_set := JSVal.undefined,
    costs := JSVal.undefined, actual_costs := JSVal.undefined, active := true }

/-- A project whose `shooting_days` property is absent. -/
def exampleProjectNoDays : Project :=
  { shooting_days := JSVal.undefined, hotel_cost_per_night := JSVal.int 80,
    per_diem := JSVal.int 20, actual_per_diem := JSVal.undefined, positions := none }

/-- The project of the per-diem example: per diem 20, nothing else. -/
def examplePerDiemProject : Project :=
  { shooting_days := JSVal.undefined, hotel_cost_per_night := JSVal.undefined,
    per_diem := JSVal.int 20, actual_per_diem := JSVal.undefined, positions := none }

/-- A crew position of the per-diem example: 3 days on set, nothing else. -/
def exampleCrewThreeDays : Position :=
  { id := "p4", type := "crew", name := "", daily_rate := JSVal.undefined,
    flat_fee := JSVal.undefined, hotel_nights := JSVal.undefined,
    travel_costs := JSVal.undefined, days_on_set := JSVal.int 3,
    costs := JSVal.undefined, actual_costs := JSVal.undefined, active := true }

/-- A project with one shooting day and no other field. -/
def exampleOneDayProject : Project :=
  { shooting_days := JSVal.int 1, hotel_cost_per_night := JSVal.undefined,
    per_diem := JSVal.undefined, actual_per_diem := JSVal.undefined, positions := none }

/-- An active crew position with no field but its type. -/
def exampleBareCrew : Position :=
  { id := "p5", type := "crew", name := "", daily_rate := JSVal.undefined,
    flat_fee := JSVal.undefined, hotel_nights := JSVal.undefined,
    travel_costs := JSVal.undefined, days_on_set := JSVal.undefined,
    costs := JSVal.undefined, actual_costs := JSVal.undefined, active := true }

/-- An active location position with the costs `c`. -/
def exampleLocationOf (id : String) (c : JSVal) : Position :=
  { id := id, type := "location", name := "", daily_rate := JSVal.undefined,
    flat_fee := JSVal.undefined, hotel_nights := JSVal.undefined,
    travel_costs := JSVal.undefined, days_on_set := JSVal.undefined,
    costs := c, actual_costs := JSVal.undefined, active := true }

/-- The days on set of a position with a missing value replaced by 0: its own
`days_on_set` when present, otherwise the project's `shooting_days`, 0 when
that is missing too. -/
def daysOrZero (project : Project) (p : Position) : JSNum :=
  match p.days_on_set with
  | JSVal.num x => x
  | _ =>
    match project.shooting_days with
    | JSVal.num x => x
    | _ => 0

/-- The amount `dailyRate*d + flatFee + perDiem*d` with every missing value
replaced by 0. -/
def dayAmount (project : Project) (p : Position) : JSNum :=
  orZero p.daily_rate * daysOrZero project p + orZero p.flat_fee
    + orZero project.per_diem * daysOrZero project p

/-- A finite number that is at least 0. -/
def JSNum.finiteNonneg : JSNum → Prop
  | fin k => 0 ≤ k
  | _ => False

instance : DecidablePred JSNum.finiteNonneg
  | fin k => inferInstanceAs (Decidable (0 ≤ k))
  | nan => inferInstanceAs (Decidable False)
  | inf _ => inferInstanceAs (Decidable False)

/-- One of the two infinities. -/
def JSNum.isInfinite : JSNum → Bool
  | inf _ => true
  | _ => false

/-- The amount a field stands for in the engine, `v || 0`, is finite and at
least 0: the field is missing or holds such a number. -/
def notNegative (v : JSVal) : Prop := (orZero v).finiteNonneg

instance : DecidablePred notNegative := fun v => by
  unfold notNegative
  infer_instance

/-- The amount a field stands for in the engine, `v || 0`, is a whole number. -/
def wholeField (v : JSVal) : Prop := (orZero v).isWhole = true

instance : DecidablePred wholeField := fun v => by
  unfold wholeField
  infer_instance

/-- The whole number a field stands for in the engine. -/
def intField (v : JSVal) : Int := (orZero v).intValue

/-- The days on set of a position as a whole number. -/
def intDays (project : Project) (p : Position) : Int := (resolvedDays project p).intValue

/-- The amount `dailyRate*d + flatFee + perDiem*d` in whole numbers. -/
def dayInt (project : Project) (p : Position) : Int :=
  intField p.daily_rate * intDays project p + intField p.flat_fee
    + intField project.per_diem * intDays project p

/-- The hotel amount `hotelNights*hotelCostPerNight` in whole numbers. -/
def hotelInt (project : Project) (p : Position) : Int :=
  intField p.hotel_nights * intField project.hotel_cost_per_night

/-- The position sum in whole numbers. -/
def costInt (project : Project) (p : Position) : Int :=
  if p.type = "crew" ∨ p.type = "darsteller" then
    intField p.daily_rate * intDays project p + intField p.flat_fee + hotelInt project p
      + intField p.travel_costs + intField project.per_diem * intDays project p
  else intField p.costs

/-- The cost without per diem of the comparison view in whole numbers. -/
def planInt (project : Project) (p : Position) : Int :=
  if simpleType p.type then intField p.costs
  else
    intField p.daily_rate * intDays project p + intField p.flat_fee + hotelInt project p
      + intField p.travel_costs

/-- The per diem of a position in whole numbers: `perDiem*d` for crew and
darsteller, nothing for the other types. -/
def perDiemInt (project : Project) (p : Position) : Int :=
  if p.type = "crew" ∨ p.type = "darsteller" then intField project.per_diem * intDays project p
  else 0

/-- An amount that counts for positions of the type `t` only. -/
def ownInt (t : String) (amount : Position → Int) (p : Position) : Int :=
  if p.type = t then amount p else 0

/-- An amount that counts for crew and darsteller positions only. -/
def sharedInt (amount : Position → Int) (p : Position) : Int :=
  if p.type = "crew" ∨ p.type = "darsteller" then amount p else 0

/-- The size of the amounts of a position: the sum of the absolute values of
the terms that enter its sums (of `costs` and `actual_costs` alone for the
three simple types). -/
def magnitude (project : Project) (p : Position) : Nat :=
  if simpleType p.type then (intField p.costs).natAbs + (intField p.actual_costs).natAbs
  else
    (intField p.daily_rate * intDays project p).natAbs + (intField p.flat_fee).natAbs
      + (hotelInt project p).natAbs + (intField p.travel_costs).natAbs
      + (intField project.per_diem * intDays project p).natAbs
      + (intField p.costs).natAbs + (intField p.actual_costs).natAbs
      + (intField p.hotel_nights).natAbs

/-- Every amount of the position is a whole number, and so are its days on
set unless its type is one of the three simple ones. -/
def wholePosition (project : Project) (p : Position) : Prop :=
  wholeField p.daily_rate ∧ wholeField p.flat_fee ∧ wholeField p.hotel_nights
    ∧ wholeField p.travel_costs ∧ wholeField p.costs ∧ wholeField p.actual_costs
    ∧ (simpleType p.type ∨ (resolvedDays project p).isWhole = true)

instance (project : Project) (p : Position) : Decidable (wholePosition project p) := by
  unfold wholePosition
  infer_instance

/-- Whole amounts in the safe range: the rates of the project and every
amount of every active position are whole numbers, and the sizes of all
amounts together stay below `2^53`, where every intermediate result of the
engine is a double. -/
def safeInputs (project : Project) (ps : List Position) : Prop :=
  wholeField project.hotel_cost_per_night ∧ wholeField project.per_diem
    ∧ wholeField project.actual_per_diem
    ∧ (∀ p ∈ ps, p.active = true → wholePosition project p)
    ∧ (intField project.actual_per_diem).natAbs
        + ((ps.filter (fun p => p.active)).map (magnitude project)).sum < 2 ^ 53

instance (project : Project) (ps : List Position) : Decidable (safeInputs project ps) := by
  unfold safeInputs
  infer_instance

/-- The record `calculateSummaries` returns on whole amounts in the safe
range, in whole numbers. -/
def summariesInt (project : Project) (ps : List Position) : Summaries :=
  let act := ps.filter (fun p => p.active)
  let crew := (act.map (ownInt "crew" (dayInt project))).sum
  let darsteller := (act.map (ownInt "darsteller" (dayInt project))).sum
  let hotel := (act.map (sharedInt (hotelInt project))).sum
  let travel := (act.map (sharedInt (fun p => intField p.travel_costs))).sum
  let leihe := (act.map (ownInt "leihe" (fun p => intField p.costs))).sum
  let location := (act.map (ownInt "location" (fun p => intField p.costs))).sum
  let sonstiges := (act.map (ownInt "sonstiges" (fun p => intField p.costs))).sum
  { crew := JSNum.ofInt crew, darsteller := JSNum.ofInt darsteller,
    hotel := JSNum.ofInt hotel, travel := JSNum.ofInt travel, leihe := JSNum.ofInt leihe,
    location := JSNum.ofInt location, sonstiges := JSNum.ofInt sonstiges,
    total := JSNum.ofInt (crew + darsteller + hotel + travel + leihe + location + sonstiges) }

/-! ## The store (server.js)

The two `PUT` handlers of `src/backend/server.js` on a store of rows.  A
column holds SQL `NULL` (`none`) or a value; amounts are whole numbers, which
the handlers copy and never compute with.  A request supplies, for a numeric
or text column, `null` or a value of the column's type, and for a flag any
value, of which the handler reads the truthiness.  `CURRENT_TIMESTAMP` is the parameter `now`. -/

/-- A property of a JSON request body as a handler destructures it: `absent`
(no such key, the variable is `undefined`), `null`, or a value. -/
inductive Field (α : Type) where
  | absent
  | null
  | val (a : α)
deriving DecidableEq, Repr

/-- JavaScript `x !== undefined` on a destructured property. -/
def Field.supplied {α : Type} : Field α → Bool
  | Field.absent => false
  | _ => true

/-- The value a property binds to the `?` of a statement; `null` binds `NULL`. -/
def Field.bound {α : Type} : Field α → Option α
  | Field.val a => some a
  | _ => none

/-- JavaScript `x ? 1 : 0` on a flag property. -/
def Field.flag : Field Bool → Int
  | Field.val true => 1
  | _ => 0

/-- A row of the table `projects`; `name` is declared `NOT NULL`. -/
structure ProjectRow where
  id : String
  name : String
  shooting_days : Option Int
  include_hotel : Option Int
  hotel_cost_per_night : Option Int
  per_diem : Option Int
  actual_per_diem : Option Int
  archived : Option Int
  created_at : String
  updated_at : String
deriving DecidableEq, Repr

/-- A row of the table `positions`. -/
structure PositionRow where
  id : String
  project_id : String
  type : String
  name : Option String
  daily_rate : Option Int
  flat_fee : Option Int
  hotel_nights : Option Int
  travel_costs : Option Int
  days_on_set : Option Int
  costs : Option Int
  color : Option String
  active : Option Int
  actual_costs : Option Int
  sort_order : Option Int
  created_at : String
deriving DecidableEq, Repr

/-- The two tables. -/
structure Db where
  projects : List ProjectRow
  positions : List PositionRow
deriving DecidableEq, Repr

/-- The body of a `PUT /api/projects/:id` request, with the properties the
client sends (`updateProjectField`, `toggleArchive`). -/
structure ProjectBody where
  name : Field String
  shooting_days : Field Int
  include_hotel : Field Bool
  hotel_cost_per_night : Field Int
  per_diem : Field Int
  actual_per_diem : Field Int
  archived : Field Bool
deriving DecidableEq, Repr

/-- The body of a `PUT /api/positions/:id` request. -/
structure PositionBody where
  name : Field String
  daily_rate : Field Int
  flat_fee : Field Int
  hotel_nights : Field Int
  travel_costs : Field Int
  days_on_set : Field Int
  costs : Field Int
  color : Field String
  active : Field Bool
  actual_costs : Field Int
  sort_order : Field Int
deriving DecidableEq, Repr

/-- One `column = ?` of the project handler's `updates`, with the entry of
`values` bound to it. -/
inductive ProjectSet where
  | name (v : Option String)
  | shooting_days (v : Option Int)
  | include_hotel (v : Int)
  | hotel_cost_per_night (v : Option Int)
  | per_diem (v : Option Int)
  | archived (v : Int)
  | updated_at (now : String)
deriving DecidableEq, Repr

/-- One `column = ?` of the position handler's `updates`, with the entry of
`values` bound to it. -/
inductive PositionSet where
  | name (v : Option String)
  | daily_rate (v : Option Int)
  | flat_fee (v : Option Int)
  | hotel_nights (v : Option Int)
  | travel_costs (v : Option Int)
  | days_on_set (v : Option Int)
  | costs (v : Option Int)
  | color (v : Option String)
  | active (v : Int)
  | actual_costs (v : Option Int)
  | sort_order (v : Option Int)
deriving DecidableEq, Repr

/-- The `updates` and `values` arrays of `PUT /api/projects/:id`
(server.js 92-104): the handler destructures six properties, then always
appends `updated_at = CURRENT_TIMESTAMP`. -/
def projectUpdates (body : ProjectBody) (now : String) : List ProjectSet :=
  (if body.name.supplied then [ProjectSet.name body.name.bound] else [])
    ++ (if body.shooting_days.supplied then
          [ProjectSet.shooting_days body.shooting_days.bound] else [])
    ++ (if body.include_hotel.supplied then
          [ProjectSet.include_hotel body.include_hotel.flag] else [])
    ++ (if body.hotel_cost_per_night.supplied then
          [ProjectSet.hotel_cost_per_night body.hotel_cost_per_night.bound] else [])
    ++ (if body.per_diem.supplied then [ProjectSet.per_diem body.per_diem.bound] else [])
    ++ (if body.archived.supplied then [ProjectSet.archived body.archived.flag] else [])
    ++ [ProjectSet.updated_at now]

/-- One assignment of an `UPDATE projects SET ...` on one row; `none` when it
violates the `NOT NULL` of `name`. -/
def ProjectRow.set (r : ProjectRow) : ProjectSet → Option ProjectRow
  | ProjectSet.name none => none
  | ProjectSet.name (some s) => some { r with name := s }
  | ProjectSet.shooting_days v => some { r with shooting_days := v }
  | ProjectSet.include_hotel v => some { r with include_hotel := some v }
  | ProjectSet.hotel_cost_per_night v => some { r with hotel_cost_per_night := v }
  | ProjectSet.per_diem v => some { r with per_diem := v }
  | ProjectSet.archived v => some { r with archived := some v }
  | ProjectSet.updated_at now => some { r with updated_at := now }

/-- All assignments of one statement on one row, in order. -/
def ProjectRow.setAll (r : ProjectRow) : List ProjectSet → Option ProjectRow
  | [] => some r
  | s :: rest =>
    match r.set s with
    | none => none
    | some r' => r'.setAll rest

/-- The statement `UPDATE projects SET ... WHERE id = ?` on the table; `none`
when a constraint fails, in which case nothing is written. -/
def updateProjectsWhereId (sets : List ProjectSet) (id : String) :
    List ProjectRow → Option (List ProjectRow)
  | [] => some []
  | r :: rows =>
    match (if r.id = id then r.setAll sets else some r), updateProjectsWhereId sets id rows with
    | some r', some rows' => some (r' :: rows')
    | _, _ => none

/-- The handler `PUT /api/projects/:id` (server.js 91-110) as a step on the
store; `none` when the statement throws. -/
def putProject (db : Db) (id : String) (body : ProjectBody) (now : String) : Option Db :=
  match updateProjectsWhereId (projectUpdates body now) id db.projects with
  | none => none
  | some projects => some { db with projects := projects }

/-- The `updates` and `values` arrays of `PUT /api/positions/:id`
(server.js 140-154). -/
def positionUpdates (body : PositionBody) : List PositionSet :=
  (if body.name.supplied then [PositionSet.name body.name.bound] else [])
    ++ (if body.daily_rate.supplied then [PositionSet.daily_rate body.daily_rate.bound] else [])
    ++ (if body.flat_fee.supplied then [PositionSet.flat_fee body.flat_fee.bound] else [])
    ++ (if body.hotel_nights.supplied then
          [PositionSet.hotel_nights body.hotel_nights.bound] else [])
    ++ (if body.travel_costs.supplied then
          [PositionSet.travel_costs body.travel_costs.bound] else [])
    ++ (if body.days_on_set.supplied then
          [PositionSet.days_on_set body.days_on_set.bound] else [])
    ++ (if body.costs.supplied then [PositionSet.costs body.costs.bound] else [])
    ++ (if body.color.supplied then [PositionSet.color body.color.bound] else [])
    ++ (if body.active.supplied then [PositionSet.active body.active.flag] else [])
    ++ (if body.actual_costs.supplied then
          [PositionSet.actual_costs body.actual_costs.bound] else [])
    ++ (if body.sort_order.supplied then
          [PositionSet.sort_order body.sort_order.bound] else [])

/-- One assignment of an `UPDATE positions SET ...` on one row. -/
def PositionRow.set (r : PositionRow) : PositionSet → PositionRow
  | PositionSet.name v => { r with name := v }
  | PositionSet.daily_rate v => { r with daily_rate := v }
  | PositionSet.flat_fee v => { r with flat_fee := v }
  | PositionSet.hotel_nights v => { r with hotel_nights := v }
  | PositionSet.travel_costs v => { r with travel_costs := v }
  | PositionSet.days_on_set v => { r with days_on_set := v }
  | PositionSet.costs v => { r with costs := v }
  | PositionSet.color v => { r with color := v }
  | PositionSet.active v => { r with active := some v }
  | PositionSet.actual_costs v => { r with actual_costs := v }
  | PositionSet.sort_order v => { r with sort_order := v }

/-- The handler `PUT /api/positions/:id` (server.js 139-169) as a step on the
store: with no supplied property nothing is written; otherwise the row with
that id is updated and its project's `updated_at` refreshed. -/
def putPosition (db : Db) (id : String) (body : PositionBody) (now : String) : Db :=
  let updates := positionUpdates body
  if updates.length = 0 then db
  else
    let positions := db.positions.map
      (fun r => if r.id = id then updates.foldl PositionRow.set r else r)
    match positions.find? (fun r => r.id = id) with
    | some position =>
      { projects := db.projects.map
          (fun p => if p.id = position.project_id then { p with updated_at := now } else p),
        positions := positions }
    | none => { db with positions := positions }

/-- What partial-update semantics asks of one column: an absent property
leaves it, `null` empties it, a value overwrites it. -/
def overwrites {α : Type} (supplied : Field α) (old new : Option α) : Prop :=
  match supplied with
  | Field.absent => new = old
  | Field.null => new = none
  | Field.val a => new = some a

/-- What partial-update semantics asks of a flag column stored as 1 or 0. -/
def overwritesFlag (supplied : Field Bool) (old new : Option Int) : Prop :=
  match supplied with
  | Field.absent => new = old
  | Field.null => new = some 0
  | Field.val b => new = some (if b then 1 else 0)

/-- A request body that supplies nothing. -/
def ProjectBody.empty : ProjectBody :=
  ⟨Field.absent, Field.absent, Field.absent, Field.absent, Field.absent, Field.absent,
    Field.absent⟩

/-- A request body that supplies nothing. -/
def PositionBody.empty : PositionBody :=
  ⟨Field.absent, Field.absent, Field.absent, Field.absent, Field.absent, Field.absent,
    Field.absent, Field.absent, Field.absent, Field.absent, Field.absent⟩

/-- A project row as `POST /api/projects` creates it. -/
def exampleProjectRow : ProjectRow :=
  { id := "a", name := "Neues Projekt", shooting_days := some 1, include_hotel := some 0,
    hotel_cost_per_night := some 0, per_diem := some 0, actual_per_diem := some 0,
    archived := some 0, created_at := "t0", updated_at := "t0" }

/-- A crew row of project `a` as `POST /api/projects/:id/positions` creates it. -/
def examplePositionRow : PositionRow :=
  { id := "x", project_id := "a", type := "crew", name := some "", daily_rate := some 0,
    flat_fee := some 0, hotel_nights := some 0, travel_costs := some 0, days_on_set := none,
    costs := some 0, color := none, active := some 1, actual_costs := none,
    sort_order := some 1, created_at := "t0" }

/-- The column after the handler's conditional assignment of a property. -/
def Field.update {α : Type} (f : Field α) (old : Option α) : Option α :=
  match f with
  | Field.absent => old
  | Field.null => none
  | Field.val a => some a

/-- The flag column after the handler's conditional assignment of a property. -/
def Field.updateFlag (f : Field Bool) (old : Option Int) : Option Int :=
  match f with
  | Field.absent => old
  | _ => some f.flag

/-! ## Drag and drop (App.jsx 227-238) -/

/-- The handler `handleDragOver` on the position list and the `draggedIndex`
state.  An element of the new list is `none` where `splice` inserted the
`undefined` it got from removing nothing.  Returns the list and the new
`draggedIndex`. -/
def handleDragOver {α : Type} (draggedIndex : Option Nat) (index : Nat) (positions : List α) :
    List (Option α) × Option Nat :=
  match draggedIndex with
  | none => (positions.map some, none)
  | some d =>
    if d = index then (positions.map some, some d)
    else
      -- `const [draggedItem] = newPositions.splice(draggedIndex, 1)`
      let draggedItem := positions[d]?
      let newPositions := positions.take d ++ positions.drop (d + 1)
      -- `newPositions.splice(index, 0, draggedItem)`
      ((newPositions.take index).map some ++ draggedItem :: (newPositions.drop index).map some,
        some index)

/-- The sum of the differences of the rows the comparison view shows, from
top to bottom: the rows of the positions and, when it is shown, the per-diem
row. -/
def shownDifferences (v : ComparisonView) : JSNum :=
  sumFrom 0 (v.rows.map (fun r => r.diff))
    + (match v.perDiemRow with
      | some row => row.diff
      | none => 0)

/-! ## The other writing handlers of server.js

Identifiers come from `uuidv4()` and are parameters of the steps.  Whether the
store enforces the declared foreign key of `positions.project_id` is a setting
of the SQLite binding that the repository does not fix; it is the parameter
`foreignKeys`. -/

/-- The body of a `POST /api/projects/:id/positions` request. -/
structure PositionPost where
  type : Field String
deriving DecidableEq, Repr

/-- The statement `UPDATE projects SET updated_at = CURRENT_TIMESTAMP WHERE id = ?`. -/
def touchProject (projects : List ProjectRow) (id now : String) : List ProjectRow :=
  projects.map (fun p => if p.id = id then { p with updated_at := now } else p)

/-- SQL `MAX(sort_order)` over rows: `NULL` when no row holds a value. -/
def maxSortOrder (rows : List PositionRow) : Option Int :=
  rows.foldl
    (fun m r =>
      match m, r.sort_order with
      | none, v => v
      | some a, none => some a
      | some a, some b => some (max a b))
    none

/-- The handler `POST /api/projects` (server.js 79-88) as a step on the store;
`none` when the insert violates `NOT NULL` of `name` or the primary key. -/
def createProject (db : Db) (name : Field String) (newId now : String) : Option Db :=
  -- `const { name = 'Neues Projekt' } = req.body`
  let name? : Option String :=
    match name with
    | Field.absent => some "Neues Projekt"
    | Field.null => none
    | Field.val s => some s
  match name? with
  | none => none
  | some n =>
    if db.projects.any (fun p => p.id = newId) then none
    else
      some { db with projects := db.projects ++
        [{ id := newId, name := n, shooting_days := some 1, include_hotel := some 0,
           hotel_cost_per_night := some 0, per_diem := some 0, actual_per_diem := some 0,
           archived := some 0, created_at := now, updated_at := now }] }

/-- The handler `DELETE /api/projects/:id` (server.js 113-117). -/
def deleteProject (db : Db) (id : String) : Db :=
  { projects := db.projects.filter (fun p => p.id ≠ id),
    positions := db.positions.filter (fun r => r.project_id ≠ id) }

/-- The handler `POST /api/projects/:id/positions` (server.js 120-136) as a
step on the store; `none` when the insert violates `NOT NULL` of `type`, the
primary key, or the foreign key where that is enforced. -/
def addPosition (foreignKeys : Bool) (db : Db) (projectId : String) (body : PositionPost)
    (positionId now : String) : Option Db :=
  -- `const { type = 'position' } = req.body`
  let type? : Option String :=
    match body.type with
    | Field.absent => some "position"
    | Field.null => none
    | Field.val t => some t
  let maxOrder := maxSortOrder (db.positions.filter (fun r => r.project_id = projectId))
  -- `(maxOrder.max || 0) + 1`
  let sortOrder : Int :=
    (match maxOrder with
      | some m => if m = 0 then 0 else m
      | none => 0) + 1
  match type? with
  | none => none
  | some t =>
    if db.positions.any (fun r => r.id = positionId) then none
    else if foreignKeys && !db.projects.any (fun p => p.id = projectId) then none
    else
      some { projects := touchProject db.projects projectId now,
             positions := db.positions ++
               [{ id := positionId, project_id := projectId, type := t, name := some "",
                  daily_rate := some 0, flat_fee := some 0, hotel_nights := some 0,
                  travel_costs := some 0, days_on_set := none, costs := some 0,
                  color := none, active := some 1, actual_costs := none,
                  sort_order := some sortOrder, created_at := now }] }

/-- The handler `DELETE /api/positions/:id` (server.js 172-179). -/
def deletePosition (db : Db) (id now : String) : Db :=
  let projects :=
    match db.positions.find? (fun r => r.id = id) with
    | some position => touchProject db.projects position.project_id now
    | none => db.projects
  { projects := projects, positions := db.positions.filter (fun r => r.id ≠ id) }

/-- The handler `PUT /api/projects/:id/reorder` (server.js 182-190): the
position with the `index`-th id of the body gets `sort_order = index`. -/
def reorder (db : Db) (projectId : String) (ids : List String) (now : String) : Db :=
  let positions := ids.enum.foldl
    (fun rows x =>
      rows.map (fun r => if r.id = x.2 then { r with sort_order := some (x.1 : Int) } else r))
    db.positions
  { projects := touchProject db.projects projectId now, positions := positions }

/-- A request that writes to the store. -/
inductive Request where
  | createProject (name : Field String) (newId now : String)
  | putProject (id : String) (body : ProjectBody) (now : String)
  | deleteProject (id : String)
  | addPosition (projectId : String) (body : PositionPost) (positionId now : String)
  | putPosition (id : String) (body : PositionBody) (now : String)
  | deletePosition (id now : String)
  | reorder (projectId : String) (ids : List String) (now : String)
deriving DecidableEq, Repr

/-- One request on the store; a request whose statement throws writes nothing. -/
def step (foreignKeys : Bool) (db : Db) : Request → Db
  | Request.createProject name newId now => (createProject db name newId now).getD db
  | Request.putProject id body now => (putProject db id body now).getD db
  | Request.deleteProject id => deleteProject db id
  | Request.addPosition projectId body positionId now =>
    (addPosition foreignKeys db projectId body positionId now).getD db
  | Request.putPosition id body now => putPosition db id body now
  | Request.deletePosition id now => deletePosition db id now
  | Request.reorder projectId ids now => reorder db projectId ids now

/-- The store before any request. -/
def Db.empty : Db := ⟨[], []⟩

/-- The type invariant of the data model on a store: every position row has
one of the five types. -/
def typeInvariant (db : Db) : Prop := ∀ r ∈ db.positions, recognizedType r.type

instance (db : Db) : Decidable (typeInvariant db) := by
  unfold typeInvariant
  infer_instance

/-- The request, when it adds a position, supplies one of the five types. -/
def suppliesRecognizedType : Request → Prop
  | Request.addPosition _ ⟨Field.val t⟩ _ _ => recognizedType t
  | Request.addPosition _ _ _ _ => False
  | _ => True

instance : DecidablePred suppliesRecognizedType
  | Request.addPosition _ ⟨Field.val t⟩ _ _ => inferInstanceAs (Decidable (recognizedType t))
  | Request.addPosition _ ⟨Field.absent⟩ _ _ => inferInstanceAs (Decidable False)
  | Request.addPosition _ ⟨Field.null⟩ _ _ => inferInstanceAs (Decidable False)
  | Request.createProject _ _ _ => inferInstanceAs (Decidable True)
  | Request.putProject _ _ _ => inferInstanceAs (Decidable True)
  | Request.deleteProject _ => inferInstanceAs (Decidable True)
  | Request.putPosition _ _ _ => inferInstanceAs (Decidable True)
  | Request.deletePosition _ _ => inferInstanceAs (Decidable True)
  | Request.reorder _ _ _ => inferInstanceAs (Decidable True)

/-! ## Arithmetic of `JSNum` -/

namespace JSNum

theorem bitFloor_le (a : Nat) (ha : a ≠ 0) : 2 ^ bitFloor a ≤ a := by
  have key : ∀ (ws : List Nat) (l : Nat), 2 ^ l ≤ a →
      2 ^ (ws.foldl (fun l w => if 2 ^ (l + w) ≤ a then l + w else l) l) ≤ a := by
    intro ws
    induction ws with
    | nil => intro l h; exact h
    | cons w rest ih =>
      intro l h
      rw [List.foldl_cons]
      apply ih
      split_ifs with hw
      · exact hw
      · exact h
  apply key
  rw [pow_zero]
  exact Nat.one_le_iff_ne_zero.mpr ha

theorem scale_eq : scale = 2 ^ 1074 := by decide!

theorem scale_pos : 0 < scale := by decide!

theorem safe_lt_limit : 2 ^ 53 * scale < 2 ^ 2098 := by decide!

theorem scale_mul_pow (extra : Nat) : scale * 2 ^ extra = 2 ^ (1074 + extra) := by
  rw [scale_eq, Nat.pow_add]

theorem pow_scale (a b : Nat) (h : a + b = 1074) : 2 ^ a * 2 ^ b = scale :=
  (Nat.pow_add 2 a b).symm.trans ((congrArg (fun n => 2 ^ n) h).trans scale_eq.symm)

/-- A whole number below `2^53`, whatever its scaling, is a double: rounding
returns it. -/
theorem roundMag_exact (n extra : Nat) (hn : n < 2 ^ 53) :
    roundMag (n * (scale * 2 ^ extra)) extra = some (n * scale) := by
  by_cases h0 : n = 0
  · subst h0
    unfold roundMag
    rw [Nat.zero_mul, if_pos rfl, Nat.zero_mul]
  have hsc := scale_pos
  have he : 0 < 2 ^ extra := Nat.pos_pow_of_pos extra (by decide)
  have ha : n * (scale * 2 ^ extra) ≠ 0 :=
    Nat.mul_ne_zero h0 (Nat.mul_ne_zero (Nat.pos_iff_ne_zero.mp hsc) (Nat.pos_iff_ne_zero.mp he))
  have hL := bitFloor_le _ ha
  unfold roundMag
  rw [if_neg ha]
  generalize bitFloor (n * (scale * 2 ^ extra)) = L at hL ⊢
  obtain ⟨S, hS, hSpow⟩ : ∃ S, S = 1074 + extra ∧ scale * 2 ^ extra = 2 ^ S :=
    ⟨_, rfl, scale_mul_pow extra⟩
  rw [hSpow] at hL ha ⊢
  have hlt : 2 ^ L < 2 ^ (53 + S) := by
    calc 2 ^ L ≤ n * 2 ^ S := hL
      _ < 2 ^ 53 * 2 ^ S := Nat.mul_lt_mul_of_pos_right hn (Nat.pos_pow_of_pos S (by decide))
      _ = 2 ^ (53 + S) := (Nat.pow_add 2 53 S).symm
  have hL' : L < 53 + S := (Nat.pow_lt_pow_iff_right (by decide)).mp hlt
  generalize ht : max (L - 52) extra = t
  have ht1 : t ≤ S := by
    rw [← ht]
    apply max_le <;> omega
  have ht2 : extra ≤ t := by
    rw [← ht]
    exact le_max_right _ _
  have hsplit : n * 2 ^ S = (n * 2 ^ (S - t)) * 2 ^ t := by
    rw [Nat.mul_assoc, ← Nat.pow_add, Nat.sub_add_cancel ht1]
  have hpos : 0 < 2 ^ t := Nat.pos_pow_of_pos t (by decide)
  have hdiv : n * 2 ^ S / 2 ^ t = n * 2 ^ (S - t) := by
    rw [hsplit]
    exact Nat.mul_div_cancel _ hpos
  have hmod : n * 2 ^ S % 2 ^ t = 0 := by
    rw [hsplit]
    exact Nat.mul_mod_left _ _
  have hexp : S - t + (t - extra) = 1074 := by omega
  have hk : n * 2 ^ (S - t) * 2 ^ (t - extra) = n * scale := by
    rw [Nat.mul_assoc, pow_scale _ _ hexp]
  have hc : ¬ (2 ^ t < 2 * 0 ∨ 2 * 0 = 2 ^ t ∧ n * 2 ^ (S - t) % 2 = 1) := by
    rintro (h | ⟨h, _⟩)
    · rw [Nat.mul_zero] at h
      exact Nat.not_lt_zero _ h
    · rw [Nat.mul_zero] at h
      exact Nat.ne_of_lt hpos h
  have hbound : ¬ 2 ^ 2098 ≤ n * scale := by
    rw [not_le]
    exact lt_trans (Nat.mul_lt_mul_of_pos_right hn hsc) safe_lt_limit
  dsimp only
  rw [hdiv, hmod, if_neg hc, hk, if_neg hbound]

/-- Rounding leaves a whole number below `2^53` as it is. -/
theorem round_ofInt (z : Int) (extra c : Nat) (hce : c = scale * 2 ^ extra)
    (h : z.natAbs < 2 ^ 53) : round (z * (c : Int)) extra = ofInt z := by
  subst hce
  have hc : (0 : Int) < ((scale * 2 ^ extra : Nat) : Int) :=
    Int.ofNat_pos.mpr (Nat.mul_pos scale_pos (Nat.pos_pow_of_pos _ (by decide)))
  have hs : (0 : Int) < (scale : Int) := Int.ofNat_pos.mpr scale_pos
  unfold round ofInt
  rw [Int.natAbs_mul, Int.natAbs_ofNat, roundMag_exact _ _ h]
  dsimp only
  congr 1
  by_cases hz : z < 0
  · rw [if_pos (Int.mul_neg_of_neg_of_pos hz hc), Int.ofNat_mul, ← Int.neg_mul,
      Int.ofNat_natAbs_of_nonpos (le_of_lt hz), Int.neg_neg]
  · have hz' : 0 ≤ z := not_lt.mp hz
    rw [if_neg (not_lt.mpr (Int.mul_nonneg hz' (le_of_lt hc))), Int.ofNat_mul,
      Int.natAbs_of_nonneg hz']

theorem ofInt_zero : ofInt 0 = fin 0 := by
  unfold ofInt
  rw [Int.zero_mul]

theorem zero_def : (0 : JSNum) = fin 0 := rfl

theorem ofInt_eq_zero_iff (a : Int) : a * (scale : Int) = 0 ↔ a = 0 := by
  have hs : (scale : Int) ≠ 0 := Int.ofNat_ne_zero.mpr (Nat.pos_iff_ne_zero.mp scale_pos)
  constructor
  · intro h
    rcases Int.mul_eq_zero.mp h with h | h
    · exact h
    · exact absurd h hs
  · intro h
    rw [h, Int.zero_mul]

theorem add_fin_fin (a b : Int) :
    add (fin a) (fin b) = if b = 0 then fin a else if a = 0 then fin b else round (a + b) 0 :=
  rfl

theorem mul_fin_fin (a b : Int) : mul (fin a) (fin b) = round (a * b) 1074 := rfl

/-- Addition of whole numbers is exact as long as the sum stays below `2^53`. -/
theorem add_ofInt (a b : Int) (h : (a + b).natAbs < 2 ^ 53) :
    ofInt a + ofInt b = ofInt (a + b) := by
  show add (fin (a * scale)) (fin (b * scale)) = fin ((a + b) * scale)
  rw [add_fin_fin]
  by_cases hb : b = 0
  · rw [if_pos ((ofInt_eq_zero_iff b).mpr hb), hb, Int.add_zero]
  rw [if_neg (fun hh => hb ((ofInt_eq_zero_iff b).mp hh))]
  by_cases ha : a = 0
  · rw [if_pos ((ofInt_eq_zero_iff a).mpr ha), ha, Int.zero_add]
  rw [if_neg (fun hh => ha ((ofInt_eq_zero_iff a).mp hh))]
  rw [← Int.add_mul]
  exact round_ofInt (a + b) 0 scale (Nat.mul_one scale).symm h

theorem scale_mul_scale : scale * scale = scale * 2 ^ 1074 :=
  congrArg (fun n => scale * n) scale_eq

/-- Multiplication of whole numbers is exact as long as the product stays
below `2^53`. -/
theorem mul_ofInt (a b : Int) (h : (a * b).natAbs < 2 ^ 53) :
    ofInt a * ofInt b = ofInt (a * b) := by
  show mul (fin (a * scale)) (fin (b * scale)) = fin (a * b * scale)
  rw [mul_fin_fin]
  have e : a * (scale : Int) * (b * (scale : Int)) = a * b * ((scale * scale : Nat) : Int) := by
    rw [Int.ofNat_mul]
    ring
  rw [e]
  exact round_ofInt (a * b) 1074 (scale * scale) scale_mul_scale h

theorem neg_ofInt (a : Int) : neg (ofInt a) = ofInt (-a) := by
  show fin (-(a * scale)) = fin (-a * scale)
  rw [Int.neg_mul]

/-- Subtraction of whole numbers is exact as long as the difference stays
below `2^53`. -/
theorem sub_ofInt (a b : Int) (h : (a - b).natAbs < 2 ^ 53) :
    ofInt a - ofInt b = ofInt (a - b) := by
  show add (ofInt a) (neg (ofInt b)) = ofInt (a - b)
  rw [neg_ofInt]
  exact add_ofInt a (-b) h

theorem zero_add (x : JSNum) : 0 + x = x := by
  show add (fin 0) x = x
  cases x with
  | nan => rfl
  | inf b => rfl
  | fin k =>
    rw [add_fin_fin]
    by_cases hk : k = 0
    · rw [if_pos hk, hk]
    · rw [if_neg hk, if_pos rfl]

theorem add_zero (x : JSNum) : x + 0 = x := by
  show add x (fin 0) = x
  cases x with
  | nan => rfl
  | inf b => rfl
  | fin k =>
    rw [add_fin_fin, if_pos rfl]

theorem isWhole_ofInt (a : Int) : (ofInt a).isWhole = true := by
  show decide (a * (scale : Int) % (scale : Int) = 0) = true
  rw [Int.mul_emod_left]
  rfl

theorem intValue_ofInt (a : Int) : (ofInt a).intValue = a := by
  show a * (scale : Int) / (scale : Int) = a
  exact Int.mul_ediv_cancel a (Int.ofNat_ne_zero.mpr (Nat.pos_iff_ne_zero.mp scale_pos))

theorem eq_ofInt_of_isWhole (x : JSNum) (h : x.isWhole = true) : x = ofInt x.intValue := by
  cases x with
  | nan => cases h
  | inf b => cases h
  | fin k =>
    have hk : k % (scale : Int) = 0 := of_decide_eq_true h
    show fin k = fin (k / (scale : Int) * (scale : Int))
    rw [Int.ediv_mul_cancel (Int.dvd_of_emod_eq_zero hk)]

/-- Rounding a magnitude other than 0 (scaled by `2^-1074`) never gives 0. -/
theorem roundMag_pos (a : Nat) (ha : a ≠ 0) :
    roundMag a 0 = none ∨ ∃ k : Nat, 0 < k ∧ roundMag a 0 = some k := by
  have hL := bitFloor_le a ha
  unfold roundMag
  rw [if_neg ha]
  generalize bitFloor a = L at hL ⊢
  generalize ht : max (L - 52) 0 = t
  have htL : t ≤ L := by
    rw [← ht]
    apply max_le <;> omega
  have hpos : 0 < 2 ^ t := Nat.pos_pow_of_pos t (by decide)
  have hle : 2 ^ t ≤ a := le_trans (Nat.pow_le_pow_right (by decide) htL) hL
  have hm : 0 < a / 2 ^ t := Nat.div_pos hle hpos
  dsimp only
  generalize a / 2 ^ t = m at hm ⊢
  generalize a % 2 ^ t = r
  have hm' : 0 < (if 2 ^ t < 2 * r ∨ 2 * r = 2 ^ t ∧ m % 2 = 1 then m + 1 else m) := by
    split_ifs
    · exact Nat.succ_pos m
    · exact hm
  generalize (if 2 ^ t < 2 * r ∨ 2 * r = 2 ^ t ∧ m % 2 = 1 then m + 1 else m) = m' at hm' ⊢
  have hk : 0 < m' * 2 ^ (t - 0) := Nat.mul_pos hm' (Nat.pos_pow_of_pos _ (by decide))
  generalize m' * 2 ^ (t - 0) = k at hk ⊢
  split_ifs
  · exact Or.inl rfl
  · exact Or.inr ⟨k, hk, rfl⟩

theorem roundMag_zero (extra : Nat) : roundMag 0 extra = some 0 := by
  unfold roundMag
  rw [if_pos rfl]

theorem round_zero (extra : Nat) : round 0 extra = fin 0 := by
  unfold round
  rw [Int.natAbs_zero, roundMag_zero]
  rfl

theorem lt_fin_fin (a b : Int) : lt (fin a) (fin b) = decide (a < b) := rfl

/-- The sign of a rounded sum is the sign of the exact sum. -/
theorem gtZero_round (z : Int) : (round z 0).gtZero = decide (0 < z) := by
  by_cases hz : z = 0
  · subst hz
    rw [round_zero]
    rfl
  have ha : z.natAbs ≠ 0 := fun h => hz (Int.natAbs_eq_zero.mp h)
  unfold round
  rcases roundMag_pos z.natAbs ha with h | ⟨k, hk, h⟩
  · rw [h]
    show (!decide (z < 0)) = decide (0 < z)
    by_cases hn : z < 0
    · rw [decide_eq_true hn, decide_eq_false (by omega)]
      rfl
    · rw [decide_eq_false hn, decide_eq_true (by omega)]
      rfl
  · rw [h]
    show decide ((0 : Int) < (if z < 0 then -(k : Int) else (k : Int))) = decide (0 < z)
    by_cases hn : z < 0
    · rw [if_pos hn, decide_eq_false (by omega), decide_eq_false (by omega)]
    · rw [if_neg hn, decide_eq_true (by omega), decide_eq_true (by omega)]

theorem ltZero_round (z : Int) : (round z 0).ltZero = decide (z < 0) := by
  by_cases hz : z = 0
  · subst hz
    rw [round_zero]
    rfl
  have ha : z.natAbs ≠ 0 := fun h => hz (Int.natAbs_eq_zero.mp h)
  unfold round
  rcases roundMag_pos z.natAbs ha with h | ⟨k, hk, h⟩
  · rw [h]
    show decide (z < 0) = decide (z < 0)
    rfl
  · rw [h]
    show decide ((if z < 0 then -(k : Int) else (k : Int)) < 0) = decide (z < 0)
    by_cases hn : z < 0
    · rw [if_pos hn, decide_eq_true (by omega), decide_eq_true hn]
    · rw [if_neg hn, decide_eq_false (by omega), decide_eq_false hn]

/-- JavaScript `a - b > 0` holds exactly when `b < a`. -/
theorem gtZero_sub (x y : JSNum) : (x - y).gtZero = lt y x := by
  show (add x (neg y)).gtZero = lt y x
  cases x with
  | nan => cases y <;> rfl
  | inf a =>
    cases y with
    | nan => rfl
    | inf b => cases a <;> cases b <;> rfl
    | fin k => rfl
  | fin a =>
    cases y with
    | nan => rfl
    | inf b => cases b <;> rfl
    | fin b =>
      show (add (fin a) (fin (-b))).gtZero = decide (b < a)
      rw [add_fin_fin]
      by_cases hb : -b = 0
      · rw [if_pos hb]
        show decide (0 < a) = decide (b < a)
        have : b = 0 := by omega
        rw [this]
      rw [if_neg hb]
      by_cases ha : a = 0
      · rw [if_pos ha]
        show decide (0 < -b) = decide (b < a)
        rw [ha]
        by_cases h : b < 0
        · rw [decide_eq_true h, decide_eq_true (by omega)]
        · rw [decide_eq_false h, decide_eq_false (by omega)]
      rw [if_neg ha, gtZero_round]
      by_cases h : b < a
      · rw [decide_eq_true h, decide_eq_true (by omega)]
      · rw [decide_eq_false h, decide_eq_false (by omega)]

/-- JavaScript `a - b < 0` holds exactly when `a < b`. -/
theorem ltZero_sub (x y : JSNum) : (x - y).ltZero = lt x y := by
  show (add x (neg y)).ltZero = lt x y
  cases x with
  | nan => cases y <;> rfl
  | inf a =>
    cases y with
    | nan => rfl
    | inf b => cases a <;> cases b <;> rfl
    | fin k => rfl
  | fin a =>
    cases y with
    | nan => rfl
    | inf b => cases b <;> rfl
    | fin b =>
      show (add (fin a) (fin (-b))).ltZero = decide (a < b)
      rw [add_fin_fin]
      by_cases hb : -b = 0
      · rw [if_pos hb]
        show decide (a < 0) = decide (a < b)
        have : b = 0 := by omega
        rw [this]
      rw [if_neg hb]
      by_cases ha : a = 0
      · rw [if_pos ha]
        show decide (-b < 0) = decide (a < b)
        rw [ha]
        by_cases h : 0 < b
        · rw [decide_eq_true h, decide_eq_true (by omega)]
        · rw [decide_eq_false h, decide_eq_false (by omega)]
      rw [if_neg ha, ltZero_round]
      by_cases h : a < b
      · rw [decide_eq_true h, decide_eq_true (by omega)]
      · rw [decide_eq_false h, decide_eq_false (by omega)]

theorem gtZero_iff (x : JSNum) :
    x.gtZero = true ↔ x = inf false ∨ ∃ t : Int, x = fin t ∧ 0 < t := by
  cases x with
  | nan =>
    constructor
    · intro h
      cases h
    · rintro (h | ⟨t, h, _⟩) <;> cases h
  | inf b =>
    cases b
    · exact ⟨fun _ => Or.inl rfl, fun _ => rfl⟩
    · constructor
      · intro h
        cases h
      · rintro (h | ⟨t, h, _⟩) <;> cases h
  | fin k =>
    show decide (0 < k) = true ↔ _
    rw [decide_eq_true_iff]
    constructor
    · intro h
      exact Or.inr ⟨k, rfl, h⟩
    · rintro (h | ⟨t, h, ht⟩)
      · cases h
      · cases h
        exact ht

theorem gtZero_ofInt (n : Int) : (ofInt n).gtZero = decide (0 < n) := by
  show decide ((0 : Int) < n * (scale : Int)) = decide (0 < n)
  have hs : (0 : Int) < (scale : Int) := Int.ofNat_pos.mpr scale_pos
  by_cases h : 0 < n
  · rw [decide_eq_true h, decide_eq_true (Int.mul_pos h hs)]
  · rw [decide_eq_false h, decide_eq_false]
    intro h'
    exact h (pos_of_mul_pos_left h' (le_of_lt hs))

theorem nonneg_zero : nonneg 0 := le_refl (0 : Int)

theorem nonneg_fin (k : Int) (h : 0 ≤ k) : nonneg (fin k) := h

theorem ne_nan_of_nonneg (x : JSNum) (h : x.nonneg) : x ≠ nan := by
  intro hx
  rw [hx] at h
  exact h

theorem nonneg_round (z : Int) (extra : Nat) (hz : 0 ≤ z) : (round z extra).nonneg := by
  unfold round
  cases roundMag z.natAbs extra with
  | none =>
    show decide (z < 0) = false
    exact decide_eq_false (not_lt.mpr hz)
  | some k =>
    show (0 : Int) ≤ (if z < 0 then -(k : Int) else (k : Int))
    rw [if_neg (not_lt.mpr hz)]
    exact Int.ofNat_nonneg k

/-- A sum of non-negative numbers is a non-negative number. -/
theorem nonneg_add (x y : JSNum) (hx : x.nonneg) (hy : y.nonneg) : (x + y).nonneg := by
  show (add x y).nonneg
  cases x with
  | nan => exact absurd hx id
  | inf a =>
    cases y with
    | nan => exact absurd hy id
    | inf b =>
      have ha : a = false := hx
      have hb : b = false := hy
      subst ha
      subst hb
      exact rfl
    | fin k => exact hx
  | fin a =>
    cases y with
    | nan => exact absurd hy id
    | inf b => exact hy
    | fin b =>
      have ha : 0 ≤ a := hx
      have hb : 0 ≤ b := hy
      rw [add_fin_fin]
      split_ifs
      · exact hx
      · exact hy
      · exact nonneg_round _ _ (Int.add_nonneg ha hb)

/-- A product of finite non-negative numbers is a non-negative number. -/
theorem nonneg_mul_fin (a b : Int) (ha : 0 ≤ a) (hb : 0 ≤ b) : (fin a * fin b).nonneg := by
  show (mul (fin a) (fin b)).nonneg
  rw [mul_fin_fin]
  exact nonneg_round _ _ (Int.mul_nonneg ha hb)

theorem fin_zero_mul_fin (d : Int) : fin 0 * fin d = fin 0 := by
  show mul (fin 0) (fin d) = fin 0
  rw [mul_fin_fin, Int.zero_mul, round_zero]

theorem fin_mul_fin_zero (d : Int) : fin d * fin 0 = fin 0 := by
  show mul (fin d) (fin 0) = fin 0
  rw [mul_fin_fin, Int.mul_zero, round_zero]

theorem nan_add (x : JSNum) : nan + x = nan := by
  cases x <;> rfl

theorem add_nan (x : JSNum) : x + nan = nan := by
  cases x <;> rfl

theorem nan_mul (x : JSNum) : nan * x = nan := by
  cases x <;> rfl

theorem mul_nan (x : JSNum) : x * nan = nan := by
  cases x <;> rfl

theorem fin_zero_mul_nan : fin 0 * nan = nan := rfl

end JSNum

/-! ## Fields and running sums -/

theorem orZero_undefined : orZero JSVal.undefined = 0 := rfl

theorem orZero_null : orZero JSVal.null = 0 := rfl

theorem orZero_ne_nan (v : JSVal) : orZero v ≠ nan := by
  cases v with
  | undefined => exact fun h => JSNum.noConfusion h
  | null => exact fun h => JSNum.noConfusion h
  | num x =>
    cases x with
    | nan => exact fun h => JSNum.noConfusion h
    | inf b => exact fun h => JSNum.noConfusion h
    | fin k =>
      show (if (JSNum.fin k).falsy then (0 : JSNum) else fin k) ≠ nan
      split_ifs <;> exact fun h => JSNum.noConfusion h

theorem orZero_missing (v : JSVal) (h : missing v) : orZero v = 0 := by
  rcases h with h | h <;> rw [h] <;> rfl

theorem orZero_eq_ofInt (v : JSVal) (h : wholeField v) : orZero v = JSNum.ofInt (intField v) :=
  JSNum.eq_ofInt_of_isWhole _ h

theorem sumFrom_nil (a : JSNum) : sumFrom a [] = a := rfl

theorem sumFrom_cons (a x : JSNum) (xs : List JSNum) :
    sumFrom a (x :: xs) = sumFrom (a + x) xs := rfl

theorem sumFrom_map {α : Type} (f : α → JSNum) (l : List α) (a : JSNum) :
    sumFrom a (l.map f) = l.foldl (fun s p => s + f p) a := by
  unfold sumFrom
  rw [List.foldl_map]

/-- A loop that adds `f p` for the elements that satisfy `c` and skips the
others is the running sum over the filtered list. -/
theorem foldl_ite_eq_sumFrom_filter {α : Type} (c : α → Prop) [DecidablePred c]
    (f : α → JSNum) (l : List α) (a : JSNum) :
    l.foldl (fun s p => if c p then s + f p else s) a
      = sumFrom a ((l.filter (fun p => decide (c p))).map f) := by
  induction l generalizing a with
  | nil => rfl
  | cons x xs ih =>
    rw [List.foldl_cons, ih]
    by_cases h : c x
    · rw [if_pos h, List.filter_cons, if_pos (decide_eq_true h), List.map_cons, sumFrom_cons]
    · rw [if_neg h, List.filter_cons, if_neg (by simpa using h)]

/-- A running sum of non-negative numbers from a non-negative number is a
non-negative number. -/
theorem nonneg_sumFrom (xs : List JSNum) (a : JSNum) (ha : a.nonneg)
    (h : ∀ x ∈ xs, x.nonneg) : (sumFrom a xs).nonneg := by
  induction xs generalizing a with
  | nil => exact ha
  | cons x rest ih =>
    rw [sumFrom_cons]
    exact ih _ (JSNum.nonneg_add _ _ ha (h x (List.mem_cons_self _ _)))
      (fun y hy => h y (List.mem_cons_of_mem _ hy))

/-! ## Whole numbers in the safe range -/

/-- A loop whose step adds the whole number `g p` computes the exact sum, as
long as the sizes `w p` of the summands keep it below `2^53`. -/
theorem foldl_ofInt {α : Type} (step : JSNum → α → JSNum) (g : α → Int) (w : α → Nat)
    (l : List α) (a : Int)
    (hstep : ∀ p ∈ l, ∀ x : Int, x.natAbs + w p < 2 ^ 53 →
      step (JSNum.ofInt x) p = JSNum.ofInt (x + g p))
    (hw : ∀ p ∈ l, (g p).natAbs ≤ w p)
    (hb : a.natAbs + (l.map w).sum < 2 ^ 53) :
    l.foldl step (JSNum.ofInt a) = JSNum.ofInt (a + (l.map g).sum) := by
  induction l generalizing a with
  | nil => simp
  | cons p ps ih =>
    simp only [List.map_cons, List.sum_cons] at hb
    have hp := hstep p (List.mem_cons_self _ _) a (by omega)
    have hwp := hw p (List.mem_cons_self _ _)
    rw [List.foldl_cons, hp, ih (a + g p) (fun q hq => hstep q (List.mem_cons_of_mem _ hq))
      (fun q hq => hw q (List.mem_cons_of_mem _ hq)) (by omega)]
    simp only [List.map_cons, List.sum_cons]
    congr 1
    omega

theorem natAbs_sum_le {α : Type} (g : α → Int) (w : α → Nat) (l : List α)
    (hw : ∀ p ∈ l, (g p).natAbs ≤ w p) : ((l.map g).sum).natAbs ≤ (l.map w).sum := by
  induction l with
  | nil => simp
  | cons p ps ih =>
    have h1 := hw p (List.mem_cons_self _ _)
    have h2 := ih (fun q hq => hw q (List.mem_cons_of_mem _ hq))
    simp only [List.map_cons, List.sum_cons]
    omega

theorem sum_map_add_int {α : Type} (g h : α → Int) (l : List α) :
    (l.map (fun p => g p + h p)).sum = (l.map g).sum + (l.map h).sum := by
  induction l with
  | nil => simp
  | cons p ps ih =>
    simp only [List.map_cons, List.sum_cons, ih]
    omega

theorem sum_map_sub_int {α : Type} (g h : α → Int) (l : List α) :
    (l.map (fun p => g p - h p)).sum = (l.map g).sum - (l.map h).sum := by
  induction l with
  | nil => simp
  | cons p ps ih =>
    simp only [List.map_cons, List.sum_cons, ih]
    omega

theorem sum_map_congr_int {α : Type} (g h : α → Int) (l : List α) (e : ∀ p ∈ l, g p = h p) :
    (l.map g).sum = (l.map h).sum := by
  rw [List.map_congr_left e]

theorem sum_filter_le {α : Type} (w : α → Nat) (c : α → Bool) (l : List α) :
    ((l.filter c).map w).sum ≤ (l.map w).sum := by
  induction l with
  | nil => simp
  | cons p ps ih =>
    rw [List.filter_cons]
    split_ifs
    · simp only [List.map_cons, List.sum_cons]
      omega
    · simp only [List.map_cons, List.sum_cons]
      omega

/-- The position sum formula on whole numbers. -/
theorem crew_formula (r d f n hc t pd : Int)
    (h : (r * d).natAbs + f.natAbs + (n * hc).natAbs + t.natAbs + (pd * d).natAbs < 2 ^ 53) :
    JSNum.ofInt r * JSNum.ofInt d + JSNum.ofInt f + JSNum.ofInt n * JSNum.ofInt hc
        + JSNum.ofInt t + JSNum.ofInt pd * JSNum.ofInt d
      = JSNum.ofInt (r * d + f + n * hc + t + pd * d) := by
  rw [JSNum.mul_ofInt r d (by omega), JSNum.mul_ofInt n hc (by omega),
    JSNum.mul_ofInt pd d (by omega), JSNum.add_ofInt _ _ (by omega),
    JSNum.add_ofInt _ _ (by omega), JSNum.add_ofInt _ _ (by omega),
    JSNum.add_ofInt _ _ (by omega)]

/-- The cost without per diem on whole numbers. -/
theorem plan_formula (r d f n hc t : Int)
    (h : (r * d).natAbs + f.natAbs + (n * hc).natAbs + t.natAbs < 2 ^ 53) :
    JSNum.ofInt r * JSNum.ofInt d + JSNum.ofInt f + JSNum.ofInt n * JSNum.ofInt hc
        + JSNum.ofInt t
      = JSNum.ofInt (r * d + f + n * hc + t) := by
  rw [JSNum.mul_ofInt r d (by omega), JSNum.mul_ofInt n hc (by omega),
    JSNum.add_ofInt _ _ (by omega), JSNum.add_ofInt _ _ (by omega),
    JSNum.add_ofInt _ _ (by omega)]

/-- The day-dependent amount on whole numbers. -/
theorem day_formula (r d f pd : Int)
    (h : (r * d).natAbs + f.natAbs + (pd * d).natAbs < 2 ^ 53) :
    JSNum.ofInt r * JSNum.ofInt d + JSNum.ofInt f + JSNum.ofInt pd * JSNum.ofInt d
      = JSNum.ofInt (r * d + f + pd * d) := by
  rw [JSNum.mul_ofInt r d (by omega), JSNum.mul_ofInt pd d (by omega),
    JSNum.add_ofInt _ _ (by omega), JSNum.add_ofInt _ _ (by omega)]

/-! ## The engine on any numbers -/

/-- The loop body of `calculateSummaries` does not read the position list. -/
theorem summaryStep_with_positions (pr : Project) (x : Option (List Position)) :
    summaryStep { pr with positions := x } = summaryStep pr := rfl

/-- The comparison view does not read the position list from the project record. -/
theorem comparisonView_with_positions (pr : Project) (x : Option (List Position))
    (ps : List Position) :
    comparisonView { pr with positions := x } ps = comparisonView pr ps := rfl

/-- The position sum does not read the position list. -/
theorem calculatePositionSum_with_positions (pr : Project) (x : Option (List Position))
    (p : Position) :
    calculatePositionSum (some { pr with positions := x }) p
      = calculatePositionSum (some pr) p := rfl

/-- Switching a position off has the same effect on the active positions as
removing it. -/
theorem filter_active_switched_off (l1 l2 : List Position) (p : Position) :
    (l1 ++ { p with active := false } :: l2).filter (fun q => q.active)
      = (l1 ++ l2).filter (fun q => q.active) := by
  simp [List.filter_append, List.filter_cons]

/-- An active element stays where it is among the active positions. -/
theorem filter_active_append_cons (l1 l2 : List Position) (x : Position)
    (hx : x.active = true) :
    (l1 ++ x :: l2).filter (fun q => q.active)
      = l1.filter (fun q => q.active) ++ x :: l2.filter (fun q => q.active) := by
  simp [List.filter_append, List.filter_cons, hx]

/-- The position sum of an active crew or darsteller position, as computed. -/
theorem calculatePositionSum_cd (pr : Project) (p : Position) (hactive : p.active = true)
    (ht : p.type = "crew" ∨ p.type = "darsteller") :
    calculatePositionSum (some pr) p
      = orZero p.daily_rate * resolvedDays pr p + orZero p.flat_fee
        + orZero p.hotel_nights * orZero pr.hotel_cost_per_night + orZero p.travel_costs
        + orZero pr.per_diem * resolvedDays pr p := by
  simp only [calculatePositionSum, hactive, ht, resolvedDays, Bool.not_true, if_true]
  rfl

/-- The position sum of an active position of another type, as computed. -/
theorem calculatePositionSum_other (pr : Project) (p : Position) (hactive : p.active = true)
    (ht : ¬ (p.type = "crew" ∨ p.type = "darsteller")) :
    calculatePositionSum (some pr) p = orZero p.costs := by
  simp only [calculatePositionSum, hactive, ht, Bool.not_true, if_false]
  rfl

theorem getPositionCostWithoutPerDiem_simple (pr : Project) (p : Position)
    (ht : simpleType p.type) : getPositionCostWithoutPerDiem pr p = orZero p.costs := by
  unfold getPositionCostWithoutPerDiem
  exact if_pos ht

theorem getPositionCostWithoutPerDiem_other (pr : Project) (p : Position)
    (ht : ¬ simpleType p.type) :
    getPositionCostWithoutPerDiem pr p
      = orZero p.daily_rate * resolvedDays pr p + orZero p.flat_fee
        + orZero p.hotel_nights * orZero pr.hotel_cost_per_night + orZero p.travel_costs := by
  unfold getPositionCostWithoutPerDiem
  exact if_neg ht

theorem not_simple_of_cd (t : String) (h : t = "crew" ∨ t = "darsteller") : ¬ simpleType t := by
  rcases h with h | h <;> subst h <;> decide

theorem not_cd_of_simple (t : String) (h : simpleType t) : ¬ (t = "crew" ∨ t = "darsteller") :=
  fun hc => not_simple_of_cd t hc h

/-- The type of a position is one of the five, or none of them. -/
theorem type_cases (t : String) :
    t = "crew" ∨ t = "darsteller" ∨ t = "leihe" ∨ t = "location" ∨ t = "sonstiges"
      ∨ (t ≠ "crew" ∧ t ≠ "darsteller" ∧ t ≠ "leihe" ∧ t ≠ "location" ∧ t ≠ "sonstiges") := by
  by_cases h1 : t = "crew"
  · exact Or.inl h1
  by_cases h2 : t = "darsteller"
  · exact Or.inr (Or.inl h2)
  by_cases h3 : t = "leihe"
  · exact Or.inr (Or.inr (Or.inl h3))
  by_cases h4 : t = "location"
  · exact Or.inr (Or.inr (Or.inr (Or.inl h4)))
  by_cases h5 : t = "sonstiges"
  · exact Or.inr (Or.inr (Or.inr (Or.inr (Or.inl h5))))
  exact Or.inr (Or.inr (Or.inr (Or.inr (Or.inr ⟨h1, h2, h3, h4, h5⟩))))

/-- The seven running sums after the loop of `calculateSummaries`, bucket by
bucket: each is the running sum of its own increments. -/
theorem foldl_summaryStep (pr : Project) (l : List Position) (acc : Buckets) :
    l.foldl (summaryStep pr) acc =
      { crew := l.foldl (fun s p => if p.type = "crew" then s + dayCost pr p else s) acc.crew,
        darsteller := l.foldl
          (fun s p => if p.type = "darsteller" then s + dayCost pr p else s) acc.darsteller,
        hotel := l.foldl
          (fun s p => if p.type = "crew" ∨ p.type = "darsteller" then
            s + orZero p.hotel_nights * orZero pr.hotel_cost_per_night else s) acc.hotel,
        travel := l.foldl
          (fun s p => if p.type = "crew" ∨ p.type = "darsteller" then
            s + orZero p.travel_costs else s) acc.travel,
        leihe := l.foldl
          (fun s p => if p.type = "leihe" then s + orZero p.costs else s) acc.leihe,
        location := l.foldl
          (fun s p => if p.type = "location" then s + orZero p.costs else s) acc.location,
        sonstiges := l.foldl
          (fun s p => if p.type = "sonstiges" then s + orZero p.costs else s) acc.sonstiges } := by
  induction l generalizing acc with
  | nil => rfl
  | cons x xs ih =>
    rw [List.foldl_cons, ih]
    rcases type_cases x.type with h | h | h | h | h | ⟨h1, h2, h3, h4, h5⟩
    · simp [summaryStep, h, dayCost, resolvedDays]
    · simp [summaryStep, h, dayCost, resolvedDays]
    · simp [summaryStep, h]
    · simp [summaryStep, h]
    · simp [summaryStep, h]
    · simp [summaryStep, h1, h2, h3, h4, h5]

/-- The eight fields of `calculateSummaries` as loops over the active positions. -/
theorem calculateSummaries_eq_loops (pr : Project) (ps : List Position) :
    calculateSummaries (some (pr.withPositions ps)) =
      { crew := (ps.filter (fun p => p.active)).foldl
          (fun s p => if p.type = "crew" then s + dayCost pr p else s) 0,
        darsteller := (ps.filter (fun p => p.active)).foldl
          (fun s p => if p.type = "darsteller" then s + dayCost pr p else s) 0,
        hotel := (ps.filter (fun p => p.active)).foldl
          (fun s p => if p.type = "crew" ∨ p.type = "darsteller" then
            s + orZero p.hotel_nights * orZero pr.hotel_cost_per_night else s) 0,
        travel := (ps.filter (fun p => p.active)).foldl
          (fun s p => if p.type = "crew" ∨ p.type = "darsteller" then
            s + orZero p.travel_costs else s) 0,
        leihe := (ps.filter (fun p => p.active)).foldl
          (fun s p => if p.type = "leihe" then s + orZero p.costs else s) 0,
        location := (ps.filter (fun p => p.active)).foldl
          (fun s p => if p.type = "location" then s + orZero p.costs else s) 0,
        sonstiges := (ps.filter (fun p => p.active)).foldl
          (fun s p => if p.type = "sonstiges" then s + orZero p.costs else s) 0,
        total :=
          (ps.filter (fun p => p.active)).foldl
              (fun s p => if p.type = "crew" then s + dayCost pr p else s) 0
            + (ps.filter (fun p => p.active)).foldl
              (fun s p => if p.type = "darsteller" then s + dayCost pr p else s) 0
            + (ps.filter (fun p => p.active)).foldl
              (fun s p => if p.type = "crew" ∨ p.type = "darsteller" then
                s + orZero p.hotel_nights * orZero pr.hotel_cost_per_night else s) 0
            + (ps.filter (fun p => p.active)).foldl
              (fun s p => if p.type = "crew" ∨ p.type = "darsteller" then
                s + orZero p.travel_costs else s) 0
            + (ps.filter (fun p => p.active)).foldl
              (fun s p => if p.type = "leihe" then s + orZero p.costs else s) 0
            + (ps.filter (fun p => p.active)).foldl
              (fun s p => if p.type = "location" then s + orZero p.costs else s) 0
            + (ps.filter (fun p => p.active)).foldl
              (fun s p => if p.type = "sonstiges" then s + orZero p.costs else s) 0 } := by
  have h := foldl_summaryStep pr (ps.filter (fun p => p.active)) ⟨0, 0, 0, 0, 0, 0, 0⟩
  simp only [calculateSummaries, summaryStep_with_positions, h]

/-! ## The engine on whole numbers in the safe range -/

/-- The truth of the five type tests of the engine, case by case. -/
theorem type_facts (t : String) :
    ((t = "crew") = True ∧ (t = "darsteller") = False ∧ (t = "leihe") = False
        ∧ (t = "location") = False ∧ (t = "sonstiges") = False)
      ∨ ((t = "crew") = False ∧ (t = "darsteller") = True ∧ (t = "leihe") = False
        ∧ (t = "location") = False ∧ (t = "sonstiges") = False)
      ∨ ((t = "crew") = False ∧ (t = "darsteller") = False ∧ (t = "leihe") = True
        ∧ (t = "location") = False ∧ (t = "sonstiges") = False)
      ∨ ((t = "crew") = False ∧ (t = "darsteller") = False ∧ (t = "leihe") = False
        ∧ (t = "location") = True ∧ (t = "sonstiges") = False)
      ∨ ((t = "crew") = False ∧ (t = "darsteller") = False ∧ (t = "leihe") = False
        ∧ (t = "location") = False ∧ (t = "sonstiges") = True)
      ∨ ((t = "crew") = False ∧ (t = "darsteller") = False ∧ (t = "leihe") = False
        ∧ (t = "location") = False ∧ (t = "sonstiges") = False) := by
  rcases type_cases t with h | h | h | h | h | ⟨h1, h2, h3, h4, h5⟩
  · subst h
    exact Or.inl ⟨eq_true rfl, eq_false (by decide), eq_false (by decide),
      eq_false (by decide), eq_false (by decide)⟩
  · subst h
    exact Or.inr (Or.inl ⟨eq_false (by decide), eq_true rfl, eq_false (by decide),
      eq_false (by decide), eq_false (by decide)⟩)
  · subst h
    exact Or.inr (Or.inr (Or.inl ⟨eq_false (by decide), eq_false (by decide), eq_true rfl,
      eq_false (by decide), eq_false (by decide)⟩))
  · subst h
    exact Or.inr (Or.inr (Or.inr (Or.inl ⟨eq_false (by decide), eq_false (by decide),
      eq_false (by decide), eq_true rfl, eq_false (by decide)⟩)))
  · subst h
    exact Or.inr (Or.inr (Or.inr (Or.inr (Or.inl ⟨eq_false (by decide), eq_false (by decide),
      eq_false (by decide), eq_false (by decide), eq_true rfl⟩))))
  · exact Or.inr (Or.inr (Or.inr (Or.inr (Or.inr
      ⟨eq_false h1, eq_false h2, eq_false h3, eq_false h4, eq_false h5⟩))))

theorem natAbs_add3 (a b c : Int) : (a + b + c).natAbs ≤ a.natAbs + b.natAbs + c.natAbs := by
  have h1 := Int.natAbs_add_le (a + b) c
  have h2 := Int.natAbs_add_le a b
  exact le_trans h1 (Nat.add_le_add_right h2 _)

theorem natAbs_add4 (a b c d : Int) :
    (a + b + c + d).natAbs ≤ a.natAbs + b.natAbs + c.natAbs + d.natAbs := by
  have h1 := Int.natAbs_add_le (a + b + c) d
  have h2 := natAbs_add3 a b c
  exact le_trans h1 (Nat.add_le_add_right h2 _)

theorem natAbs_add5 (a b c d e : Int) :
    (a + b + c + d + e).natAbs ≤ a.natAbs + b.natAbs + c.natAbs + d.natAbs + e.natAbs := by
  have h1 := Int.natAbs_add_le (a + b + c + d) e
  have h2 := natAbs_add4 a b c d
  exact le_trans h1 (Nat.add_le_add_right h2 _)

/-- What a position adds to the seven buckets is within its size. -/
theorem share_bound (pr : Project) (p : Position) :
    (ownInt "crew" (dayInt pr) p).natAbs + (ownInt "darsteller" (dayInt pr) p).natAbs
        + (sharedInt (hotelInt pr) p).natAbs
        + (sharedInt (fun p => intField p.travel_costs) p).natAbs
        + (ownInt "leihe" (fun p => intField p.costs) p).natAbs
        + (ownInt "location" (fun p => intField p.costs) p).natAbs
        + (ownInt "sonstiges" (fun p => intField p.costs) p).natAbs
      ≤ magnitude pr p := by
  have t3 := natAbs_add3 (intField p.daily_rate * intDays pr p) (intField p.flat_fee)
    (intField pr.per_diem * intDays pr p)
  rcases type_facts p.type with ⟨h1, h2, h3, h4, h5⟩ | ⟨h1, h2, h3, h4, h5⟩
    | ⟨h1, h2, h3, h4, h5⟩ | ⟨h1, h2, h3, h4, h5⟩ | ⟨h1, h2, h3, h4, h5⟩
    | ⟨h1, h2, h3, h4, h5⟩ <;>
  simp only [ownInt, sharedInt, magnitude, simpleType, dayInt, h1, h2, h3, h4, h5, if_true,
    if_false, true_or, or_true, or_false, or_self, Int.natAbs_zero] <;>
  (generalize (intField p.daily_rate * intDays pr p + intField p.flat_fee
      + intField pr.per_diem * intDays pr p).natAbs = X3 at *
   generalize (intField p.daily_rate * intDays pr p + intField p.flat_fee + hotelInt pr p
      + intField p.travel_costs).natAbs = X4 at *
   generalize (intField p.daily_rate * intDays pr p + intField p.flat_fee + hotelInt pr p
      + intField p.travel_costs + intField pr.per_diem * intDays pr p).natAbs = X5 at *
   generalize (intField p.daily_rate * intDays pr p).natAbs = A at *
   generalize (intField p.flat_fee).natAbs = B at *
   generalize (hotelInt pr p).natAbs = C at *
   generalize (intField p.travel_costs).natAbs = D at *
   generalize (intField pr.per_diem * intDays pr p).natAbs = E at *
   generalize (intField p.costs).natAbs = F at *
   generalize (intField p.actual_costs).natAbs = G at *
   generalize (intField p.hotel_nights).natAbs = H at *
   omega)

/-- The cost without per diem, the per diem and the actual costs of a
position are within its size. -/
theorem comparison_bound (pr : Project) (p : Position) :
    (planInt pr p).natAbs + (perDiemInt pr p).natAbs + (intField p.actual_costs).natAbs
      ≤ magnitude pr p := by
  have t4 := natAbs_add4 (intField p.daily_rate * intDays pr p) (intField p.flat_fee)
    (hotelInt pr p) (intField p.travel_costs)
  rcases type_facts p.type with ⟨h1, h2, h3, h4, h5⟩ | ⟨h1, h2, h3, h4, h5⟩
    | ⟨h1, h2, h3, h4, h5⟩ | ⟨h1, h2, h3, h4, h5⟩ | ⟨h1, h2, h3, h4, h5⟩
    | ⟨h1, h2, h3, h4, h5⟩ <;>
  simp only [planInt, perDiemInt, magnitude, simpleType, h1, h2, h3, h4, h5, if_true,
    if_false, true_or, or_true, or_false, or_self, Int.natAbs_zero] <;>
  (generalize (intField p.daily_rate * intDays pr p + intField p.flat_fee
      + intField pr.per_diem * intDays pr p).natAbs = X3 at *
   generalize (intField p.daily_rate * intDays pr p + intField p.flat_fee + hotelInt pr p
      + intField p.travel_costs).natAbs = X4 at *
   generalize (intField p.daily_rate * intDays pr p + intField p.flat_fee + hotelInt pr p
      + intField p.travel_costs + intField pr.per_diem * intDays pr p).natAbs = X5 at *
   generalize (intField p.daily_rate * intDays pr p).natAbs = A at *
   generalize (intField p.flat_fee).natAbs = B at *
   generalize (hotelInt pr p).natAbs = C at *
   generalize (intField p.travel_costs).natAbs = D at *
   generalize (intField pr.per_diem * intDays pr p).natAbs = E at *
   generalize (intField p.costs).natAbs = F at *
   generalize (intField p.actual_costs).natAbs = G at *
   generalize (intField p.hotel_nights).natAbs = H at *
   omega)

/-- The position sum is within the size of the position. -/
theorem costInt_bound (pr : Project) (p : Position) :
    (costInt pr p).natAbs ≤ magnitude pr p := by
  have t5 := natAbs_add5 (intField p.daily_rate * intDays pr p) (intField p.flat_fee)
    (hotelInt pr p) (intField p.travel_costs) (intField pr.per_diem * intDays pr p)
  rcases type_facts p.type with ⟨h1, h2, h3, h4, h5⟩ | ⟨h1, h2, h3, h4, h5⟩
    | ⟨h1, h2, h3, h4, h5⟩ | ⟨h1, h2, h3, h4, h5⟩ | ⟨h1, h2, h3, h4, h5⟩
    | ⟨h1, h2, h3, h4, h5⟩ <;>
  simp only [costInt, magnitude, simpleType, h1, h2, h3, h4, h5, if_true,
    if_false, true_or, or_true, or_false, or_self, Int.natAbs_zero] <;>
  (generalize (intField p.daily_rate * intDays pr p + intField p.flat_fee
      + intField pr.per_diem * intDays pr p).natAbs = X3 at *
   generalize (intField p.daily_rate * intDays pr p + intField p.flat_fee + hotelInt pr p
      + intField p.travel_costs).natAbs = X4 at *
   generalize (intField p.daily_rate * intDays pr p + intField p.flat_fee + hotelInt pr p
      + intField p.travel_costs + intField pr.per_diem * intDays pr p).natAbs = X5 at *
   generalize (intField p.daily_rate * intDays pr p).natAbs = A at *
   generalize (intField p.flat_fee).natAbs = B at *
   generalize (hotelInt pr p).natAbs = C at *
   generalize (intField p.travel_costs).natAbs = D at *
   generalize (intField pr.per_diem * intDays pr p).natAbs = E at *
   generalize (intField p.costs).natAbs = F at *
   generalize (intField p.actual_costs).natAbs = G at *
   generalize (intField p.hotel_nights).natAbs = H at *
   omega)

/-- The hotel nights of a crew or darsteller position are within its size. -/
theorem nights_bound (pr : Project) (p : Position) :
    (sharedInt (fun p => intField p.hotel_nights) p).natAbs ≤ magnitude pr p := by
  rcases type_facts p.type with ⟨h1, h2, h3, h4, h5⟩ | ⟨h1, h2, h3, h4, h5⟩
    | ⟨h1, h2, h3, h4, h5⟩ | ⟨h1, h2, h3, h4, h5⟩ | ⟨h1, h2, h3, h4, h5⟩
    | ⟨h1, h2, h3, h4, h5⟩ <;>
  simp only [sharedInt, magnitude, simpleType, h1, h2, h3, h4, h5, if_true,
    if_false, true_or, or_true, or_false, or_self, Int.natAbs_zero] <;>
  (generalize (intField p.daily_rate * intDays pr p + intField p.flat_fee
      + intField pr.per_diem * intDays pr p).natAbs = X3 at *
   generalize (intField p.daily_rate * intDays pr p + intField p.flat_fee + hotelInt pr p
      + intField p.travel_costs).natAbs = X4 at *
   generalize (intField p.daily_rate * intDays pr p + intField p.flat_fee + hotelInt pr p
      + intField p.travel_costs + intField pr.per_diem * intDays pr p).natAbs = X5 at *
   generalize (intField p.daily_rate * intDays pr p).natAbs = A at *
   generalize (intField p.flat_fee).natAbs = B at *
   generalize (hotelInt pr p).natAbs = C at *
   generalize (intField p.travel_costs).natAbs = D at *
   generalize (intField pr.per_diem * intDays pr p).natAbs = E at *
   generalize (intField p.costs).natAbs = F at *
   generalize (intField p.actual_costs).natAbs = G at *
   generalize (intField p.hotel_nights).natAbs = H at *
   omega)

theorem le_of_sum7 (a1 a2 a3 a4 a5 a6 a7 m : Nat) (h : a1 + a2 + a3 + a4 + a5 + a6 + a7 ≤ m) :
    a1 ≤ m ∧ a2 ≤ m ∧ a3 ≤ m ∧ a4 ≤ m ∧ a5 ≤ m ∧ a6 ≤ m ∧ a7 ≤ m := by
  omega

theorem sum7_le_of_le (a1 a2 a3 a4 a5 a6 a7 b1 b2 b3 b4 b5 b6 b7 m : Nat)
    (h1 : a1 ≤ b1) (h2 : a2 ≤ b2) (h3 : a3 ≤ b3) (h4 : a4 ≤ b4) (h5 : a5 ≤ b5) (h6 : a6 ≤ b6)
    (h7 : a7 ≤ b7) (h : b1 + b2 + b3 + b4 + b5 + b6 + b7 ≤ m) :
    a1 + a2 + a3 + a4 + a5 + a6 + a7 ≤ m := by
  omega

theorem sum3_le_of_le (a1 a2 a3 b1 b2 b3 m : Nat) (h1 : a1 ≤ b1) (h2 : a2 ≤ b2) (h3 : a3 ≤ b3)
    (h : b1 + b2 + b3 ≤ m) : a1 + a2 + a3 ≤ m := by
  omega

/-- Seven sums over a list are together within the sum of a bound of their
seven summands. -/
theorem sum7_le {α : Type} (w1 w2 w3 w4 w5 w6 w7 w : α → Nat) (l : List α)
    (h : ∀ p ∈ l, w1 p + w2 p + w3 p + w4 p + w5 p + w6 p + w7 p ≤ w p) :
    (l.map w1).sum + (l.map w2).sum + (l.map w3).sum + (l.map w4).sum + (l.map w5).sum
        + (l.map w6).sum + (l.map w7).sum ≤ (l.map w).sum := by
  induction l with
  | nil => simp
  | cons p ps ih =>
    have h1 := h p (List.mem_cons_self _ _)
    have h2 := ih (fun q hq => h q (List.mem_cons_of_mem _ hq))
    simp only [List.map_cons, List.sum_cons]
    omega

theorem sum3_le {α : Type} (w1 w2 w3 w : α → Nat) (l : List α)
    (h : ∀ p ∈ l, w1 p + w2 p + w3 p ≤ w p) :
    (l.map w1).sum + (l.map w2).sum + (l.map w3).sum ≤ (l.map w).sum := by
  induction l with
  | nil => simp
  | cons p ps ih =>
    have h1 := h p (List.mem_cons_self _ _)
    have h2 := ih (fun q hq => h q (List.mem_cons_of_mem _ hq))
    simp only [List.map_cons, List.sum_cons]
    omega

/-- The seven bucket sums of a list of positions are together within the
sizes of the positions. -/
theorem summaries_bound (pr : Project) (l : List Position) :
    ((l.map (ownInt "crew" (dayInt pr))).sum).natAbs
        + ((l.map (ownInt "darsteller" (dayInt pr))).sum).natAbs
        + ((l.map (sharedInt (hotelInt pr))).sum).natAbs
        + ((l.map (sharedInt (fun p => intField p.travel_costs))).sum).natAbs
        + ((l.map (ownInt "leihe" (fun p => intField p.costs))).sum).natAbs
        + ((l.map (ownInt "location" (fun p => intField p.costs))).sum).natAbs
        + ((l.map (ownInt "sonstiges" (fun p => intField p.costs))).sum).natAbs
      ≤ (l.map (magnitude pr)).sum :=
  sum7_le_of_le _ _ _ _ _ _ _ _ _ _ _ _ _ _ _
    (natAbs_sum_le _ (fun p => (ownInt "crew" (dayInt pr) p).natAbs) l (fun _ _ => le_refl _))
    (natAbs_sum_le _ (fun p => (ownInt "darsteller" (dayInt pr) p).natAbs) l
      (fun _ _ => le_refl _))
    (natAbs_sum_le _ (fun p => (sharedInt (hotelInt pr) p).natAbs) l (fun _ _ => le_refl _))
    (natAbs_sum_le _ (fun p => (sharedInt (fun p => intField p.travel_costs) p).natAbs) l
      (fun _ _ => le_refl _))
    (natAbs_sum_le _ (fun p => (ownInt "leihe" (fun p => intField p.costs) p).natAbs) l
      (fun _ _ => le_refl _))
    (natAbs_sum_le _ (fun p => (ownInt "location" (fun p => intField p.costs) p).natAbs) l
      (fun _ _ => le_refl _))
    (natAbs_sum_le _ (fun p => (ownInt "sonstiges" (fun p => intField p.costs) p).natAbs) l
      (fun _ _ => le_refl _))
    (sum7_le _ _ _ _ _ _ _ _ l (fun p _ => share_bound pr p))

/-- The sums of the costs without per diem, of the per diems and of the
actual costs of a list of positions are together within the sizes of the
positions. -/
theorem comparison_sums_bound (pr : Project) (l : List Position) :
    ((l.map (planInt pr)).sum).natAbs + ((l.map (perDiemInt pr)).sum).natAbs
        + ((l.map (fun p => intField p.actual_costs)).sum).natAbs
      ≤ (l.map (magnitude pr)).sum :=
  sum3_le_of_le _ _ _ _ _ _ _
    (natAbs_sum_le _ (fun p => (planInt pr p).natAbs) l (fun _ _ => le_refl _))
    (natAbs_sum_le _ (fun p => (perDiemInt pr p).natAbs) l (fun _ _ => le_refl _))
    (natAbs_sum_le _ (fun p => (intField p.actual_costs).natAbs) l (fun _ _ => le_refl _))
    (sum3_le _ _ _ _ l (fun p _ => comparison_bound pr p))

theorem natAbs_add6 (a b c d e f : Int) :
    (a + b + c + d + e + f).natAbs
      ≤ a.natAbs + b.natAbs + c.natAbs + d.natAbs + e.natAbs + f.natAbs :=
  le_trans (Int.natAbs_add_le (a + b + c + d + e) f)
    (Nat.add_le_add_right (natAbs_add5 a b c d e) _)

theorem natAbs_add7 (a b c d e f g : Int) :
    (a + b + c + d + e + f + g).natAbs
      ≤ a.natAbs + b.natAbs + c.natAbs + d.natAbs + e.natAbs + f.natAbs + g.natAbs :=
  le_trans (Int.natAbs_add_le (a + b + c + d + e + f) g)
    (Nat.add_le_add_right (natAbs_add6 a b c d e f) _)

theorem prefix_lt (A B C D E F G m : Nat) (h : A + B + C + D + E + F + G ≤ m)
    (hm : m < 2 ^ 53) :
    A + B < 2 ^ 53 ∧ A + B + C < 2 ^ 53 ∧ A + B + C + D < 2 ^ 53
      ∧ A + B + C + D + E < 2 ^ 53 ∧ A + B + C + D + E + F < 2 ^ 53
      ∧ A + B + C + D + E + F + G < 2 ^ 53 := by
  omega

/-- Seven whole numbers whose sizes together stay below `2^53` are added
exactly. -/
theorem add7_ofInt (a b c d e f g : Int) (m : Nat)
    (h : a.natAbs + b.natAbs + c.natAbs + d.natAbs + e.natAbs + f.natAbs + g.natAbs ≤ m)
    (hm : m < 2 ^ 53) :
    JSNum.ofInt a + JSNum.ofInt b + JSNum.ofInt c + JSNum.ofInt d + JSNum.ofInt e
        + JSNum.ofInt f + JSNum.ofInt g
      = JSNum.ofInt (a + b + c + d + e + f + g) := by
  obtain ⟨k2, k3, k4, k5, k6, k7⟩ := prefix_lt _ _ _ _ _ _ _ m h hm
  rw [JSNum.add_ofInt a b (lt_of_le_of_lt (Int.natAbs_add_le a b) k2),
    JSNum.add_ofInt _ c (lt_of_le_of_lt (natAbs_add3 a b c) k3),
    JSNum.add_ofInt _ d (lt_of_le_of_lt (natAbs_add4 a b c d) k4),
    JSNum.add_ofInt _ e (lt_of_le_of_lt (natAbs_add5 a b c d e) k5),
    JSNum.add_ofInt _ f (lt_of_le_of_lt (natAbs_add6 a b c d e f) k6),
    JSNum.add_ofInt _ g (lt_of_le_of_lt (natAbs_add7 a b c d e f g) k7)]

theorem ofInt_zero_eq : JSNum.ofInt 0 = (0 : JSNum) := JSNum.ofInt_zero

/-- A loop from 0 whose step adds the whole number `g p` computes the exact
sum, as long as the sizes `w p` keep it below `2^53`. -/
theorem foldl_ofInt_zero {α : Type} (step : JSNum → α → JSNum) (g : α → Int) (w : α → Nat)
    (l : List α)
    (hstep : ∀ p ∈ l, ∀ x : Int, x.natAbs + w p < 2 ^ 53 →
      step (JSNum.ofInt x) p = JSNum.ofInt (x + g p))
    (hw : ∀ p ∈ l, (g p).natAbs ≤ w p)
    (hb : (l.map w).sum < 2 ^ 53) :
    l.foldl step 0 = JSNum.ofInt ((l.map g).sum) := by
  have h := foldl_ofInt step g w l 0 hstep hw (by rw [Int.natAbs_zero, Nat.zero_add]; exact hb)
  rw [ofInt_zero_eq, Int.zero_add] at h
  exact h

/-- A step that adds the whole number `g` when `c` holds, and nothing
otherwise. -/
theorem step_ite (c : Prop) [Decidable c] (x g : Int) (y : JSNum) (w : Nat)
    (hy : c → y = JSNum.ofInt g) (hg : (if c then g else 0).natAbs ≤ w)
    (hx : x.natAbs + w < 2 ^ 53) :
    (if c then JSNum.ofInt x + y else JSNum.ofInt x) = JSNum.ofInt (x + if c then g else 0) := by
  by_cases hc : c
  · rw [if_pos hc, if_pos hc, hy hc]
    rw [if_pos hc] at hg
    apply JSNum.add_ofInt
    have t := Int.natAbs_add_le x g
    generalize (x + g).natAbs = X at *
    generalize x.natAbs = A at *
    generalize g.natAbs = B at *
    omega
  · rw [if_neg hc, if_neg hc, Int.add_zero]

/-- An unconditional step that adds the whole number `g`. -/
theorem step_add (x g : Int) (y : JSNum) (w : Nat) (hy : y = JSNum.ofInt g)
    (hg : g.natAbs ≤ w) (hx : x.natAbs + w < 2 ^ 53) :
    JSNum.ofInt x + y = JSNum.ofInt (x + g) := by
  rw [hy]
  apply JSNum.add_ofInt
  have t := Int.natAbs_add_le x g
  generalize (x + g).natAbs = X at *
  generalize x.natAbs = A at *
  generalize g.natAbs = B at *
  omega

theorem magnitude_other (pr : Project) (p : Position) (hns : ¬ simpleType p.type) :
    magnitude pr p
      = (intField p.daily_rate * intDays pr p).natAbs + (intField p.flat_fee).natAbs
        + (hotelInt pr p).natAbs + (intField p.travel_costs).natAbs
        + (intField pr.per_diem * intDays pr p).natAbs
        + (intField p.costs).natAbs + (intField p.actual_costs).natAbs
        + (intField p.hotel_nights).natAbs := by
  unfold magnitude
  exact if_neg hns

/-- The terms of a position that is not of a simple type are within its size. -/
theorem terms_le_magnitude (pr : Project) (p : Position) (hns : ¬ simpleType p.type) :
    (intField p.daily_rate * intDays pr p).natAbs + (intField p.flat_fee).natAbs
        + (intField p.hotel_nights * intField pr.hotel_cost_per_night).natAbs
        + (intField p.travel_costs).natAbs + (intField pr.per_diem * intDays pr p).natAbs
      ≤ magnitude pr p := by
  rw [magnitude_other pr p hns]
  unfold hotelInt
  generalize (intField p.daily_rate * intDays pr p).natAbs = A
  generalize (intField p.flat_fee).natAbs = B
  generalize (intField p.hotel_nights * intField pr.hotel_cost_per_night).natAbs = C
  generalize (intField p.travel_costs).natAbs = D
  generalize (intField pr.per_diem * intDays pr p).natAbs = E
  generalize (intField p.costs).natAbs = F
  generalize (intField p.actual_costs).natAbs = G
  generalize (intField p.hotel_nights).natAbs = H
  omega

theorem resolvedDays_eq_ofInt (pr : Project) (p : Position) (hw : wholePosition pr p)
    (hns : ¬ simpleType p.type) : resolvedDays pr p = JSNum.ofInt (intDays pr p) := by
  rcases hw.2.2.2.2.2.2 with h | h
  · exact absurd h hns
  · exact JSNum.eq_ofInt_of_isWhole _ h

/-- The day-dependent amount of a position on whole numbers. -/
theorem dayCost_eq_ofInt (pr : Project) (p : Position) (hpd : wholeField pr.per_diem)
    (hw : wholePosition pr p) (hns : ¬ simpleType p.type) (hm : magnitude pr p < 2 ^ 53) :
    dayCost pr p = JSNum.ofInt (dayInt pr p) := by
  have t := lt_of_le_of_lt (terms_le_magnitude pr p hns) hm
  unfold dayCost dayInt
  rw [orZero_eq_ofInt _ hw.1, orZero_eq_ofInt _ hw.2.1, orZero_eq_ofInt _ hpd,
    resolvedDays_eq_ofInt pr p hw hns]
  apply day_formula
  generalize (intField p.daily_rate * intDays pr p).natAbs = A at *
  generalize (intField p.flat_fee).natAbs = B at *
  generalize (intField p.hotel_nights * intField pr.hotel_cost_per_night).natAbs = C at *
  generalize (intField p.travel_costs).natAbs = D at *
  generalize (intField pr.per_diem * intDays pr p).natAbs = E at *
  omega

/-- The hotel amount of a position on whole numbers. -/
theorem hotel_eq_ofInt (pr : Project) (p : Position)
    (hhc : wholeField pr.hotel_cost_per_night) (hw : wholePosition pr p)
    (hns : ¬ simpleType p.type) (hm : magnitude pr p < 2 ^ 53) :
    orZero p.hotel_nights * orZero pr.hotel_cost_per_night = JSNum.ofInt (hotelInt pr p) := by
  have t := lt_of_le_of_lt (terms_le_magnitude pr p hns) hm
  unfold hotelInt
  rw [orZero_eq_ofInt _ hw.2.2.1, orZero_eq_ofInt _ hhc]
  apply JSNum.mul_ofInt
  generalize (intField p.daily_rate * intDays pr p).natAbs = A at *
  generalize (intField p.flat_fee).natAbs = B at *
  generalize (intField p.hotel_nights * intField pr.hotel_cost_per_night).natAbs = C at *
  generalize (intField p.travel_costs).natAbs = D at *
  generalize (intField pr.per_diem * intDays pr p).natAbs = E at *
  omega

/-- The per diem of a position on whole numbers. -/
theorem perDiem_eq_ofInt (pr : Project) (p : Position) (hpd : wholeField pr.per_diem)
    (hw : wholePosition pr p) (ht : p.type = "crew" ∨ p.type = "darsteller")
    (hm : magnitude pr p < 2 ^ 53) :
    orZero pr.per_diem * resolvedDays pr p = JSNum.ofInt (perDiemInt pr p) := by
  have hns := not_simple_of_cd _ ht
  have t := lt_of_le_of_lt (terms_le_magnitude pr p hns) hm
  unfold perDiemInt
  rw [if_pos ht, orZero_eq_ofInt _ hpd, resolvedDays_eq_ofInt pr p hw hns]
  apply JSNum.mul_ofInt
  generalize (intField p.daily_rate * intDays pr p).natAbs = A at *
  generalize (intField p.flat_fee).natAbs = B at *
  generalize (intField p.hotel_nights * intField pr.hotel_cost_per_night).natAbs = C at *
  generalize (intField p.travel_costs).natAbs = D at *
  generalize (intField pr.per_diem * intDays pr p).natAbs = E at *
  omega

/-- The position sum on whole numbers. -/
theorem calculatePositionSum_eq_ofInt (pr : Project) (p : Position) (hactive : p.active = true)
    (hhc : wholeField pr.hotel_cost_per_night) (hpd : wholeField pr.per_diem)
    (hw : wholePosition pr p) (hm : magnitude pr p < 2 ^ 53) :
    calculatePositionSum (some pr) p = JSNum.ofInt (costInt pr p) := by
  by_cases ht : p.type = "crew" ∨ p.type = "darsteller"
  · have hns := not_simple_of_cd _ ht
    have t := lt_of_le_of_lt (terms_le_magnitude pr p hns) hm
    rw [calculatePositionSum_cd pr p hactive ht, orZero_eq_ofInt _ hw.1,
      orZero_eq_ofInt _ hw.2.1, orZero_eq_ofInt _ hw.2.2.1, orZero_eq_ofInt _ hw.2.2.2.1,
      orZero_eq_ofInt _ hhc, orZero_eq_ofInt _ hpd, resolvedDays_eq_ofInt pr p hw hns]
    unfold costInt hotelInt
    rw [if_pos ht]
    exact crew_formula _ _ _ _ _ _ _ t
  · rw [calculatePositionSum_other pr p hactive ht, orZero_eq_ofInt _ hw.2.2.2.2.1]
    unfold costInt
    rw [if_neg ht]

/-- The cost without per diem on whole numbers. -/
theorem getPositionCostWithoutPerDiem_eq_ofInt (pr : Project) (p : Position)
    (hhc : wholeField pr.hotel_cost_per_night) (hw : wholePosition pr p)
    (hm : magnitude pr p < 2 ^ 53) :
    getPositionCostWithoutPerDiem pr p = JSNum.ofInt (planInt pr p) := by
  by_cases hs : simpleType p.type
  · rw [getPositionCostWithoutPerDiem_simple pr p hs, orZero_eq_ofInt _ hw.2.2.2.2.1]
    unfold planInt
    rw [if_pos hs]
  · have t := lt_of_le_of_lt (terms_le_magnitude pr p hs) hm
    rw [getPositionCostWithoutPerDiem_other pr p hs, orZero_eq_ofInt _ hw.1,
      orZero_eq_ofInt _ hw.2.1, orZero_eq_ofInt _ hw.2.2.1, orZero_eq_ofInt _ hw.2.2.2.1,
      orZero_eq_ofInt _ hhc, resolvedDays_eq_ofInt pr p hw hs]
    unfold planInt hotelInt
    rw [if_neg hs]
    apply plan_formula
    generalize (intField p.daily_rate * intDays pr p).natAbs = A at *
    generalize (intField p.flat_fee).natAbs = B at *
    generalize (intField p.hotel_nights * intField pr.hotel_cost_per_night).natAbs = C at *
    generalize (intField p.travel_costs).natAbs = D at *
    generalize (intField pr.per_diem * intDays pr p).natAbs = E at *
    omega

theorem sum_filter_of_zero {α : Type} (g : α → Int) (c : α → Bool) (l : List α)
    (h : ∀ p ∈ l, c p = false → g p = 0) : ((l.filter c).map g).sum = (l.map g).sum := by
  induction l with
  | nil => rfl
  | cons p ps ih =>
    have ih' := ih (fun q hq => h q (List.mem_cons_of_mem _ hq))
    rw [List.filter_cons]
    by_cases hc : c p = true
    · rw [if_pos hc, List.map_cons, List.sum_cons, List.map_cons, List.sum_cons, ih']
    · rw [if_neg hc, List.map_cons, List.sum_cons, ih',
        h p (List.mem_cons_self _ _) (by simpa using hc), Int.zero_add]

theorem add_ofInt_of_le (a b : Int) (m : Nat) (h : a.natAbs + b.natAbs ≤ m) (hm : m < 2 ^ 53) :
    JSNum.ofInt a + JSNum.ofInt b = JSNum.ofInt (a + b) :=
  JSNum.add_ofInt a b (lt_of_le_of_lt (le_trans (Int.natAbs_add_le a b) h) hm)

theorem sub_ofInt_of_le (a b : Int) (m : Nat) (h : a.natAbs + b.natAbs ≤ m) (hm : m < 2 ^ 53) :
    JSNum.ofInt a - JSNum.ofInt b = JSNum.ofInt (a - b) :=
  JSNum.sub_ofInt a b (lt_of_le_of_lt (le_trans (Int.natAbs_sub_le a b) h) hm)

/-- A loop from 0 that adds the whole number `g p` for the positions that
satisfy `c` computes the exact sum on whole amounts in the safe range. -/
theorem bucket_loop (pr : Project) (l : List Position) (c : Position → Prop) [DecidablePred c]
    (y : Position → JSNum) (g : Position → Int)
    (hy : ∀ p ∈ l, c p → magnitude pr p < 2 ^ 53 → y p = JSNum.ofInt (g p))
    (hg : ∀ p, (if c p then g p else 0).natAbs ≤ magnitude pr p)
    (hb : (l.map (magnitude pr)).sum < 2 ^ 53) :
    l.foldl (fun s p => if c p then s + y p else s) 0
      = JSNum.ofInt ((l.map (fun p => if c p then g p else 0)).sum) :=
  foldl_ofInt_zero (fun s p => if c p then s + y p else s) (fun p => if c p then g p else 0)
    (magnitude pr) l
    (fun p hp x hx => step_ite (c p) x (g p) (y p) (magnitude pr p)
      (fun hc => hy p hp hc (lt_of_le_of_lt (Nat.le_add_left _ _) hx)) (hg p) hx)
    (fun p _ => hg p) hb

theorem safeInputs_whole (pr : Project) (ps : List Position) (h : safeInputs pr ps) :
    ∀ p ∈ ps.filter (fun p => p.active), wholePosition pr p := by
  intro p hp
  rw [List.mem_filter] at hp
  exact h.2.2.2.1 p hp.1 hp.2

theorem safeInputs_bound (pr : Project) (ps : List Position) (h : safeInputs pr ps) :
    ((ps.filter (fun p => p.active)).map (magnitude pr)).sum < 2 ^ 53 :=
  lt_of_le_of_lt (Nat.le_add_left _ _) h.2.2.2.2

/-- On whole amounts in the safe range `calculateSummaries` returns the exact
sums. -/
theorem calculateSummaries_safe (pr : Project) (ps : List Position) (h : safeInputs pr ps) :
    calculateSummaries (some (pr.withPositions ps)) = summariesInt pr ps := by
  have hw := safeInputs_whole pr ps h
  have hb := safeInputs_bound pr ps h
  obtain ⟨hhc, hpd, -, -, -⟩ := h
  have hC : (ps.filter (fun p => p.active)).foldl
      (fun s p => if p.type = "crew" then s + dayCost pr p else s) 0
      = JSNum.ofInt (((ps.filter (fun p => p.active)).map (ownInt "crew" (dayInt pr))).sum) :=
    bucket_loop pr _ (fun p => p.type = "crew") (dayCost pr) (dayInt pr)
      (fun p hp hc hm => dayCost_eq_ofInt pr p hpd (hw p hp) (not_simple_of_cd _ (Or.inl hc)) hm)
      (fun p => (le_of_sum7 _ _ _ _ _ _ _ _ (share_bound pr p)).1) hb
  have hD : (ps.filter (fun p => p.active)).foldl
      (fun s p => if p.type = "darsteller" then s + dayCost pr p else s) 0
      = JSNum.ofInt
          (((ps.filter (fun p => p.active)).map (ownInt "darsteller" (dayInt pr))).sum) :=
    bucket_loop pr _ (fun p => p.type = "darsteller") (dayCost pr) (dayInt pr)
      (fun p hp hc hm => dayCost_eq_ofInt pr p hpd (hw p hp) (not_simple_of_cd _ (Or.inr hc)) hm)
      (fun p => (le_of_sum7 _ _ _ _ _ _ _ _ (share_bound pr p)).2.1) hb
  have hH : (ps.filter (fun p => p.active)).foldl
      (fun s p => if p.type = "crew" ∨ p.type = "darsteller" then
        s + orZero p.hotel_nights * orZero pr.hotel_cost_per_night else s) 0
      = JSNum.ofInt (((ps.filter (fun p => p.active)).map (sharedInt (hotelInt pr))).sum) :=
    bucket_loop pr _ (fun p => p.type = "crew" ∨ p.type = "darsteller")
      (fun p => orZero p.hotel_nights * orZero pr.hotel_cost_per_night) (hotelInt pr)
      (fun p hp hc hm => hotel_eq_ofInt pr p hhc (hw p hp) (not_simple_of_cd _ hc) hm)
      (fun p => (le_of_sum7 _ _ _ _ _ _ _ _ (share_bound pr p)).2.2.1) hb
  have hT : (ps.filter (fun p => p.active)).foldl
      (fun s p => if p.type = "crew" ∨ p.type = "darsteller" then
        s + orZero p.travel_costs else s) 0
      = JSNum.ofInt (((ps.filter (fun p => p.active)).map
          (sharedInt (fun p => intField p.travel_costs))).sum) :=
    bucket_loop pr _ (fun p => p.type = "crew" ∨ p.type = "darsteller")
      (fun p => orZero p.travel_costs) (fun p => intField p.travel_costs)
      (fun p hp _ _ => orZero_eq_ofInt _ (hw p hp).2.2.2.1)
      (fun p => (le_of_sum7 _ _ _ _ _ _ _ _ (share_bound pr p)).2.2.2.1) hb
  have hL : (ps.filter (fun p => p.active)).foldl
      (fun s p => if p.type = "leihe" then s + orZero p.costs else s) 0
      = JSNum.ofInt (((ps.filter (fun p => p.active)).map
          (ownInt "leihe" (fun p => intField p.costs))).sum) :=
    bucket_loop pr _ (fun p => p.type = "leihe")
      (fun p => orZero p.costs) (fun p => intField p.costs)
      (fun p hp _ _ => orZero_eq_ofInt _ (hw p hp).2.2.2.2.1)
      (fun p => (le_of_sum7 _ _ _ _ _ _ _ _ (share_bound pr p)).2.2.2.2.1) hb
  have hO : (ps.filter (fun p => p.active)).foldl
      (fun s p => if p.type = "location" then s + orZero p.costs else s) 0
      = JSNum.ofInt (((ps.filter (fun p => p.active)).map
          (ownInt "location" (fun p => intField p.costs))).sum) :=
    bucket_loop pr _ (fun p => p.type = "location")
      (fun p => orZero p.costs) (fun p => intField p.costs)
      (fun p hp _ _ => orZero_eq_ofInt _ (hw p hp).2.2.2.2.1)
      (fun p => (le_of_sum7 _ _ _ _ _ _ _ _ (share_bound pr p)).2.2.2.2.2.1) hb
  have hS : (ps.filter (fun p => p.active)).foldl
      (fun s p => if p.type = "sonstiges" then s + orZero p.costs else s) 0
      = JSNum.ofInt (((ps.filter (fun p => p.active)).map
          (ownInt "sonstiges" (fun p => intField p.costs))).sum) :=
    bucket_loop pr _ (fun p => p.type = "sonstiges")
      (fun p => orZero p.costs) (fun p => intField p.costs)
      (fun p hp _ _ => orZero_eq_ofInt _ (hw p hp).2.2.2.2.1)
      (fun p => (le_of_sum7 _ _ _ _ _ _ _ _ (share_bound pr p)).2.2.2.2.2.2) hb
  rw [calculateSummaries_eq_loops, hC, hD, hH, hT, hL, hO, hS,
    add7_ofInt _ _ _ _ _ _ _ _ (summaries_bound pr _) hb]
  rfl

/-- The loop over the costs without per diem on whole amounts in the safe
range. -/
theorem plannedSum_safe (pr : Project) (ps : List Position) (h : safeInputs pr ps) :
    (ps.filter (fun p => p.active)).foldl
        (fun acc pos => acc + getPositionCostWithoutPerDiem pr pos) 0
      = JSNum.ofInt (((ps.filter (fun p => p.active)).map (planInt pr)).sum) :=
  foldl_ofInt_zero _ (planInt pr) (magnitude pr) _
    (fun p hp x hx => step_add x (planInt pr p) _ (magnitude pr p)
      (getPositionCostWithoutPerDiem_eq_ofInt pr p h.1 (safeInputs_whole pr ps h p hp)
        (lt_of_le_of_lt (Nat.le_add_left _ _) hx))
      (le_trans (Nat.le_add_right _ _) (le_trans (Nat.le_add_right _ _)
        (comparison_bound pr p))) hx)
    (fun p _ => le_trans (Nat.le_add_right _ _) (le_trans (Nat.le_add_right _ _)
      (comparison_bound pr p)))
    (safeInputs_bound pr ps h)

/-- The comparison view's `totalPerDiem` on whole amounts in the safe range. -/
theorem totalPerDiem_safe (pr : Project) (ps : List Position) (h : safeInputs pr ps) :
    (comparisonView pr ps).totalPerDiem
      = JSNum.ofInt (((ps.filter (fun p => p.active)).map (perDiemInt pr)).sum) := by
  have hpd_le : ∀ p : Position, (perDiemInt pr p).natAbs ≤ magnitude pr p := fun p =>
    le_trans (le_trans (Nat.le_add_left _ _) (Nat.le_add_right _ _)) (comparison_bound pr p)
  have hloop := foldl_ofInt_zero
    (fun acc pos => acc + orZero pr.per_diem * resolvedDays pr pos) (perDiemInt pr)
    (magnitude pr)
    ((ps.filter (fun p => p.active)).filter (fun p => p.type == "crew" || p.type == "darsteller"))
    (fun p hp x hx => step_add x (perDiemInt pr p) _ (magnitude pr p)
      (perDiem_eq_ofInt pr p h.2.1
        (safeInputs_whole pr ps h p (List.mem_filter.mp hp).1)
        (by simpa using (List.mem_filter.mp hp).2)
        (lt_of_le_of_lt (Nat.le_add_left _ _) hx))
      (hpd_le p) hx)
    (fun p _ => hpd_le p)
    (lt_of_le_of_lt (sum_filter_le _ _ _) (safeInputs_bound pr ps h))
  rw [sum_filter_of_zero] at hloop
  · exact hloop
  · intro p _ hc
    unfold perDiemInt
    rw [if_neg]
    simpa using hc

/-- The comparison view's `totalCalculated` on whole amounts in the safe range. -/
theorem totalCalculated_safe (pr : Project) (ps : List Position) (h : safeInputs pr ps) :
    (comparisonView pr ps).totalCalculated
      = JSNum.ofInt (((ps.filter (fun p => p.active)).map (planInt pr)).sum
          + ((ps.filter (fun p => p.active)).map (perDiemInt pr)).sum) := by
  have h1 := plannedSum_safe pr ps h
  have h2 := totalPerDiem_safe pr ps h
  have hb := comparison_sums_bound pr (ps.filter (fun p => p.active))
  show (ps.filter (fun p => p.active)).foldl
      (fun acc pos => acc + getPositionCostWithoutPerDiem pr pos) 0
      + (comparisonView pr ps).totalPerDiem = _
  rw [h1, h2]
  exact add_ofInt_of_le _ _ _ (le_trans (Nat.le_add_right _ _) hb) (safeInputs_bound pr ps h)

/-- The comparison view's `totalActual` on whole amounts in the safe range. -/
theorem totalActual_safe (pr : Project) (ps : List Position) (h : safeInputs pr ps) :
    (comparisonView pr ps).totalActual
      = JSNum.ofInt (intField pr.actual_per_diem
          + ((ps.filter (fun p => p.active)).map (fun p => intField p.actual_costs)).sum) := by
  have hle : ∀ p : Position, (intField p.actual_costs).natAbs ≤ magnitude pr p := fun p =>
    le_trans (Nat.le_add_left _ _) (comparison_bound pr p)
  show (ps.filter (fun p => p.active)).foldl
      (fun acc pos => acc + orZero pos.actual_costs) (orZero pr.actual_per_diem) = _
  rw [orZero_eq_ofInt _ h.2.2.1]
  exact foldl_ofInt (fun acc (pos : Position) => acc + orZero pos.actual_costs)
    (fun p => intField p.actual_costs) (magnitude pr) _ _
    (fun p hp x hx => step_add x _ _ (magnitude pr p)
      (orZero_eq_ofInt _ (safeInputs_whole pr ps h p hp).2.2.2.2.2.1) (hle p) hx)
    (fun p _ => hle p) h.2.2.2.2

/-- The `calculated` of `calculateComparison` on whole amounts in the safe
range. -/
theorem calculated_safe (pr : Project) (ps : List Position) (h : safeInputs pr ps) :
    (calculateComparison (some (pr.withPositions ps))).calculated
      = JSNum.ofInt (((ps.filter (fun p => p.active)).map (costInt pr)).sum) := by
  show (ps.filter (fun p => p.active)).foldl
      (fun sum p => sum + calculatePositionSum (some (pr.withPositions ps)) p) 0 = _
  exact foldl_ofInt_zero _ (costInt pr) (magnitude pr) _
    (fun p hp x hx => step_add x (costInt pr p) _ (magnitude pr p)
      (calculatePositionSum_eq_ofInt pr p (by simpa using (List.mem_filter.mp hp).2) h.1 h.2.1
        (safeInputs_whole pr ps h p hp) (lt_of_le_of_lt (Nat.le_add_left _ _) hx))
      (costInt_bound pr p) hx)
    (fun p _ => costInt_bound pr p) (safeInputs_bound pr ps h)

/-- The sum of the differences of the position rows on whole amounts in the
safe range. -/
theorem rowDiffs_safe (pr : Project) (ps : List Position) (h : safeInputs pr ps) :
    sumFrom 0 ((comparisonView pr ps).rows.map (fun r => r.diff))
      = JSNum.ofInt (((ps.filter (fun p => p.active)).map (planInt pr)).sum
          - ((ps.filter (fun p => p.active)).map (fun p => intField p.actual_costs)).sum) := by
  have hle : ∀ p : Position,
      (planInt pr p).natAbs + (intField p.actual_costs).natAbs ≤ magnitude pr p := by
    intro p
    have := comparison_bound pr p
    generalize (planInt pr p).natAbs = A at *
    generalize (perDiemInt pr p).natAbs = B at *
    generalize (intField p.actual_costs).natAbs = C at *
    omega
  have hle' : ∀ p : Position,
      (planInt pr p - intField p.actual_costs).natAbs ≤ magnitude pr p := fun p =>
    le_trans (Int.natAbs_sub_le _ _) (hle p)
  show sumFrom 0 (((ps.filter (fun p => p.active)).map (comparisonRow pr)).map
    (fun r => r.diff)) = _
  rw [List.map_map, sumFrom_map, ← sum_map_sub_int]
  exact foldl_ofInt_zero _ (fun p => planInt pr p - intField p.actual_costs) (magnitude pr) _
    (fun p hp x hx => step_add x _ _ (magnitude pr p)
      (by
        have hm : magnitude pr p < 2 ^ 53 := lt_of_le_of_lt (Nat.le_add_left _ _) hx
        show getPositionCostWithoutPerDiem pr p - orZero p.actual_costs = _
        rw [getPositionCostWithoutPerDiem_eq_ofInt pr p h.1 (safeInputs_whole pr ps h p hp) hm,
          orZero_eq_ofInt _ (safeInputs_whole pr ps h p hp).2.2.2.2.2.1]
        exact sub_ofInt_of_le _ _ _ (hle p) hm)
      (hle' p) hx)
    (fun p _ => hle' p) (safeInputs_bound pr ps h)

/-- `calculateHotelNights` on whole amounts in the safe range. -/
theorem calculateHotelNights_safe (pr : Project) (ps : List Position) (h : safeInputs pr ps) :
    calculateHotelNights (some (pr.withPositions ps))
      = JSNum.ofInt (((ps.filter (fun p => p.active)).map
          (sharedInt (fun p => intField p.hotel_nights))).sum) := by
  have hloop := foldl_ofInt_zero
    (fun sum (p : Position) => sum + orZero p.hotel_nights)
    (sharedInt (fun p => intField p.hotel_nights)) (magnitude pr)
    ((ps.filter (fun p => p.active)).filter (fun p => p.type == "crew" || p.type == "darsteller"))
    (fun p hp x hx => step_add x _ _ (magnitude pr p)
      (by
        have hc : p.type = "crew" ∨ p.type = "darsteller" := by
          simpa using (List.mem_filter.mp hp).2
        unfold sharedInt
        rw [if_pos hc]
        exact orZero_eq_ofInt _ (safeInputs_whole pr ps h p (List.mem_filter.mp hp).1).2.2.1)
      (nights_bound pr p) hx)
    (fun p _ => nights_bound pr p)
    (lt_of_le_of_lt (sum_filter_le _ _ _) (safeInputs_bound pr ps h))
  rw [sum_filter_of_zero] at hloop
  · show (ps.filter
        (fun p => p.active && (p.type == "crew" || p.type == "darsteller"))).foldl
        (fun sum p => sum + orZero p.hotel_nights) 0 = _
    rw [← hloop, List.filter_filter]
    congr 1
    apply List.filter_congr
    intro p _
    exact Bool.and_comm _ _
  · intro p _ hc
    unfold sharedInt
    rw [if_neg]
    simpa using hc

/-! ## Order, signs and missing values -/

theorem summaryStep_unrecognized (pr : Project) (acc : Buckets) (u : Position)
    (hun : ¬ recognizedType u.type) : summaryStep pr acc u = acc := by
  unfold recognizedType at hun
  push_neg at hun
  obtain ⟨h1, h2, h3, h4, h5⟩ := hun
  simp [summaryStep, h1, h2, h3, h4, h5]

/-- Whole amounts in the safe range stay so when the list is reordered. -/
theorem safeInputs_perm (pr : Project) (ps ps' : List Position) (hperm : ps'.Perm ps)
    (h : safeInputs pr ps) : safeInputs pr ps' := by
  obtain ⟨h1, h2, h3, h4, h5⟩ := h
  refine ⟨h1, h2, h3, fun p hp => h4 p (hperm.mem_iff.mp hp), ?_⟩
  rw [((hperm.filter (fun p => p.active)).map (magnitude pr)).sum_eq]
  exact h5

/-- The exact sums do not depend on the order of the list. -/
theorem summariesInt_perm (pr : Project) (ps ps' : List Position) (hperm : ps'.Perm ps) :
    summariesInt pr ps' = summariesInt pr ps := by
  have hf := hperm.filter (fun p : Position => p.active)
  unfold summariesInt
  simp only [(hf.map _).sum_eq]

/-- Replacing one element of a list changes a sum by the change of its summand. -/
theorem sum_map_replace_int {α : Type} (g : α → Int) (A B : List α) (x x' : α) (e : Int)
    (h : g x' = g x + e) :
    ((A ++ x' :: B).map g).sum = ((A ++ x :: B).map g).sum + e := by
  simp only [List.map_append, List.map_cons, List.sum_append, List.sum_cons, h]
  omega

/-- Replacing one element by one with the same summand leaves a sum as it was. -/
theorem sum_map_replace_eq_int {α : Type} (g : α → Int) (A B : List α) (x x' : α)
    (h : g x' = g x) :
    ((A ++ x' :: B).map g).sum = ((A ++ x :: B).map g).sum := by
  simp only [List.map_append, List.map_cons, List.sum_append, List.sum_cons, h]

/-- Replacing one element by one on which the step does the same leaves a
loop as it was. -/
theorem foldl_replace_eq {α β : Type} (step : β → α → β) (A B : List α) (x x' : α) (a : β)
    (h : ∀ s, step s x' = step s x) :
    (A ++ x' :: B).foldl step a = (A ++ x :: B).foldl step a := by
  simp only [List.foldl_append, List.foldl_cons, h]

/-- A loop that adds non-negative numbers where `c` holds, from a
non-negative number, gives a non-negative number. -/
theorem nonneg_loop {α : Type} (c : α → Prop) [DecidablePred c] (y : α → JSNum) (l : List α)
    (a : JSNum) (ha : a.nonneg) (h : ∀ p ∈ l, c p → (y p).nonneg) :
    (l.foldl (fun s p => if c p then s + y p else s) a).nonneg := by
  induction l generalizing a with
  | nil => exact ha
  | cons x xs ih =>
    rw [List.foldl_cons]
    apply ih
    · by_cases hc : c x
      · rw [if_pos hc]
        exact JSNum.nonneg_add _ _ ha (h x (List.mem_cons_self _ _) hc)
      · rw [if_neg hc]
        exact ha
    · intro p hp
      exact h p (List.mem_cons_of_mem _ hp)

theorem finiteNonneg_iff (x : JSNum) : x.finiteNonneg ↔ ∃ k : Int, x = fin k ∧ 0 ≤ k := by
  cases x with
  | nan =>
    constructor
    · intro h
      exact absurd h id
    · rintro ⟨k, h, _⟩
      cases h
  | inf b =>
    constructor
    · intro h
      exact absurd h id
    · rintro ⟨k, h, _⟩
      cases h
  | fin n =>
    constructor
    · intro h
      exact ⟨n, rfl, h⟩
    · rintro ⟨k, h, hk⟩
      cases h
      exact hk

theorem nonneg_of_finiteNonneg (x : JSNum) (h : x.finiteNonneg) : x.nonneg := by
  obtain ⟨k, hk, h0⟩ := (finiteNonneg_iff x).mp h
  rw [hk]
  exact h0

/-- A product of two finite numbers that are at least 0 is a non-negative
number. -/
theorem nonneg_mul (x y : JSNum) (hx : x.finiteNonneg) (hy : y.finiteNonneg) :
    (x * y).nonneg := by
  obtain ⟨a, ha, ha0⟩ := (finiteNonneg_iff x).mp hx
  obtain ⟨b, hb, hb0⟩ := (finiteNonneg_iff y).mp hy
  rw [ha, hb]
  exact JSNum.nonneg_mul_fin a b ha0 hb0

/-- The day-dependent amount of a position is a non-negative number when its
inputs are finite and at least 0. -/
theorem nonneg_dayCost (pr : Project) (p : Position) (hdiem : notNegative pr.per_diem)
    (hrate : notNegative p.daily_rate) (hflat : notNegative p.flat_fee)
    (hd : (resolvedDays pr p).finiteNonneg) : (dayCost pr p).nonneg :=
  JSNum.nonneg_add _ _
    (JSNum.nonneg_add _ _ (nonneg_mul _ _ hrate hd) (nonneg_of_finiteNonneg _ hflat))
    (nonneg_mul _ _ hdiem hd)

/-- The eight fields of `calculateSummaries` are non-negative numbers when
the inputs of the active positions are finite and at least 0. -/
theorem nonneg_summaries (pr : Project) (ps : List Position)
    (hhotel : notNegative pr.hotel_cost_per_night) (hdiem : notNegative pr.per_diem)
    (hpos : ∀ p ∈ ps, p.active = true → notNegative p.daily_rate ∧ notNegative p.flat_fee
      ∧ notNegative p.hotel_nights ∧ notNegative p.travel_costs ∧ notNegative p.costs)
    (hdays : ∀ p ∈ ps, p.active = true → (p.type = "crew" ∨ p.type = "darsteller") →
      (resolvedDays pr p).finiteNonneg) :
    (calculateSummaries (some (pr.withPositions ps))).crew.nonneg
      ∧ (calculateSummaries (some (pr.withPositions ps))).darsteller.nonneg
      ∧ (calculateSummaries (some (pr.withPositions ps))).hotel.nonneg
      ∧ (calculateSummaries (some (pr.withPositions ps))).travel.nonneg
      ∧ (calculateSummaries (some (pr.withPositions ps))).leihe.nonneg
      ∧ (calculateSummaries (some (pr.withPositions ps))).location.nonneg
      ∧ (calculateSummaries (some (pr.withPositions ps))).sonstiges.nonneg
      ∧ (calculateSummaries (some (pr.withPositions ps))).total.nonneg := by
  have hact : ∀ p ∈ ps.filter (fun p => p.active), p ∈ ps ∧ p.active = true := fun p hp =>
    List.mem_filter.mp hp
  have hC : (calculateSummaries (some (pr.withPositions ps))).crew.nonneg := by
    rw [calculateSummaries_eq_loops]
    exact nonneg_loop _ _ _ _ JSNum.nonneg_zero (fun p hp hc =>
      nonneg_dayCost pr p hdiem (hpos p (hact p hp).1 (hact p hp).2).1
        (hpos p (hact p hp).1 (hact p hp).2).2.1
        (hdays p (hact p hp).1 (hact p hp).2 (Or.inl hc)))
  have hD : (calculateSummaries (some (pr.withPositions ps))).darsteller.nonneg := by
    rw [calculateSummaries_eq_loops]
    exact nonneg_loop _ _ _ _ JSNum.nonneg_zero (fun p hp hc =>
      nonneg_dayCost pr p hdiem (hpos p (hact p hp).1 (hact p hp).2).1
        (hpos p (hact p hp).1 (hact p hp).2).2.1
        (hdays p (hact p hp).1 (hact p hp).2 (Or.inr hc)))
  have hH : (calculateSummaries (some (pr.withPositions ps))).hotel.nonneg := by
    rw [calculateSummaries_eq_loops]
    exact nonneg_loop _ _ _ _ JSNum.nonneg_zero (fun p hp _ =>
      nonneg_mul _ _ (hpos p (hact p hp).1 (hact p hp).2).2.2.1 hhotel)
  have hT : (calculateSummaries (some (pr.withPositions ps))).travel.nonneg := by
    rw [calculateSummaries_eq_loops]
    exact nonneg_loop _ _ _ _ JSNum.nonneg_zero (fun p hp _ =>
      nonneg_of_finiteNonneg _ (hpos p (hact p hp).1 (hact p hp).2).2.2.2.1)
  have hL : (calculateSummaries (some (pr.withPositions ps))).leihe.nonneg := by
    rw [calculateSummaries_eq_loops]
    exact nonneg_loop _ _ _ _ JSNum.nonneg_zero (fun p hp _ =>
      nonneg_of_finiteNonneg _ (hpos p (hact p hp).1 (hact p hp).2).2.2.2.2)
  have hO : (calculateSummaries (some (pr.withPositions ps))).location.nonneg := by
    rw [calculateSummaries_eq_loops]
    exact nonneg_loop _ _ _ _ JSNum.nonneg_zero (fun p hp _ =>
      nonneg_of_finiteNonneg _ (hpos p (hact p hp).1 (hact p hp).2).2.2.2.2)
  have hS : (calculateSummaries (some (pr.withPositions ps))).sonstiges.nonneg := by
    rw [calculateSummaries_eq_loops]
    exact nonneg_loop _ _ _ _ JSNum.nonneg_zero (fun p hp _ =>
      nonneg_of_finiteNonneg _ (hpos p (hact p hp).1 (hact p hp).2).2.2.2.2)
  exact ⟨hC, hD, hH, hT, hL, hO, hS,
    JSNum.nonneg_add _ _ (JSNum.nonneg_add _ _ (JSNum.nonneg_add _ _ (JSNum.nonneg_add _ _
      (JSNum.nonneg_add _ _ (JSNum.nonneg_add _ _ hC hD) hH) hT) hL) hO) hS⟩

/-- The days on set as the arithmetic sees them are the days with a missing
value replaced by 0, unless the position has none and the project's
`shooting_days` property is absent. -/
theorem resolvedDays_eq_daysOrZero (pr : Project) (p : Position)
    (h : missing p.days_on_set → pr.shooting_days ≠ JSVal.undefined) :
    resolvedDays pr p = daysOrZero pr p := by
  unfold resolvedDays daysOrZero
  cases hd : p.days_on_set with
  | num x => rfl
  | undefined =>
    have hs := h (Or.inl hd)
    cases hz : pr.shooting_days with
    | num y => rfl
    | undefined => exact absurd hz hs
    | null => rfl
  | null =>
    have hs := h (Or.inr hd)
    cases hz : pr.shooting_days with
    | num y => rfl
    | undefined => exact absurd hz hs
    | null => rfl

/-! ## Whole-number identities -/

/-- For a position of a recognized type the shares of the seven buckets add
up to the position sum. -/
theorem share_eq_costInt (pr : Project) (p : Position) (hrec : recognizedType p.type) :
    ownInt "crew" (dayInt pr) p + ownInt "darsteller" (dayInt pr) p
        + sharedInt (hotelInt pr) p + sharedInt (fun p => intField p.travel_costs) p
        + ownInt "leihe" (fun p => intField p.costs) p
        + ownInt "location" (fun p => intField p.costs) p
        + ownInt "sonstiges" (fun p => intField p.costs) p
      = costInt pr p := by
  unfold recognizedType at hrec
  rcases type_facts p.type with ⟨h1, h2, h3, h4, h5⟩ | ⟨h1, h2, h3, h4, h5⟩
    | ⟨h1, h2, h3, h4, h5⟩ | ⟨h1, h2, h3, h4, h5⟩ | ⟨h1, h2, h3, h4, h5⟩
    | ⟨h1, h2, h3, h4, h5⟩ <;>
  simp only [ownInt, sharedInt, costInt, dayInt, h1, h2, h3, h4, h5, if_true,
    if_false, true_or, or_true, or_false, or_self] at hrec ⊢ <;>
  omega

/-- For a position of a recognized type the cost without per diem and the per
diem add up to the position sum. -/
theorem plan_add_perDiem (pr : Project) (p : Position) (hrec : recognizedType p.type) :
    planInt pr p + perDiemInt pr p = costInt pr p := by
  unfold recognizedType at hrec
  rcases type_facts p.type with ⟨h1, h2, h3, h4, h5⟩ | ⟨h1, h2, h3, h4, h5⟩
    | ⟨h1, h2, h3, h4, h5⟩ | ⟨h1, h2, h3, h4, h5⟩ | ⟨h1, h2, h3, h4, h5⟩
    | ⟨h1, h2, h3, h4, h5⟩ <;>
  simp only [planInt, perDiemInt, costInt, simpleType, h1, h2, h3, h4, h5, if_true,
    if_false, true_or, or_true, or_false, or_self] at hrec ⊢ <;>
  omega

theorem sum7_eq {α : Type} (g1 g2 g3 g4 g5 g6 g7 k : α → Int) (l : List α)
    (h : ∀ p ∈ l, g1 p + g2 p + g3 p + g4 p + g5 p + g6 p + g7 p = k p) :
    (l.map g1).sum + (l.map g2).sum + (l.map g3).sum + (l.map g4).sum + (l.map g5).sum
        + (l.map g6).sum + (l.map g7).sum = (l.map k).sum := by
  induction l with
  | nil => rfl
  | cons p ps ih =>
    have h1 := h p (List.mem_cons_self _ _)
    have h2 := ih (fun q hq => h q (List.mem_cons_of_mem _ hq))
    simp only [List.map_cons, List.sum_cons]
    omega

theorem sum2_eq {α : Type} (g1 g2 k : α → Int) (l : List α)
    (h : ∀ p ∈ l, g1 p + g2 p = k p) :
    (l.map g1).sum + (l.map g2).sum = (l.map k).sum := by
  induction l with
  | nil => rfl
  | cons p ps ih =>
    have h1 := h p (List.mem_cons_self _ _)
    have h2 := ih (fun q hq => h q (List.mem_cons_of_mem _ hq))
    simp only [List.map_cons, List.sum_cons]
    omega

/-- On whole amounts in the safe range and recognized types the `total` of
`calculateSummaries` is the exact sum of the position sums. -/
theorem total_safe (pr : Project) (ps : List Position)
    (hrec : ∀ p ∈ ps, p.active = true → recognizedType p.type) (hsafe : safeInputs pr ps) :
    (calculateSummaries (some (pr.withPositions ps))).total
      = JSNum.ofInt (((ps.filter (fun p => p.active)).map (costInt pr)).sum) := by
  rw [calculateSummaries_safe pr ps hsafe]
  show JSNum.ofInt _ = _
  congr 1
  exact sum7_eq _ _ _ _ _ _ _ _ _ (fun p hp =>
    share_eq_costInt pr p (hrec p (List.mem_filter.mp hp).1 (by
      simpa using (List.mem_filter.mp hp).2)))

/-! ## A change of the days on set -/

theorem mem_le_sum {α : Type} (w : α → Nat) (l : List α) (p : α) (hp : p ∈ l) :
    w p ≤ (l.map w).sum := by
  induction l with
  | nil => cases hp
  | cons x xs ih =>
    simp only [List.map_cons, List.sum_cons]
    rcases List.mem_cons.mp hp with h | h
    · rw [h]
      exact Nat.le_add_right _ _
    · exact le_trans (ih h) (Nat.le_add_left _ _)

/-- On whole amounts in the safe range every active position is within the
safe range by itself. -/
theorem safeInputs_magnitude (pr : Project) (ps : List Position) (h : safeInputs pr ps)
    (p : Position) (hp : p ∈ ps) (hactive : p.active = true) : magnitude pr p < 2 ^ 53 :=
  lt_of_le_of_lt
    (mem_le_sum (magnitude pr) _ p (List.mem_filter.mpr ⟨hp, hactive⟩))
    (safeInputs_bound pr ps h)

theorem intDays_int (pr : Project) (p : Position) (d : Int) :
    intDays pr { p with days_on_set := JSVal.int d } = d :=
  JSNum.intValue_ofInt d

/-- The change of the position sum in whole numbers when the days on set go
from `d` to `d'`. -/
theorem costInt_days (pr : Project) (p : Position) (d d' : Int)
    (htype : p.type = "crew" ∨ p.type = "darsteller") :
    costInt pr { p with days_on_set := JSVal.int d' }
      = costInt pr { p with days_on_set := JSVal.int d }
        + (intField p.daily_rate + intField pr.per_diem) * (d' - d) := by
  unfold costInt hotelInt
  rw [if_pos htype, if_pos htype, intDays_int, intDays_int]
  show intField p.daily_rate * d' + intField p.flat_fee
      + intField p.hotel_nights * intField pr.hotel_cost_per_night + intField p.travel_costs
      + intField pr.per_diem * d'
    = intField p.daily_rate * d + intField p.flat_fee
      + intField p.hotel_nights * intField pr.hotel_cost_per_night + intField p.travel_costs
      + intField pr.per_diem * d + (intField p.daily_rate + intField pr.per_diem) * (d' - d)
  ring

/-- The change of the day-dependent amount in whole numbers when the days on
set go from `d` to `d'`. -/
theorem dayInt_days (pr : Project) (p : Position) (d d' : Int) :
    dayInt pr { p with days_on_set := JSVal.int d' }
      = dayInt pr { p with days_on_set := JSVal.int d }
        + (intField p.daily_rate + intField pr.per_diem) * (d' - d) := by
  unfold dayInt
  rw [intDays_int, intDays_int]
  show intField p.daily_rate * d' + intField p.flat_fee + intField pr.per_diem * d'
    = intField p.daily_rate * d + intField p.flat_fee + intField pr.per_diem * d
      + (intField p.daily_rate + intField pr.per_diem) * (d' - d)
  ring

/-- The sum of an amount over the active positions changes by the change of
the amount of the one active position that is replaced. -/
theorem sum_active_replace (g : Position → Int) (l1 l2 : List Position) (x x' : Position)
    (e : Int) (hx : x.active = true) (hx' : x'.active = true) (h : g x' = g x + e) :
    (((l1 ++ x' :: l2).filter (fun p => p.active)).map g).sum
      = (((l1 ++ x :: l2).filter (fun p => p.active)).map g).sum + e := by
  rw [filter_active_append_cons l1 l2 x' hx', filter_active_append_cons l1 l2 x hx]
  exact sum_map_replace_int g _ _ x x' e h

theorem sum_active_replace_eq (g : Position → Int) (l1 l2 : List Position) (x x' : Position)
    (hx : x.active = true) (hx' : x'.active = true) (h : g x' = g x) :
    (((l1 ++ x' :: l2).filter (fun p => p.active)).map g).sum
      = (((l1 ++ x :: l2).filter (fun p => p.active)).map g).sum := by
  rw [filter_active_append_cons l1 l2 x' hx', filter_active_append_cons l1 l2 x hx]
  exact sum_map_replace_eq_int g _ _ x x' h

/-- A loop over the active positions is as it was when the one active
position that is replaced makes the same step. -/
theorem loop_active_replace_eq (step : JSNum → Position → JSNum) (l1 l2 : List Position)
    (x x' : Position) (hx : x.active = true) (hx' : x'.active = true)
    (h : ∀ s, step s x' = step s x) :
    ((l1 ++ x' :: l2).filter (fun p => p.active)).foldl step 0
      = ((l1 ++ x :: l2).filter (fun p => p.active)).foldl step 0 := by
  rw [filter_active_append_cons l1 l2 x' hx', filter_active_append_cons l1 l2 x hx]
  exact foldl_replace_eq step _ _ x x' 0 h

/-- The bucket of the position's own type on whole amounts in the safe range,
after the days on set went from `d` to `d'`. -/
theorem own_bucket_days (pr : Project) (l1 l2 : List Position) (p : Position) (d d' : Int)
    (t : String) (hactive : p.active = true) (ht : p.type = t)
    (hsafe' : safeInputs pr (l1 ++ { p with days_on_set := JSVal.int d' } :: l2))
    (hle : ((((l1 ++ { p with days_on_set := JSVal.int d' } :: l2).filter
        (fun p => p.active)).map (ownInt t (dayInt pr))).sum).natAbs
      ≤ (((l1 ++ { p with days_on_set := JSVal.int d' } :: l2).filter
        (fun p => p.active)).map (magnitude pr)).sum) :
    JSNum.ofInt ((((l1 ++ { p with days_on_set := JSVal.int d' } :: l2).filter
        (fun p => p.active)).map (ownInt t (dayInt pr))).sum)
      = JSNum.ofInt ((((l1 ++ { p with days_on_set := JSVal.int d } :: l2).filter
          (fun p => p.active)).map (ownInt t (dayInt pr))).sum)
        + JSNum.ofInt ((intField p.daily_rate + intField pr.per_diem) * (d' - d)) := by
  have hsum := sum_active_replace (ownInt t (dayInt pr)) l1 l2
    { p with days_on_set := JSVal.int d } { p with days_on_set := JSVal.int d' }
    ((intField p.daily_rate + intField pr.per_diem) * (d' - d)) hactive hactive (by
      unfold ownInt
      rw [if_pos ht, if_pos ht]
      exact dayInt_days pr p d d')
  have hb := lt_of_le_of_lt hle (safeInputs_bound pr _ hsafe')
  rw [hsum] at hb ⊢
  exact (JSNum.add_ofInt _ _ hb).symm

/-! ## Non-negative position sums -/

/-- The position sum of an active position is a non-negative number when its
inputs are finite and at least 0. -/
theorem nonneg_calculatePositionSum (pr : Project) (p : Position) (hactive : p.active = true)
    (hhotel : notNegative pr.hotel_cost_per_night) (hdiem : notNegative pr.per_diem)
    (hpos : notNegative p.daily_rate ∧ notNegative p.flat_fee ∧ notNegative p.hotel_nights
      ∧ notNegative p.travel_costs ∧ notNegative p.costs)
    (hdays : (p.type = "crew" ∨ p.type = "darsteller") → (resolvedDays pr p).finiteNonneg) :
    (calculatePositionSum (some pr) p).nonneg := by
  by_cases ht : p.type = "crew" ∨ p.type = "darsteller"
  · rw [calculatePositionSum_cd pr p hactive ht]
    exact JSNum.nonneg_add _ _ (JSNum.nonneg_add _ _ (JSNum.nonneg_add _ _
      (JSNum.nonneg_add _ _ (nonneg_mul _ _ hpos.1 (hdays ht))
        (nonneg_of_finiteNonneg _ hpos.2.1))
      (nonneg_mul _ _ hpos.2.2.1 hhotel)) (nonneg_of_finiteNonneg _ hpos.2.2.2.1))
      (nonneg_mul _ _ hdiem (hdays ht))
  · rw [calculatePositionSum_other pr p hactive ht]
    exact nonneg_of_finiteNonneg _ hpos.2.2.2.2

/-! ## The overall difference on whole numbers -/

theorem natAbs_sub_add (a b c e : Int) :
    (a + b - (c + e)).natAbs ≤ a.natAbs + b.natAbs + c.natAbs + e.natAbs :=
  le_trans (Int.natAbs_sub_le _ _)
    (le_trans (Nat.add_le_add (Int.natAbs_add_le a b) (Int.natAbs_add_le c e))
      (le_of_eq (by omega)))

theorem natAbs_sub_add_sub (a b c e : Int) :
    (a - e + (b - c)).natAbs ≤ a.natAbs + b.natAbs + c.natAbs + e.natAbs :=
  le_trans (Int.natAbs_add_le _ _)
    (le_trans (Nat.add_le_add (Int.natAbs_sub_le a e) (Int.natAbs_sub_le b c))
      (le_of_eq (by omega)))

theorem lt_of_parts (P D S A m : Nat) (h : P + D + S ≤ m) (hm : A + m < 2 ^ 53) :
    P + D + A + S < 2 ^ 53 ∧ D + A < 2 ^ 53 := by
  omega

/-- On whole amounts in the safe range the overall difference of the
comparison view is the sum of the differences of the position rows plus
`totalPerDiem - actual_per_diem`. -/
theorem overall_difference_safe (pr : Project) (ps : List Position) (hsafe : safeInputs pr ps) :
    (comparisonView pr ps).totalCalculated - (comparisonView pr ps).totalActual
      = sumFrom 0 ((comparisonView pr ps).rows.map (fun r => r.diff))
        + ((comparisonView pr ps).totalPerDiem - orZero pr.actual_per_diem) := by
  have hb := comparison_sums_bound pr (ps.filter (fun p => p.active))
  obtain ⟨k1, k2⟩ := lt_of_parts _ _ _ _ _ hb hsafe.2.2.2.2
  rw [totalCalculated_safe pr ps hsafe, totalActual_safe pr ps hsafe, rowDiffs_safe pr ps hsafe,
    totalPerDiem_safe pr ps hsafe, orZero_eq_ofInt _ hsafe.2.2.1,
    JSNum.sub_ofInt _ _ (lt_of_le_of_lt (natAbs_sub_add _ _ _ _) k1),
    JSNum.sub_ofInt _ _ (lt_of_le_of_lt (Int.natAbs_sub_le _ _) k2),
    JSNum.add_ofInt _ _ (lt_of_le_of_lt (natAbs_sub_add_sub _ _ _ _) k1)]
  congr 1
  omega

/-! ## The store -/

/-- No assignment of the project handler writes `actual_per_diem`. -/
theorem ProjectRow.set_actual_per_diem (r r' : ProjectRow) (s : ProjectSet)
    (h : r.set s = some r') : r'.actual_per_diem = r.actual_per_diem := by
  cases s with
  | name v =>
    cases v with
    | none => cases h
    | some a =>
      injection h with h
      rw [← h]
  | shooting_days v =>
    injection h with h
    rw [← h]
  | include_hotel v =>
    injection h with h
    rw [← h]
  | hotel_cost_per_night v =>
    injection h with h
    rw [← h]
  | per_diem v =>
    injection h with h
    rw [← h]
  | archived v =>
    injection h with h
    rw [← h]
  | updated_at v =>
    injection h with h
    rw [← h]

theorem ProjectRow.setAll_actual_per_diem (sets : List ProjectSet) (r r' : ProjectRow)
    (h : r.setAll sets = some r') : r'.actual_per_diem = r.actual_per_diem := by
  induction sets generalizing r with
  | nil =>
    injection h with h
    rw [← h]
  | cons s rest ih =>
    unfold ProjectRow.setAll at h
    cases hs : r.set s with
    | none =>
      rw [hs] at h
      cases h
    | some r1 =>
      rw [hs] at h
      rw [ih r1 h, ProjectRow.set_actual_per_diem r r1 s hs]

/-- Whatever a `PUT /api/projects/:id` request supplies, the column
`actual_per_diem` of every project is after it what it was before. -/
theorem putProject_actual_per_diem_unchanged (db db' : Db) (id : String) (body : ProjectBody)
    (now : String) (h : putProject db id body now = some db') :
    db'.projects.map (fun r => r.actual_per_diem)
      = db.projects.map (fun r => r.actual_per_diem) := by
  have key : ∀ (rows rows' : List ProjectRow),
      updateProjectsWhereId (projectUpdates body now) id rows = some rows' →
      rows'.map (fun r => r.actual_per_diem) = rows.map (fun r => r.actual_per_diem) := by
    intro rows
    induction rows with
    | nil =>
      intro rows' h
      injection h with h
      rw [← h]
    | cons r rest ih =>
      intro rows' h
      unfold updateProjectsWhereId at h
      cases h1 : (if r.id = id then r.setAll (projectUpdates body now) else some r) with
      | none =>
        rw [h1] at h
        cases h
      | some r1 =>
        cases h2 : updateProjectsWhereId (projectUpdates body now) id rest with
        | none =>
          rw [h1, h2] at h
          cases h
        | some rest1 =>
          rw [h1, h2] at h
          injection h with h
          rw [← h, List.map_cons, List.map_cons, ih rest1 h2]
          congr 1
          by_cases hid : r.id = id
          · rw [if_pos hid] at h1
            exact ProjectRow.setAll_actual_per_diem _ r r1 h1
          · rw [if_neg hid] at h1
            injection h1 with h1
            rw [← h1]
  unfold putProject at h
  cases hu : updateProjectsWhereId (projectUpdates body now) id db.projects with
  | none =>
    rw [hu] at h
    cases h
  | some rows =>
    rw [hu] at h
    injection h with h
    rw [← h]
    exact key _ _ hu

/-- The assignments of `PUT /api/positions/:id` on one row, column by column. -/
theorem foldl_set_positionUpdates (r : PositionRow) (body : PositionBody) :
    (positionUpdates body).foldl PositionRow.set r =
      { id := r.id, project_id := r.project_id, type := r.type,
        name := body.name.update r.name,
        daily_rate := body.daily_rate.update r.daily_rate,
        flat_fee := body.flat_fee.update r.flat_fee,
        hotel_nights := body.hotel_nights.update r.hotel_nights,
        travel_costs := body.travel_costs.update r.travel_costs,
        days_on_set := body.days_on_set.update r.days_on_set,
        costs := body.costs.update r.costs,
        color := body.color.update r.color,
        active := body.active.updateFlag r.active,
        actual_costs := body.actual_costs.update r.actual_costs,
        sort_order := body.sort_order.update r.sort_order,
        created_at := r.created_at } := by
  have p1 : ∀ (f : Field String) (x : PositionRow),
      List.foldl PositionRow.set x (if f.supplied then [PositionSet.name f.bound] else [])
        = { x with name := f.update x.name } := by
    intro f x
    cases f <;> rfl
  have p2 : ∀ (f : Field Int) (x : PositionRow),
      List.foldl PositionRow.set x
          (if f.supplied then [PositionSet.daily_rate f.bound] else [])
        = { x with daily_rate := f.update x.daily_rate } := by
    intro f x
    cases f <;> rfl
  have p3 : ∀ (f : Field Int) (x : PositionRow),
      List.foldl PositionRow.set x (if f.supplied then [PositionSet.flat_fee f.bound] else [])
        = { x with flat_fee := f.update x.flat_fee } := by
    intro f x
    cases f <;> rfl
  have p4 : ∀ (f : Field Int) (x : PositionRow),
      List.foldl PositionRow.set x
          (if f.supplied then [PositionSet.hotel_nights f.bound] else [])
        = { x with hotel_nights := f.update x.hotel_nights } := by
    intro f x
    cases f <;> rfl
  have p5 : ∀ (f : Field Int) (x : PositionRow),
      List.foldl PositionRow.set x
          (if f.supplied then [PositionSet.travel_costs f.bound] else [])
        = { x with travel_costs := f.update x.travel_costs } := by
    intro f x
    cases f <;> rfl
  have p6 : ∀ (f : Field Int) (x : PositionRow),
      List.foldl PositionRow.set x
          (if f.supplied then [PositionSet.days_on_set f.bound] else [])
        = { x with days_on_set := f.update x.days_on_set } := by
    intro f x
    cases f <;> rfl
  have p7 : ∀ (f : Field Int) (x : PositionRow),
      List.foldl PositionRow.set x (if f.supplied then [PositionSet.costs f.bound] else [])
        = { x with costs := f.update x.costs } := by
    intro f x
    cases f <;> rfl
  have p8 : ∀ (f : Field String) (x : PositionRow),
      List.foldl PositionRow.set x (if f.supplied then [PositionSet.color f.bound] else [])
        = { x with color := f.update x.color } := by
    intro f x
    cases f <;> rfl
  have p9 : ∀ (f : Field Bool) (x : PositionRow),
      List.foldl PositionRow.set x (if f.supplied then [PositionSet.active f.flag] else [])
        = { x with active := f.updateFlag x.active } := by
    intro f x
    cases f <;> rfl
  have p10 : ∀ (f : Field Int) (x : PositionRow),
      List.foldl PositionRow.set x
          (if f.supplied then [PositionSet.actual_costs f.bound] else [])
        = { x with actual_costs := f.update x.actual_costs } := by
    intro f x
    cases f <;> rfl
  have p11 : ∀ (f : Field Int) (x : PositionRow),
      List.foldl PositionRow.set x
          (if f.supplied then [PositionSet.sort_order f.bound] else [])
        = { x with sort_order := f.update x.sort_order } := by
    intro f x
    cases f <;> rfl
  simp only [positionUpdates, List.foldl_append, p1, p2, p3, p4, p5, p6, p7, p8, p9, p10, p11]

/-- The table `positions` after `PUT /api/positions/:id`, also when the
request supplies nothing. -/
theorem putPosition_positions (db : Db) (id : String) (body : PositionBody) (now : String) :
    (putPosition db id body now).positions
      = db.positions.map
          (fun r => if r.id = id then (positionUpdates body).foldl PositionRow.set r else r) := by
  unfold putPosition
  by_cases h0 : (positionUpdates body).length = 0
  · have hnil : positionUpdates body = [] := List.length_eq_zero.mp h0
    simp only [hnil, List.length_nil, if_true, List.foldl_nil, ite_self, List.map_id']
  · simp only [h0, if_false]
    split <;> rfl

/-- Inserting `x` at index `i` of `L` puts `x` at index `i` and keeps the
other elements in their order. -/
theorem insert_at_index {α : Type} (L : List α) (x : α) (i : Nat) (hi : i ≤ L.length) :
    (L.take i ++ x :: L.drop i)[i]? = some x
      ∧ (L.take i ++ x :: L.drop i).eraseIdx i = L
      ∧ (L.take i ++ x :: L.drop i).Perm (x :: L) := by
  have htake : (L.take i).length = i := by
    rw [List.length_take]
    omega
  refine ⟨?_, ?_, ?_⟩
  · rw [List.getElem?_append_right (by omega), htake]
    simp
  · have h := List.eraseIdx_append_of_length_le (l := L.take i) (k := i) (by omega)
      (x :: L.drop i)
    rw [h, htake]
    simp
  · have h1 : (L.take i ++ x :: L.drop i).Perm (x :: (L.take i ++ L.drop i)) :=
      List.perm_middle
    rw [List.take_append_drop] at h1
    exact h1

/-- Moving the element at index `d` to index `i`: the list that
`handleDragOver` builds. -/
theorem handleDragOver_move {α : Type} (l : List α) (d i : Nat) (hd : d < l.length)
    (hi : i < l.length) (hne : d ≠ i) :
    (handleDragOver (some d) i l).1
        = ((l.eraseIdx d).take i ++ l[d] :: (l.eraseIdx d).drop i).map some
      ∧ ((l.eraseIdx d).take i ++ l[d] :: (l.eraseIdx d).drop i).Perm l
      ∧ ((l.eraseIdx d).take i ++ l[d] :: (l.eraseIdx d).drop i)[i]? = some l[d]
      ∧ ((l.eraseIdx d).take i ++ l[d] :: (l.eraseIdx d).drop i).eraseIdx i = l.eraseIdx d := by
  have hlen : (l.eraseIdx d).length = l.length - 1 := by
    rw [List.length_eraseIdx, if_pos hd]
  have hile : i ≤ (l.eraseIdx d).length := by omega
  obtain ⟨hget, herase, hperm⟩ := insert_at_index (l.eraseIdx d) l[d] i hile
  refine ⟨?_, ?_, hget, herase⟩
  · simp only [handleDragOver, hne, if_false, List.eraseIdx_eq_take_drop_succ,
      List.getElem?_eq_getElem hd, List.map_append, List.map_cons]
  · refine hperm.trans ?_
    rw [List.eraseIdx_eq_take_drop_succ]
    have h2 : (l.take d ++ l[d] :: l.drop (d + 1)).Perm
        (l[d] :: (l.take d ++ l.drop (d + 1))) := List.perm_middle
    have h3 : l.take d ++ l[d] :: l.drop (d + 1) = l := by
      rw [← List.drop_eq_getElem_cons hd, List.take_append_drop]
    rw [h3] at h2
    exact h2.symm

/-- A position row keeps its type under the assignments of a position update. -/
theorem foldl_set_type (r : PositionRow) (body : PositionBody) :
    ((positionUpdates body).foldl PositionRow.set r).type = r.type := by
  rw [foldl_set_positionUpdates]

/-- The statements of `reorder` keep the type of every row. -/
theorem reorder_types (xs : List (Nat × String)) (rows : List PositionRow)
    (h : ∀ r ∈ rows, recognizedType r.type) :
    ∀ r ∈ xs.foldl
        (fun rows x =>
          rows.map
            (fun r => if r.id = x.2 then { r with sort_order := some (x.1 : Int) } else r))
        rows,
      recognizedType r.type := by
  induction xs generalizing rows with
  | nil => exact h
  | cons x rest ih =>
    rw [List.foldl_cons]
    apply ih
    intro r hr
    rw [List.mem_map] at hr
    obtain ⟨r0, hr0, rfl⟩ := hr
    by_cases hid : r0.id = x.2
    · rw [if_pos hid]
      exact h r0 hr0
    · rw [if_neg hid]
      exact h r0 hr0

/-- A position added with a supplied type string is a new last row of that type. -/
theorem addPosition_val (fk : Bool) (db db' : Db) (projectId t positionId now : String)
    (h : addPosition fk db projectId ⟨Field.val t⟩ positionId now = some db') :
    ∃ row : PositionRow, db'.positions = db.positions ++ [row] ∧ row.id = positionId
      ∧ row.project_id = projectId ∧ row.type = t := by
  unfold addPosition at h
  simp only at h
  split_ifs at h with h1 h2
  injection h with h
  rw [← h]
  exact ⟨_, rfl, rfl, rfl, rfl⟩

/-- One request that, when it adds a position, supplies one of the five types
keeps the type invariant of the store. -/
theorem step_typeInvariant (fk : Bool) (db : Db) (req : Request) (h : typeInvariant db)
    (hq : suppliesRecognizedType req) : typeInvariant (step fk db req) := by
  cases req with
  | createProject name newId now =>
    show typeInvariant ((createProject db name newId now).getD db)
    cases hc : createProject db name newId now with
    | none => exact h
    | some db' =>
      unfold createProject at hc
      simp only at hc
      split at hc
      · cases hc
      · split_ifs at hc
        injection hc with hc
        rw [← hc]
        exact h
  | putProject id body now =>
    show typeInvariant ((putProject db id body now).getD db)
    cases hc : putProject db id body now with
    | none => exact h
    | some db' =>
      unfold putProject at hc
      split at hc
      · cases hc
      · injection hc with hc
        rw [← hc]
        exact h
  | deleteProject id =>
    intro r hr
    exact h r (List.mem_filter.mp hr).1
  | addPosition projectId body positionId now =>
    show typeInvariant ((addPosition fk db projectId body positionId now).getD db)
    cases hc : addPosition fk db projectId body positionId now with
    | none => exact h
    | some db' =>
      obtain ⟨type⟩ := body
      cases type with
      | absent => exact absurd hq id
      | null => exact absurd hq id
      | val t =>
        obtain ⟨row, hrows, _, _, htype⟩ := addPosition_val fk db db' projectId t positionId now hc
        intro r hr
        show recognizedType r.type
        have hr' : r ∈ db.positions ++ [row] := hrows ▸ hr
        rw [List.mem_append, List.mem_singleton] at hr'
        rcases hr' with hr' | hr'
        · exact h r hr'
        · rw [hr', htype]
          exact hq
  | putPosition id body now =>
    intro r hr
    have hr' : r ∈ (putPosition db id body now).positions := hr
    rw [putPosition_positions, List.mem_map] at hr'
    obtain ⟨r0, hr0, rfl⟩ := hr'
    by_cases hid : r0.id = id
    · rw [if_pos hid, foldl_set_type]
      exact h r0 hr0
    · rw [if_neg hid]
      exact h r0 hr0
  | deletePosition id now =>
    intro r hr
    exact h r (List.mem_filter.mp hr).1
  | reorder projectId ids now =>
    intro r hr
    exact reorder_types ids.enum db.positions h r hr

/-! ## The position cost rule -/

/-- C1: for an active position of type crew or darsteller the position sum is
`dailyRate*d + flatFee + hotelNights*hotelCostPerNight + travelCosts + perDiem*d`
in the arithmetic of the source, where `d` is the position's own `days_on_set`
when present and the project's `shooting_days` otherwise, every missing field
counting as 0; on whole amounts in the safe range it is that number exactly. -/
theorem calculatePositionSum_crew_darsteller (pr : Project) (p : Position) (d : JSNum)
    (hactive : p.active = true) (htype : p.type = "crew" ∨ p.type = "darsteller")
    (hd : p.days_on_set = JSVal.num d ∨
      ((p.days_on_set = JSVal.undefined ∨ p.days_on_set = JSVal.null) ∧
        pr.shooting_days = JSVal.num d)) :
    calculatePositionSum (some pr) p
        = orZero p.daily_rate * d + orZero p.flat_fee
          + orZero p.hotel_nights * orZero pr.hotel_cost_per_night
          + orZero p.travel_costs + orZero pr.per_diem * d
      ∧ (wholeField pr.hotel_cost_per_night → wholeField pr.per_diem → wholePosition pr p →
          magnitude pr p < 2 ^ 53 →
          calculatePositionSum (some pr) p
            = JSNum.ofInt (intField p.daily_rate * d.intValue + intField p.flat_fee
                + intField p.hotel_nights * intField pr.hotel_cost_per_night
                + intField p.travel_costs + intField pr.per_diem * d.intValue)) := by
  have hdays : resolvedDays pr p = d := by
    unfold resolvedDays
    rcases hd with h | ⟨h | h, hs⟩
    · rw [h]
      rfl
    · rw [h, hs]
      rfl
    · rw [h, hs]
      rfl
  refine ⟨?_, ?_⟩
  · rw [calculatePositionSum_cd pr p hactive htype, hdays]
  · intro hhc hpd hw hm
    rw [calculatePositionSum_eq_ofInt pr p hactive hhc hpd hw hm]
    unfold costInt hotelInt intDays
    rw [if_pos htype, hdays]

/-- C1, the example of the specification: 300*5 + 0 + 2*80 + 50 + 20*5 = 1810. -/
theorem calculatePositionSum_crew_darsteller_witness :
    calculatePositionSum (some exampleProject) exampleCrew = JSNum.ofInt 1810 :=
  (calculatePositionSum_crew_darsteller exampleProject exampleCrew (JSNum.ofInt 5) rfl
    (Or.inl rfl) (Or.inr ⟨Or.inl rfl, rfl⟩)).1.trans (by decide!)

/-- C5: the position sum is 0 whenever there is no project or the position is
inactive, whatever the other fields hold; the function is total, so it never
fails. -/
theorem calculatePositionSum_zero_of_inactive_or_no_project (project : Option Project)
    (p : Position) (h : project = none ∨ p.active = false) :
    calculatePositionSum project p = fin 0 := by
  rcases h with h | h
  · subst h
    rfl
  · cases project with
    | none => rfl
    | some pr =>
      simp only [calculatePositionSum, h, Bool.not_false, if_true]
      rfl

/-- C5 at the crew position of the examples, switched off, and at no project. -/
theorem calculatePositionSum_zero_of_inactive_or_no_project_witness :
    calculatePositionSum (some exampleProject) { exampleCrew with active := false } = fin 0
      ∧ calculatePositionSum none exampleCrew = fin 0 :=
  ⟨calculatePositionSum_zero_of_inactive_or_no_project (some exampleProject)
      { exampleCrew with active := false } (Or.inr rfl),
    calculatePositionSum_zero_of_inactive_or_no_project none exampleCrew (Or.inl rfl)⟩

/-- C6: for an active position whose type is neither crew nor darsteller the
position sum is `costs`, or 0 when `costs` is missing (or holds `NaN`, which
`|| 0` turns into 0 as well); it is the same for every project and every
position with the same `costs`, so no other field has an effect. -/
theorem calculatePositionSum_simple (pr : Project) (p : Position)
    (hactive : p.active = true) (htype : ¬ (p.type = "crew" ∨ p.type = "darsteller")) :
    calculatePositionSum (some pr) p
        = (match p.costs with
          | JSVal.num x => if x = nan then fin 0 else x
          | _ => fin 0)
      ∧ ∀ (pr' : Project) (p' : Position), p'.active = true →
          ¬ (p'.type = "crew" ∨ p'.type = "darsteller") → p'.costs = p.costs →
          calculatePositionSum (some pr') p' = calculatePositionSum (some pr) p := by
  refine ⟨?_, ?_⟩
  · rw [calculatePositionSum_other pr p hactive htype]
    cases h : p.costs with
    | undefined => rfl
    | null => rfl
    | num x =>
      cases x with
      | nan => rfl
      | inf b => rfl
      | fin k =>
        show (if (JSNum.fin k).falsy then (0 : JSNum) else fin k)
          = if fin k = nan then fin 0 else fin k
        rw [if_neg (fun hh => JSNum.noConfusion hh)]
        by_cases hk : k = 0
        · subst hk
          rfl
        · rw [if_neg]
          show ¬ (decide (k = 0) = true)
          rw [decide_eq_true_iff]
          exact hk
  · intro pr' p' ha ht hc
    rw [calculatePositionSum_other pr p hactive htype,
      calculatePositionSum_other pr' p' ha ht, hc]

/-- C6, the example of the specification: a location position with costs 450. -/
theorem calculatePositionSum_simple_witness :
    calculatePositionSum (some exampleProject) exampleLocation = JSNum.ofInt 450 :=
  (calculatePositionSum_simple exampleProject exampleLocation rfl (by decide)).1.trans
    (by decide!)

/-- C10 fails when the project's hotel cost per night is `Infinity`, which the
input of that field admits: for the crew position without any optional field
`0 * Infinity` is `NaN` and so is the position sum, while
`perDiem * resolvedDays` is 20 * 5 = 100. -/
theorem all_missing_nan_of_infinite_hotel_cost :
    calculatePositionSum
        (some { exampleProject with hotel_cost_per_night := JSVal.num (inf false) })
        exampleBareCrew = nan
      ∧ orZero (JSVal.int 20)
          * resolvedDays { exampleProject with hotel_cost_per_night := JSVal.num (inf false) }
              exampleBareCrew = JSNum.ofInt 100
      ∧ calculatePositionSum
          (some { exampleProject with hotel_cost_per_night := JSVal.num (inf false) })
          exampleBareCrew
        ≠ orZero (JSVal.int 20)
            * resolvedDays { exampleProject with hotel_cost_per_night := JSVal.num (inf false) }
                exampleBareCrew := by
  decide!

/-- C10, amended: an active position whose optional numeric fields are all
missing costs 0 when its type is leihe, location or sonstiges, and exactly
`perDiem * resolvedDays` when its type is crew or darsteller, the project's
hotel cost per night is not infinite and the resolved days on set are not
infinite. -/
theorem calculatePositionSum_all_missing (pr : Project) (p : Position)
    (hactive : p.active = true)
    (hrate : missing p.daily_rate) (hflat : missing p.flat_fee)
    (hnights : missing p.hotel_nights) (htravel : missing p.travel_costs)
    (hcosts : missing p.costs) :
    ((p.type = "leihe" ∨ p.type = "location" ∨ p.type = "sonstiges") →
        calculatePositionSum (some pr) p = fin 0)
      ∧ ((p.type = "crew" ∨ p.type = "darsteller") →
          (orZero pr.hotel_cost_per_night).isInfinite = false →
          (resolvedDays pr p).isInfinite = false →
          calculatePositionSum (some pr) p = orZero pr.per_diem * resolvedDays pr p) := by
  refine ⟨?_, ?_⟩
  · intro ht
    rw [calculatePositionSum_other pr p hactive (not_cd_of_simple _ ht),
      orZero_missing _ hcosts]
    rfl
  · intro ht hhc hd
    rw [calculatePositionSum_cd pr p hactive ht, orZero_missing _ hrate,
      orZero_missing _ hflat, orZero_missing _ hnights, orZero_missing _ htravel]
    have h0 : (0 : JSNum) * orZero pr.hotel_cost_per_night = 0 := by
      cases hv : orZero pr.hotel_cost_per_night with
      | nan => exact absurd hv (orZero_ne_nan _)
      | inf b =>
        rw [hv] at hhc
        cases hhc
      | fin k => exact JSNum.fin_zero_mul_fin k
    rw [h0]
    cases hv : resolvedDays pr p with
    | nan =>
      rw [JSNum.mul_nan, JSNum.mul_nan, JSNum.nan_add, JSNum.nan_add, JSNum.nan_add,
        JSNum.nan_add]
    | inf b =>
      rw [hv] at hd
      cases hd
    | fin k =>
      have h1 : (0 : JSNum) * fin k = 0 := JSNum.fin_zero_mul_fin k
      rw [h1, JSNum.add_zero, JSNum.add_zero, JSNum.add_zero, JSNum.zero_add]

/-- C10, amended, at a crew position with no optional field: only 20*5 = 100
survives. -/
theorem calculatePositionSum_all_missing_witness :
    calculatePositionSum (some exampleProject) exampleBareCrew = JSNum.ofInt 100 :=
  ((calculatePositionSum_all_missing exampleProject exampleBareCrew
      rfl (Or.inl rfl) (Or.inl rfl) (Or.inl rfl) (Or.inl rfl) (Or.inl rfl)).2
    (Or.inl rfl) (by decide!) (by decide!)).trans (by decide!)

/-! ## The category aggregation rule -/

/-- C2 fails on fractional amounts, where the order of the additions shows:
with one shooting day, 0.3 per hotel night and a per diem of 0.1, a crew
position with one hotel night and travel costs of 0.2 has the position sum
`((0 + 0.3) + 0.2) + 0.1 = 0.6`, which is also `calculateComparison().calculated`,
while the `total` of `calculateSummaries` is `(0.1 + 0.3) + 0.2 =
0.6000000000000001`. -/
theorem calculateSummaries_total_ne_sum_positionSum :
    (∀ p ∈ [{ exampleBareCrew with hotel_nights := JSVal.int 1, travel_costs := JSVal.dec 2 1 }],
        recognizedType p.type)
      ∧ (calculateSummaries (some (Project.withPositions
          { exampleOneDayProject with hotel_cost_per_night := JSVal.dec 3 1,
                                      per_diem := JSVal.dec 1 1 }
          [{ exampleBareCrew with hotel_nights := JSVal.int 1,
                                  travel_costs := JSVal.dec 2 1 }]))).total
        = JSNum.dec 6000000000000001 16
      ∧ sumFrom 0
          ([{ exampleBareCrew with hotel_nights := JSVal.int 1,
                                   travel_costs := JSVal.dec 2 1 }].map
            (calculatePositionSum (some
              { exampleOneDayProject with hotel_cost_per_night := JSVal.dec 3 1,
                                          per_diem := JSVal.dec 1 1 })))
        = JSNum.dec 6 1
      ∧ (calculateComparison (some (Project.withPositions
          { exampleOneDayProject with hotel_cost_per_night := JSVal.dec 3 1,
                                      per_diem := JSVal.dec 1 1 }
          [{ exampleBareCrew with hotel_nights := JSVal.int 1,
                                  travel_costs := JSVal.dec 2 1 }]))).calculated
        = JSNum.dec 6 1
      ∧ (calculateSummaries (some (Project.withPositions
          { exampleOneDayProject with hotel_cost_per_night := JSVal.dec 3 1,
                                      per_diem := JSVal.dec 1 1 }
          [{ exampleBareCrew with hotel_nights := JSVal.int 1,
                                  travel_costs := JSVal.dec 2 1 }]))).total
        ≠ (calculateComparison (some (Project.withPositions
            { exampleOneDayProject with hotel_cost_per_night := JSVal.dec 3 1,
                                        per_diem := JSVal.dec 1 1 }
            [{ exampleBareCrew with hotel_nights := JSVal.int 1,
                                    travel_costs := JSVal.dec 2 1 }]))).calculated := by
  decide!

/-- C2, amended: when every active position has one of the five recognized
types and the amounts are whole numbers in the safe range (below `2^53`
together), the `total` of `calculateSummaries` is the sum of
`calculatePositionSum` over the active positions, which is also
`calculateComparison().calculated`; all three are the exact sum. -/
theorem calculateSummaries_total_eq_sum_positionSum (pr : Project) (ps : List Position)
    (hrec : ∀ p ∈ ps, p.active = true → recognizedType p.type) (hsafe : safeInputs pr ps) :
    (calculateSummaries (some (pr.withPositions ps))).total
        = sumFrom 0 ((ps.filter (fun p => p.active)).map
            (calculatePositionSum (some (pr.withPositions ps))))
      ∧ (calculateSummaries (some (pr.withPositions ps))).total
        = (calculateComparison (some (pr.withPositions ps))).calculated
      ∧ (calculateSummaries (some (pr.withPositions ps))).total
        = JSNum.ofInt (((ps.filter (fun p => p.active)).map (costInt pr)).sum) := by
  have ht := total_safe pr ps hrec hsafe
  have hc := calculated_safe pr ps hsafe
  refine ⟨?_, ?_, ht⟩
  · rw [ht, ← hc, sumFrom_map]
    rfl
  · rw [ht, hc]

/-- C2, amended, on the two positions of the examples: both sides are
1810 + 450. -/
theorem calculateSummaries_total_eq_sum_positionSum_witness :
    (calculateSummaries
        (some (exampleProject.withPositions [exampleCrew, exampleLocation]))).total
      = JSNum.ofInt 2260
    ∧ (calculateComparison
        (some (exampleProject.withPositions [exampleCrew, exampleLocation]))).calculated
      = JSNum.ofInt 2260 :=
  have h := calculateSummaries_total_eq_sum_positionSum exampleProject
    [exampleCrew, exampleLocation] (by decide) (by decide!)
  ⟨h.2.2.trans (by decide!), (h.2.1.symm.trans h.2.2).trans (by decide!)⟩

/-- C3 fails on a position of unrecognized type, whose daily rate (100 * 5
days) the comparison view charges while `calculateSummaries` puts it in no
bucket; and it fails on fractional amounts of recognized types: with one
shooting day, 0.3 per hotel night and a per diem of 0.1, a crew position with
one hotel night and travel costs of 0.2 gives `totalCalculated`
`(0.3 + 0.2) + 0.1 = 0.6` against a `total` of `(0.1 + 0.3) + 0.2 =
0.6000000000000001`. -/
theorem totalCalculated_ne_total :
    (comparisonView (exampleProject.withPositions [exampleUnknown])
        [exampleUnknown]).totalCalculated = JSNum.ofInt 500
      ∧ (calculateSummaries
          (some (exampleProject.withPositions [exampleUnknown]))).total = fin 0
      ∧ (comparisonView (exampleProject.withPositions [exampleUnknown])
          [exampleUnknown]).totalCalculated
        ≠ (calculateSummaries
            (some (exampleProject.withPositions [exampleUnknown]))).total
      ∧ (comparisonView (Project.withPositions
          { exampleOneDayProject with hotel_cost_per_night := JSVal.dec 3 1,
                                      per_diem := JSVal.dec 1 1 }
          [{ exampleBareCrew with hotel_nights := JSVal.int 1,
                                  travel_costs := JSVal.dec 2 1 }])
          [{ exampleBareCrew with hotel_nights := JSVal.int 1,
                                  travel_costs := JSVal.dec 2 1 }]).totalCalculated
        = JSNum.dec 6 1
      ∧ (calculateSummaries (some (Project.withPositions
          { exampleOneDayProject with hotel_cost_per_night := JSVal.dec 3 1,
                                      per_diem := JSVal.dec 1 1 }
          [{ exampleBareCrew with hotel_nights := JSVal.int 1,
                                  travel_costs := JSVal.dec 2 1 }]))).total
        = JSNum.dec 6000000000000001 16
      ∧ (comparisonView (Project.withPositions
          { exampleOneDayProject with hotel_cost_per_night := JSVal.dec 3 1,
                                      per_diem := JSVal.dec 1 1 }
          [{ exampleBareCrew with hotel_nights := JSVal.int 1,
                                  travel_costs := JSVal.dec 2 1 }])
          [{ exampleBareCrew with hotel_nights := JSVal.int 1,
                                  travel_costs := JSVal.dec 2 1 }]).totalCalculated
        ≠ (calculateSummaries (some (Project.withPositions
            { exampleOneDayProject with hotel_cost_per_night := JSVal.dec 3 1,
                                        per_diem := JSVal.dec 1 1 }
            [{ exampleBareCrew with hotel_nights := JSVal.int 1,
                                    travel_costs := JSVal.dec 2 1 }]))).total := by
  decide!

/-- C3, amended: when every active position has one of the five recognized
types and the amounts are whole numbers in the safe range (below `2^53`
together), the comparison view's `totalCalculated` (the costs without per
diem of the active positions plus `totalPerDiem`) equals the `total` of
`calculateSummaries`. -/
theorem totalCalculated_eq_total (pr : Project) (ps : List Position)
    (hrec : ∀ p ∈ ps, p.active = true → recognizedType p.type) (hsafe : safeInputs pr ps) :
    (comparisonView (pr.withPositions ps) ps).totalCalculated
      = (calculateSummaries (some (pr.withPositions ps))).total := by
  rw [total_safe pr ps hrec hsafe, comparisonView_with_positions,
    totalCalculated_safe pr ps hsafe]
  congr 1
  exact sum2_eq _ _ _ _ (fun p hp =>
    plan_add_perDiem pr p (hrec p (List.mem_filter.mp hp).1 (by
      simpa using (List.mem_filter.mp hp).2)))

/-- C3, amended, on the two positions of the examples: both totals are 2260. -/
theorem totalCalculated_eq_total_witness :
    (comparisonView (exampleProject.withPositions [exampleCrew, exampleLocation])
        [exampleCrew, exampleLocation]).totalCalculated
      = (calculateSummaries
          (some (exampleProject.withPositions [exampleCrew, exampleLocation]))).total :=
  totalCalculated_eq_total exampleProject [exampleCrew, exampleLocation] (by decide)
    (by decide!)

/-- C4: over the active positions only, `crew` and `darsteller` are the sums of
`dailyRate*d + flatFee + perDiem*d` over their own type, `hotel` and `travel`
the sums of `hotelNights*hotelCostPerNight` and of `travelCosts` over crew and
darsteller together, `leihe`, `location` and `sonstiges` the sums of `costs`
over their own type, each added up from 0 in the order of the list, and
`total` the sum of the seven. -/
theorem calculateSummaries_buckets (pr : Project) (ps : List Position) :
    (calculateSummaries (some (pr.withPositions ps))).crew
        = sumFrom 0 (((ps.filter (fun p => p.active)).filter (fun p => p.type = "crew")).map
            (dayCost pr))
      ∧ (calculateSummaries (some (pr.withPositions ps))).darsteller
        = sumFrom 0
            (((ps.filter (fun p => p.active)).filter (fun p => p.type = "darsteller")).map
              (dayCost pr))
      ∧ (calculateSummaries (some (pr.withPositions ps))).hotel
        = sumFrom 0 (((ps.filter (fun p => p.active)).filter
              (fun p => p.type = "crew" ∨ p.type = "darsteller")).map
            (fun p => orZero p.hotel_nights * orZero pr.hotel_cost_per_night))
      ∧ (calculateSummaries (some (pr.withPositions ps))).travel
        = sumFrom 0 (((ps.filter (fun p => p.active)).filter
              (fun p => p.type = "crew" ∨ p.type = "darsteller")).map
            (fun p => orZero p.travel_costs))
      ∧ (calculateSummaries (some (pr.withPositions ps))).leihe
        = sumFrom 0 (((ps.filter (fun p => p.active)).filter (fun p => p.type = "leihe")).map
            (fun p => orZero p.costs))
      ∧ (calculateSummaries (some (pr.withPositions ps))).location
        = sumFrom 0
            (((ps.filter (fun p => p.active)).filter (fun p => p.type = "location")).map
              (fun p => orZero p.costs))
      ∧ (calculateSummaries (some (pr.withPositions ps))).sonstiges
        = sumFrom 0
            (((ps.filter (fun p => p.active)).filter (fun p => p.type = "sonstiges")).map
              (fun p => orZero p.costs))
      ∧ (calculateSummaries (some (pr.withPositions ps))).total
        = (calculateSummaries (some (pr.withPositions ps))).crew
          + (calculateSummaries (some (pr.withPositions ps))).darsteller
          + (calculateSummaries (some (pr.withPositions ps))).hotel
          + (calculateSummaries (some (pr.withPositions ps))).travel
          + (calculateSummaries (some (pr.withPositions ps))).leihe
          + (calculateSummaries (some (pr.withPositions ps))).location
          + (calculateSummaries (some (pr.withPositions ps))).sonstiges := by
  rw [calculateSummaries_eq_loops]
  exact ⟨foldl_ite_eq_sumFrom_filter (fun p : Position => p.type = "crew") _ _ _,
    foldl_ite_eq_sumFrom_filter (fun p : Position => p.type = "darsteller") _ _ _,
    foldl_ite_eq_sumFrom_filter (fun p : Position => p.type = "crew" ∨ p.type = "darsteller")
      _ _ _,
    foldl_ite_eq_sumFrom_filter (fun p : Position => p.type = "crew" ∨ p.type = "darsteller")
      _ _ _,
    foldl_ite_eq_sumFrom_filter (fun p : Position => p.type = "leihe") _ _ _,
    foldl_ite_eq_sumFrom_filter (fun p : Position => p.type = "location") _ _ _,
    foldl_ite_eq_sumFrom_filter (fun p : Position => p.type = "sonstiges") _ _ _, rfl⟩

/-- C4, the example of the specification: one active location position with
costs 450 gives `location` 450 and `total` 450. -/
theorem calculateSummaries_buckets_witness :
    (calculateSummaries
        (some (exampleProject.withPositions [exampleLocation]))).location = JSNum.ofInt 450
      ∧ (calculateSummaries
        (some (exampleProject.withPositions [exampleLocation]))).total = JSNum.ofInt 450 :=
  ⟨(calculateSummaries_buckets exampleProject [exampleLocation]).2.2.2.2.2.1.trans
      (by decide!), by decide!⟩

/-! ## Frame properties -/

/-- C7: switching off the position at index `i` makes its position sum 0 and
makes `calculateSummaries` (all eight fields), `calculateHotelNights` and the
comparison view (rows, per-diem row, `totalPerDiem`, `totalCalculated`,
`totalActual`) what they are on the list with position `i` removed; every
other position keeps its position sum and its row. -/
theorem inactive_exclusion (pr : Project) (ps : List Position) (i : Nat)
    (hi : i < ps.length) :
    calculatePositionSum
        (some (pr.withPositions (ps.set i ps[i].deactivate)))
        ps[i].deactivate = fin 0
      ∧ calculateSummaries (some (pr.withPositions (ps.set i ps[i].deactivate)))
        = calculateSummaries (some (pr.withPositions (ps.eraseIdx i)))
      ∧ calculateHotelNights (some (pr.withPositions (ps.set i ps[i].deactivate)))
        = calculateHotelNights (some (pr.withPositions (ps.eraseIdx i)))
      ∧ comparisonView (pr.withPositions (ps.set i ps[i].deactivate))
          (ps.set i ps[i].deactivate)
        = comparisonView (pr.withPositions (ps.eraseIdx i)) (ps.eraseIdx i)
      ∧ (∀ j : Nat, j ≠ i →
          (ps.set i ps[i].deactivate)[j]?.map
              (calculatePositionSum
                (some (pr.withPositions (ps.set i ps[i].deactivate))))
            = ps[j]?.map (calculatePositionSum (some (pr.withPositions ps))))
      ∧ (∀ j : Nat, j ≠ i →
          (ps.set i ps[i].deactivate)[j]?.map
              (comparisonRow (pr.withPositions (ps.set i ps[i].deactivate)))
            = ps[j]?.map (comparisonRow (pr.withPositions ps))) := by
  have hset : ps.set i ps[i].deactivate
      = ps.take i ++ ps[i].deactivate :: ps.drop (i + 1) := by
    rw [List.set_eq_take_append_cons_drop, if_pos hi]
  have hera : ps.eraseIdx i = ps.take i ++ ps.drop (i + 1) :=
    List.eraseIdx_eq_take_drop_succ ps i
  have hfil : (ps.set i ps[i].deactivate).filter (fun q => q.active)
      = (ps.eraseIdx i).filter (fun q => q.active) := by
    rw [hset, hera]
    exact filter_active_switched_off _ _ _
  refine ⟨rfl, ?_, ?_, ?_, ?_, ?_⟩
  · simp only [calculateSummaries, summaryStep_with_positions, hfil]
  · simp only [calculateHotelNights, hset, hera]
    simp [Position.deactivate, List.filter_append, List.filter_cons]
  · simp only [comparisonView_with_positions]
    simp only [comparisonView, hfil]
  · intro j hj
    rw [List.getElem?_set_ne (Ne.symm hj)]
    rfl
  · intro j hj
    rw [List.getElem?_set_ne (Ne.symm hj)]
    rfl

/-- C7 on the crew and location positions of the examples: with the crew
position switched off the summary is that of the location position alone. -/
theorem inactive_exclusion_witness :
    calculateSummaries (some (exampleProject.withPositions
        [exampleCrew.deactivate, exampleLocation]))
      = calculateSummaries (some (exampleProject.withPositions [exampleLocation])) :=
  (inactive_exclusion exampleProject [exampleCrew, exampleLocation] 0 (by decide)).2.1

/-- C8 fails on fractional amounts: with a per diem of 0.1 and no daily rate,
a crew position has the position sum `0.1 * 1 = 0.1` with one day on set,
while its position sum with three days, `0.30000000000000004`, plus
`(dailyRate + perDiem) * (1 - 3) = -0.2` is `0.10000000000000003`. -/
theorem fraction_days_delta_differs :
    calculatePositionSum (some { exampleOneDayProject with per_diem := JSVal.dec 1 1 })
        { exampleBareCrew with days_on_set := JSVal.int 1 } = JSNum.dec 1 1
      ∧ calculatePositionSum (some { exampleOneDayProject with per_diem := JSVal.dec 1 1 })
          { exampleBareCrew with days_on_set := JSVal.int 3 }
        = JSNum.dec 30000000000000004 17
      ∧ (orZero exampleBareCrew.daily_rate + orZero (JSVal.dec 1 1))
          * (JSNum.ofInt 1 - JSNum.ofInt 3) = JSNum.dec (-2) 1
      ∧ calculatePositionSum (some { exampleOneDayProject with per_diem := JSVal.dec 1 1 })
            { exampleBareCrew with days_on_set := JSVal.int 3 }
          + (orZero exampleBareCrew.daily_rate + orZero (JSVal.dec 1 1))
            * (JSNum.ofInt 1 - JSNum.ofInt 3)
        = JSNum.dec 10000000000000003 17
      ∧ calculatePositionSum (some { exampleOneDayProject with per_diem := JSVal.dec 1 1 })
          { exampleBareCrew with days_on_set := JSVal.int 1 }
        ≠ calculatePositionSum (some { exampleOneDayProject with per_diem := JSVal.dec 1 1 })
              { exampleBareCrew with days_on_set := JSVal.int 3 }
            + (orZero exampleBareCrew.daily_rate + orZero (JSVal.dec 1 1))
              * (JSNum.ofInt 1 - JSNum.ofInt 3) := by
  decide!

/-- C8, amended: for an active crew or darsteller position `p`, (1) the
position sum with `days_on_set` missing is the one with `days_on_set` set to
the project's `shooting_days`; (2) changing `days_on_set` from `d` to `d'`
leaves the position sum of every position as it was, and leaves `hotel`,
`travel`, `leihe`, `location`, `sonstiges` and the bucket of the other of the
two types unchanged; and when the amounts before and after the change are
whole numbers in the safe range (below `2^53` together), it adds exactly
`(dailyRate + perDiem) * (d' - d)` to the position sum, to the bucket of the
position's own type and to `total`. -/
theorem days_on_set_override (pr : Project) (l1 l2 : List Position) (p : Position)
    (d d' : Int) (hactive : p.active = true)
    (htype : p.type = "crew" ∨ p.type = "darsteller") :
    (∀ v : JSVal, missing v →
        calculatePositionSum (some pr) { p with days_on_set := v }
          = calculatePositionSum (some pr) { p with days_on_set := pr.shooting_days })
      ∧ (∀ q : Position,
          calculatePositionSum (some (pr.withPositions (l1 ++ { p with days_on_set := JSVal.int d' } :: l2))) q
            = calculatePositionSum (some (pr.withPositions (l1 ++ { p with days_on_set := JSVal.int d } :: l2))) q)
      ∧ (calculateSummaries (some (pr.withPositions (l1 ++ { p with days_on_set := JSVal.int d' } :: l2)))).hotel
          = (calculateSummaries (some (pr.withPositions (l1 ++ { p with days_on_set := JSVal.int d } :: l2)))).hotel
      ∧ (calculateSummaries (some (pr.withPositions (l1 ++ { p with days_on_set := JSVal.int d' } :: l2)))).travel
          = (calculateSummaries (some (pr.withPositions (l1 ++ { p with days_on_set := JSVal.int d } :: l2)))).travel
      ∧ (calculateSummaries (some (pr.withPositions (l1 ++ { p with days_on_set := JSVal.int d' } :: l2)))).leihe
          = (calculateSummaries (some (pr.withPositions (l1 ++ { p with days_on_set := JSVal.int d } :: l2)))).leihe
      ∧ (calculateSummaries (some (pr.withPositions (l1 ++ { p with days_on_set := JSVal.int d' } :: l2)))).location
          = (calculateSummaries (some (pr.withPositions (l1 ++ { p with days_on_set := JSVal.int d } :: l2)))).location
      ∧ (calculateSummaries (some (pr.withPositions (l1 ++ { p with days_on_set := JSVal.int d' } :: l2)))).sonstiges
          = (calculateSummaries (some (pr.withPositions (l1 ++ { p with days_on_set := JSVal.int d } :: l2)))).sonstiges
      ∧ (p.type = "crew" →
          (calculateSummaries (some (pr.withPositions (l1 ++ { p with days_on_set := JSVal.int d' } :: l2)))).darsteller
            = (calculateSummaries (some (pr.withPositions (l1 ++ { p with days_on_set := JSVal.int d } :: l2)))).darsteller)
      ∧ (p.type = "darsteller" →
          (calculateSummaries (some (pr.withPositions (l1 ++ { p with days_on_set := JSVal.int d' } :: l2)))).crew
            = (calculateSummaries (some (pr.withPositions (l1 ++ { p with days_on_set := JSVal.int d } :: l2)))).crew)
      ∧ (safeInputs pr (l1 ++ { p with days_on_set := JSVal.int d } :: l2) →
          safeInputs pr (l1 ++ { p with days_on_set := JSVal.int d' } :: l2) →
          calculatePositionSum (some pr) { p with days_on_set := JSVal.int d' }
              = calculatePositionSum (some pr) { p with days_on_set := JSVal.int d }
                + JSNum.ofInt ((intField p.daily_rate + intField pr.per_diem) * (d' - d))
            ∧ (p.type = "crew" →
              (calculateSummaries (some (pr.withPositions (l1 ++ { p with days_on_set := JSVal.int d' } :: l2)))).crew
                = (calculateSummaries (some (pr.withPositions (l1 ++ { p with days_on_set := JSVal.int d } :: l2)))).crew
                  + JSNum.ofInt ((intField p.daily_rate + intField pr.per_diem) * (d' - d)))
            ∧ (p.type = "darsteller" →
              (calculateSummaries (some (pr.withPositions (l1 ++ { p with days_on_set := JSVal.int d' } :: l2)))).darsteller
                = (calculateSummaries (some (pr.withPositions (l1 ++ { p with days_on_set := JSVal.int d } :: l2)))).darsteller
                  + JSNum.ofInt ((intField p.daily_rate + intField pr.per_diem) * (d' - d)))
            ∧ (calculateSummaries (some (pr.withPositions (l1 ++ { p with days_on_set := JSVal.int d' } :: l2)))).total
                = (calculateSummaries (some (pr.withPositions (l1 ++ { p with days_on_set := JSVal.int d } :: l2)))).total
                  + JSNum.ofInt ((intField p.daily_rate + intField pr.per_diem) * (d' - d))) := by
  have ha : ({ p with days_on_set := JSVal.int d } : Position).active = true := hactive
  have ha' : ({ p with days_on_set := JSVal.int d' } : Position).active = true := hactive
  refine ⟨?_, fun _ => rfl, ?_, ?_, ?_, ?_, ?_, ?_, ?_, ?_⟩
  · intro v hv
    have e1 := calculatePositionSum_cd pr { p with days_on_set := v } hactive htype
    have e2 := calculatePositionSum_cd pr { p with days_on_set := pr.shooting_days } hactive
      htype
    have e3 : resolvedDays pr { p with days_on_set := v }
        = resolvedDays pr { p with days_on_set := pr.shooting_days } := by
      unfold resolvedDays
      rcases hv with h | h <;> subst h <;> cases pr.shooting_days <;> rfl
    rw [e1, e2, e3]
  · rw [calculateSummaries_eq_loops, calculateSummaries_eq_loops]
    exact loop_active_replace_eq _ l1 l2 _ _ ha ha' (fun _ => rfl)
  · rw [calculateSummaries_eq_loops, calculateSummaries_eq_loops]
    exact loop_active_replace_eq _ l1 l2 _ _ ha ha' (fun _ => rfl)
  · rw [calculateSummaries_eq_loops, calculateSummaries_eq_loops]
    exact loop_active_replace_eq _ l1 l2 _ _ ha ha' (fun _ => rfl)
  · rw [calculateSummaries_eq_loops, calculateSummaries_eq_loops]
    exact loop_active_replace_eq _ l1 l2 _ _ ha ha' (fun _ => rfl)
  · rw [calculateSummaries_eq_loops, calculateSummaries_eq_loops]
    exact loop_active_replace_eq _ l1 l2 _ _ ha ha' (fun _ => rfl)
  · intro hc
    have hne : ¬ p.type = "darsteller" := by
      rw [hc]
      decide
    rw [calculateSummaries_eq_loops, calculateSummaries_eq_loops]
    exact loop_active_replace_eq _ l1 l2 _ _ ha ha' (fun s =>
      (if_neg hne).trans (if_neg hne).symm)
  · intro hc
    have hne : ¬ p.type = "crew" := by
      rw [hc]
      decide
    rw [calculateSummaries_eq_loops, calculateSummaries_eq_loops]
    exact loop_active_replace_eq _ l1 l2 _ _ ha ha' (fun s =>
      (if_neg hne).trans (if_neg hne).symm)
  · intro hs hs'
    have hmem : ({ p with days_on_set := JSVal.int d } : Position)
        ∈ l1 ++ { p with days_on_set := JSVal.int d } :: l2 :=
      List.mem_append_right _ (List.mem_cons_self _ _)
    have hmem' : ({ p with days_on_set := JSVal.int d' } : Position)
        ∈ l1 ++ { p with days_on_set := JSVal.int d' } :: l2 :=
      List.mem_append_right _ (List.mem_cons_self _ _)
    have hb' := summaries_bound pr
      ((l1 ++ { p with days_on_set := JSVal.int d' } :: l2).filter (fun p => p.active))
    have hlt' := safeInputs_bound pr _ hs'
    refine ⟨?_, ?_, ?_, ?_⟩
    · have hm' := safeInputs_magnitude pr _ hs' _ hmem' ha'
      rw [calculatePositionSum_eq_ofInt pr _ ha' hs'.1 hs'.2.1 (hs'.2.2.2.1 _ hmem' ha') hm',
        calculatePositionSum_eq_ofInt pr _ ha hs.1 hs.2.1 (hs.2.2.2.1 _ hmem ha)
          (safeInputs_magnitude pr _ hs _ hmem ha)]
      have hb := lt_of_le_of_lt (costInt_bound pr { p with days_on_set := JSVal.int d' }) hm'
      rw [costInt_days pr p d d' htype] at hb ⊢
      exact (JSNum.add_ofInt _ _ hb).symm
    · intro hc
      rw [calculateSummaries_safe pr _ hs', calculateSummaries_safe pr _ hs]
      exact own_bucket_days pr l1 l2 p d d' "crew" hactive hc hs'
        (le_of_sum7 _ _ _ _ _ _ _ _ hb').1
    · intro hc
      rw [calculateSummaries_safe pr _ hs', calculateSummaries_safe pr _ hs]
      exact own_bucket_days pr l1 l2 p d d' "darsteller" hactive hc hs'
        (le_of_sum7 _ _ _ _ _ _ _ _ hb').2.1
    · have e3 := sum_active_replace_eq (sharedInt (hotelInt pr)) l1 l2
        { p with days_on_set := JSVal.int d } { p with days_on_set := JSVal.int d' } ha ha' rfl
      have e4 := sum_active_replace_eq (sharedInt (fun p => intField p.travel_costs)) l1 l2
        { p with days_on_set := JSVal.int d } { p with days_on_set := JSVal.int d' } ha ha' rfl
      have e5 := sum_active_replace_eq (ownInt "leihe" (fun p => intField p.costs)) l1 l2
        { p with days_on_set := JSVal.int d } { p with days_on_set := JSVal.int d' } ha ha' rfl
      have e6 := sum_active_replace_eq (ownInt "location" (fun p => intField p.costs)) l1 l2
        { p with days_on_set := JSVal.int d } { p with days_on_set := JSVal.int d' } ha ha' rfl
      have e7 := sum_active_replace_eq (ownInt "sonstiges" (fun p => intField p.costs)) l1 l2
        { p with days_on_set := JSVal.int d } { p with days_on_set := JSVal.int d' } ha ha' rfl
      have e12 :
          (((l1 ++ { p with days_on_set := JSVal.int d' } :: l2).filter
              (fun p => p.active)).map (ownInt "crew" (dayInt pr))).sum
            + (((l1 ++ { p with days_on_set := JSVal.int d' } :: l2).filter
              (fun p => p.active)).map (ownInt "darsteller" (dayInt pr))).sum
          = (((l1 ++ { p with days_on_set := JSVal.int d } :: l2).filter
              (fun p => p.active)).map (ownInt "crew" (dayInt pr))).sum
            + (((l1 ++ { p with days_on_set := JSVal.int d } :: l2).filter
              (fun p => p.active)).map (ownInt "darsteller" (dayInt pr))).sum
            + (intField p.daily_rate + intField pr.per_diem) * (d' - d) := by
        rcases htype with hc | hc
        · have hne : ¬ p.type = "darsteller" := by
            rw [hc]
            decide
          rw [sum_active_replace (ownInt "crew" (dayInt pr)) l1 l2
              { p with days_on_set := JSVal.int d } { p with days_on_set := JSVal.int d' }
              ((intField p.daily_rate + intField pr.per_diem) * (d' - d)) ha ha'
              (by
                unfold ownInt
                rw [if_pos hc, if_pos hc]
                exact dayInt_days pr p d d'),
            sum_active_replace_eq (ownInt "darsteller" (dayInt pr)) l1 l2
              { p with days_on_set := JSVal.int d } { p with days_on_set := JSVal.int d' }
              ha ha' ((if_neg hne).trans (if_neg hne).symm)]
          omega
        · have hne : ¬ p.type = "crew" := by
            rw [hc]
            decide
          rw [sum_active_replace (ownInt "darsteller" (dayInt pr)) l1 l2
              { p with days_on_set := JSVal.int d } { p with days_on_set := JSVal.int d' }
              ((intField p.daily_rate + intField pr.per_diem) * (d' - d)) ha ha'
              (by
                unfold ownInt
                rw [if_pos hc, if_pos hc]
                exact dayInt_days pr p d d'),
            sum_active_replace_eq (ownInt "crew" (dayInt pr)) l1 l2
              { p with days_on_set := JSVal.int d } { p with days_on_set := JSVal.int d' }
              ha ha' ((if_neg hne).trans (if_neg hne).symm)]
          omega
      have hT := lt_of_le_of_lt (le_trans (natAbs_add7 _ _ _ _ _ _ _) hb') hlt'
      rw [calculateSummaries_safe pr _ hs', calculateSummaries_safe pr _ hs]
      show JSNum.ofInt _ = JSNum.ofInt _ + JSNum.ofInt _
      rw [JSNum.add_ofInt]
      · congr 1
        rw [e3, e4, e5, e6, e7] at *
        omega
      · rw [e3, e4, e5, e6, e7] at hT
        convert hT using 2
        omega

/-- C8, amended, on the crew position of the examples next to the location
position: going from 5 to 3 days on set takes (300 + 20) * 2 = 640 off the
position sum, and leaves `hotel` as it was. -/
theorem days_on_set_override_witness :
    calculatePositionSum (some exampleProject) { exampleCrew with days_on_set := JSVal.int 3 }
        = JSNum.ofInt 1170
      ∧ (calculateSummaries (some (exampleProject.withPositions
            ([exampleLocation] ++ { exampleCrew with days_on_set := JSVal.int 3 } :: [])))).hotel
        = (calculateSummaries (some (exampleProject.withPositions
            ([exampleLocation] ++ { exampleCrew with days_on_set := JSVal.int 5 } :: [])))).hotel :=
  have h := days_on_set_override exampleProject [exampleLocation] [] exampleCrew 5 3 rfl
    (Or.inl rfl)
  ⟨((h.2.2.2.2.2.2.2.2.2 (by decide!) (by decide!)).1).trans (by decide!), h.2.2.1⟩

/-! ## Missing fields -/

/-- C9 fails when the project's `shooting_days` property is absent and the
position has no `days_on_set`: the crew position of the examples then has the
position sum `NaN`, not 300*0 + 0 + 2*80 + 50 + 20*0 = 210, and `crew` and
`total` of `calculateSummaries` are `NaN` as well.  It also fails with every
field either missing or a number when the hotel cost per night is `Infinity`,
which the input of that field admits: a missing `hotel_nights` counts as 0 and
`0 * Infinity` is `NaN`. -/
theorem missing_fields_give_nan :
    calculatePositionSum (some exampleProjectNoDays) exampleCrew = nan
      ∧ orZero exampleCrew.daily_rate * 0 + orZero exampleCrew.flat_fee
          + orZero exampleCrew.hotel_nights * orZero exampleProjectNoDays.hotel_cost_per_night
          + orZero exampleCrew.travel_costs + orZero exampleProjectNoDays.per_diem * 0
        = JSNum.ofInt 210
      ∧ (calculateSummaries (some (exampleProjectNoDays.withPositions [exampleCrew]))).crew = nan
      ∧ (calculateSummaries (some (exampleProjectNoDays.withPositions [exampleCrew]))).total
        = nan
      ∧ calculatePositionSum
          (some { exampleProject with hotel_cost_per_night := JSVal.num (inf false) })
          { exampleCrew with hotel_nights := JSVal.undefined } = nan
      ∧ (calculateSummaries (some (Project.withPositions
          { exampleProject with hotel_cost_per_night := JSVal.num (inf false) }
          [{ exampleCrew with hotel_nights := JSVal.undefined }]))).hotel = nan
      ∧ (calculateSummaries (some (Project.withPositions
          { exampleProject with hotel_cost_per_night := JSVal.num (inf false) }
          [{ exampleCrew with hotel_nights := JSVal.undefined }]))).total = nan := by
  decide!

/-- C9, amended: as long as no active crew or darsteller position without
`days_on_set` meets a project whose `shooting_days` property is absent
(`undefined`; a `null` one counts as 0), the position sum and all eight fields
of `calculateSummaries` equal the formulas with every missing value
(`undefined` or `null`) replaced by 0; and when moreover every amount that is
present is finite and at least 0, they are numbers, never `NaN`. -/
theorem missing_fields_count_as_zero (pr : Project) (p : Position) (ps : List Position)
    (hactive : p.active = true)
    (hp : (p.type = "crew" ∨ p.type = "darsteller") → missing p.days_on_set →
      pr.shooting_days ≠ JSVal.undefined)
    (hps : ∀ q ∈ ps, q.active = true → (q.type = "crew" ∨ q.type = "darsteller") →
      missing q.days_on_set → pr.shooting_days ≠ JSVal.undefined) :
    calculatePositionSum (some pr) p
        = (if p.type = "crew" ∨ p.type = "darsteller" then
            orZero p.daily_rate * daysOrZero pr p + orZero p.flat_fee
              + orZero p.hotel_nights * orZero pr.hotel_cost_per_night
              + orZero p.travel_costs + orZero pr.per_diem * daysOrZero pr p
          else orZero p.costs)
      ∧ calculateSummaries (some (pr.withPositions ps)) =
        { crew := sumFrom 0 (((ps.filter (fun q => q.active)).filter
            (fun q => q.type = "crew")).map (dayAmount pr)),
          darsteller := sumFrom 0 (((ps.filter (fun q => q.active)).filter
            (fun q => q.type = "darsteller")).map (dayAmount pr)),
          hotel := sumFrom 0 (((ps.filter (fun q => q.active)).filter
            (fun q => q.type = "crew" ∨ q.type = "darsteller")).map
              (fun q => orZero q.hotel_nights * orZero pr.hotel_cost_per_night)),
          travel := sumFrom 0 (((ps.filter (fun q => q.active)).filter
            (fun q => q.type = "crew" ∨ q.type = "darsteller")).map
              (fun q => orZero q.travel_costs)),
          leihe := sumFrom 0 (((ps.filter (fun q => q.active)).filter
            (fun q => q.type = "leihe")).map (fun q => orZero q.costs)),
          location := sumFrom 0 (((ps.filter (fun q => q.active)).filter
            (fun q => q.type = "location")).map (fun q => orZero q.costs)),
          sonstiges := sumFrom 0 (((ps.filter (fun q => q.active)).filter
            (fun q => q.type = "sonstiges")).map (fun q => orZero q.costs)),
          total :=
            sumFrom 0 (((ps.filter (fun q => q.active)).filter
              (fun q => q.type = "crew")).map (dayAmount pr))
            + sumFrom 0 (((ps.filter (fun q => q.active)).filter
              (fun q => q.type = "darsteller")).map (dayAmount pr))
            + sumFrom 0 (((ps.filter (fun q => q.active)).filter
              (fun q => q.type = "crew" ∨ q.type = "darsteller")).map
                (fun q => orZero q.hotel_nights * orZero pr.hotel_cost_per_night))
            + sumFrom 0 (((ps.filter (fun q => q.active)).filter
              (fun q => q.type = "crew" ∨ q.type = "darsteller")).map
                (fun q => orZero q.travel_costs))
            + sumFrom 0 (((ps.filter (fun q => q.active)).filter
              (fun q => q.type = "leihe")).map (fun q => orZero q.costs))
            + sumFrom 0 (((ps.filter (fun q => q.active)).filter
              (fun q => q.type = "location")).map (fun q => orZero q.costs))
            + sumFrom 0 (((ps.filter (fun q => q.active)).filter
              (fun q => q.type = "sonstiges")).map (fun q => orZero q.costs)) }
      ∧ (notNegative pr.hotel_cost_per_night → notNegative pr.per_diem →
          (notNegative p.daily_rate ∧ notNegative p.flat_fee ∧ notNegative p.hotel_nights
            ∧ notNegative p.travel_costs ∧ notNegative p.costs) →
          ((p.type = "crew" ∨ p.type = "darsteller") → (resolvedDays pr p).finiteNonneg) →
          calculatePositionSum (some pr) p ≠ nan)
      ∧ (notNegative pr.hotel_cost_per_night → notNegative pr.per_diem →
          (∀ q ∈ ps, q.active = true → notNegative q.daily_rate ∧ notNegative q.flat_fee
            ∧ notNegative q.hotel_nights ∧ notNegative q.travel_costs ∧ notNegative q.costs) →
          (∀ q ∈ ps, q.active = true → (q.type = "crew" ∨ q.type = "darsteller") →
            (resolvedDays pr q).finiteNonneg) →
          (calculateSummaries (some (pr.withPositions ps))).crew ≠ nan
            ∧ (calculateSummaries (some (pr.withPositions ps))).darsteller ≠ nan
            ∧ (calculateSummaries (some (pr.withPositions ps))).hotel ≠ nan
            ∧ (calculateSummaries (some (pr.withPositions ps))).travel ≠ nan
            ∧ (calculateSummaries (some (pr.withPositions ps))).leihe ≠ nan
            ∧ (calculateSummaries (some (pr.withPositions ps))).location ≠ nan
            ∧ (calculateSummaries (some (pr.withPositions ps))).sonstiges ≠ nan
            ∧ (calculateSummaries (some (pr.withPositions ps))).total ≠ nan) := by
  have hday : ∀ (t : String), (t = "crew" ∨ t = "darsteller") →
      ((ps.filter (fun q => q.active)).filter (fun q => q.type = t)).map (dayCost pr)
        = ((ps.filter (fun q => q.active)).filter (fun q => q.type = t)).map
          (dayAmount pr) := by
    intro t ht
    apply List.map_congr_left
    intro q hq
    simp only [List.mem_filter, decide_eq_true_eq] at hq
    have hcd : q.type = "crew" ∨ q.type = "darsteller" := by
      rw [hq.2]
      exact ht
    unfold dayCost dayAmount
    rw [resolvedDays_eq_daysOrZero pr q (hps q hq.1.1 hq.1.2 hcd)]
  refine ⟨?_, ?_, ?_, ?_⟩
  · by_cases ht : p.type = "crew" ∨ p.type = "darsteller"
    · rw [if_pos ht, calculatePositionSum_cd pr p hactive ht,
        resolvedDays_eq_daysOrZero pr p (hp ht)]
    · rw [if_neg ht, calculatePositionSum_other pr p hactive ht]
  · rw [calculateSummaries_eq_loops]
    simp only [foldl_ite_eq_sumFrom_filter, hday "crew" (Or.inl rfl),
      hday "darsteller" (Or.inr rfl)]
  · intro hhotel hdiem hpos hdays
    exact JSNum.ne_nan_of_nonneg _
      (nonneg_calculatePositionSum pr p hactive hhotel hdiem hpos hdays)
  · intro hhotel hdiem hpos hdays
    obtain ⟨h1, h2, h3, h4, h5, h6, h7, h8⟩ := nonneg_summaries pr ps hhotel hdiem hpos hdays
    exact ⟨JSNum.ne_nan_of_nonneg _ h1, JSNum.ne_nan_of_nonneg _ h2,
      JSNum.ne_nan_of_nonneg _ h3, JSNum.ne_nan_of_nonneg _ h4, JSNum.ne_nan_of_nonneg _ h5,
      JSNum.ne_nan_of_nonneg _ h6, JSNum.ne_nan_of_nonneg _ h7, JSNum.ne_nan_of_nonneg _ h8⟩

/-- C9, amended, on the crew position of the examples in a project whose
`shooting_days` is `null`: 300*0 + 0 + 2*80 + 50 + 20*0 = 210. -/
theorem missing_fields_count_as_zero_witness :
    calculatePositionSum (some { exampleProject with shooting_days := JSVal.null }) exampleCrew
        = JSNum.ofInt 210
      ∧ (calculateSummaries (some (Project.withPositions
          { exampleProject with shooting_days := JSVal.null } [exampleCrew]))).total
        = JSNum.ofInt 210 :=
  have h := missing_fields_count_as_zero { exampleProject with shooting_days := JSVal.null }
    exampleCrew [exampleCrew] rfl (by decide) (by decide)
  ⟨h.1.trans (by decide!), (congrArg Summaries.total h.2.1).trans (by decide!)⟩

/-! ## The planned-vs-actual comparison rule -/

/-- C11 fails on fractional amounts: with one shooting day and a per diem of
0.2, a crew position with travel costs of 0.1 has the cost without per diem
0.1, while its position sum `0.1 + 0.2 = 0.30000000000000004` minus
`perDiem * resolvedDays = 0.2` is `0.10000000000000003`. -/
theorem getPositionCostWithoutPerDiem_ne_sub :
    getPositionCostWithoutPerDiem { exampleOneDayProject with per_diem := JSVal.dec 2 1 }
        { exampleBareCrew with travel_costs := JSVal.dec 1 1 } = JSNum.dec 1 1
      ∧ calculatePositionSum (some { exampleOneDayProject with per_diem := JSVal.dec 2 1 })
          { exampleBareCrew with travel_costs := JSVal.dec 1 1 }
        = JSNum.dec 30000000000000004 17
      ∧ calculatePositionSum (some { exampleOneDayProject with per_diem := JSVal.dec 2 1 })
            { exampleBareCrew with travel_costs := JSVal.dec 1 1 }
          - orZero (JSVal.dec 2 1)
            * resolvedDays { exampleOneDayProject with per_diem := JSVal.dec 2 1 }
                { exampleBareCrew with travel_costs := JSVal.dec 1 1 }
        = JSNum.dec 10000000000000003 17
      ∧ getPositionCostWithoutPerDiem { exampleOneDayProject with per_diem := JSVal.dec 2 1 }
          { exampleBareCrew with travel_costs := JSVal.dec 1 1 }
        ≠ calculatePositionSum (some { exampleOneDayProject with per_diem := JSVal.dec 2 1 })
              { exampleBareCrew with travel_costs := JSVal.dec 1 1 }
            - orZero (JSVal.dec 2 1)
              * resolvedDays { exampleOneDayProject with per_diem := JSVal.dec 2 1 }
                  { exampleBareCrew with travel_costs := JSVal.dec 1 1 } := by
  decide!

/-- C11, amended: for an active position of type crew or darsteller the
position sum is the cost without per diem of the comparison view plus
`perDiem * resolvedDays`, and for one of type leihe, location or sonstiges
the cost without per diem is the position sum itself; when the amounts of a
crew or darsteller position are whole numbers in the safe range (below `2^53`
together), its cost without per diem is also the position sum minus
`perDiem * resolvedDays`. -/
theorem getPositionCostWithoutPerDiem_eq (pr : Project) (p : Position)
    (hactive : p.active = true) :
    ((p.type = "crew" ∨ p.type = "darsteller") →
        calculatePositionSum (some pr) p
          = getPositionCostWithoutPerDiem pr p + orZero pr.per_diem * resolvedDays pr p)
      ∧ ((p.type = "leihe" ∨ p.type = "location" ∨ p.type = "sonstiges") →
        getPositionCostWithoutPerDiem pr p = calculatePositionSum (some pr) p)
      ∧ ((p.type = "crew" ∨ p.type = "darsteller") →
          wholeField pr.hotel_cost_per_night → wholeField pr.per_diem → wholePosition pr p →
          magnitude pr p < 2 ^ 53 →
          getPositionCostWithoutPerDiem pr p
            = calculatePositionSum (some pr) p - orZero pr.per_diem * resolvedDays pr p) := by
  refine ⟨?_, ?_, ?_⟩
  · intro ht
    rw [calculatePositionSum_cd pr p hactive ht,
      getPositionCostWithoutPerDiem_other pr p (not_simple_of_cd _ ht)]
  · intro ht
    rw [calculatePositionSum_other pr p hactive (not_cd_of_simple _ ht),
      getPositionCostWithoutPerDiem_simple pr p ht]
  · intro ht hhc hpd hw hm
    have hb := comparison_bound pr p
    have hplan : (planInt pr p).natAbs < 2 ^ 53 :=
      lt_of_le_of_lt (le_trans (le_trans (Nat.le_add_right _ _) (Nat.le_add_right _ _)) hb) hm
    rw [getPositionCostWithoutPerDiem_eq_ofInt pr p hhc hw hm,
      calculatePositionSum_eq_ofInt pr p hactive hhc hpd hw hm,
      perDiem_eq_ofInt pr p hpd hw ht hm, ← plan_add_perDiem pr p (by
        rcases ht with h | h
        · exact Or.inl h
        · exact Or.inr (Or.inl h)),
      JSNum.sub_ofInt _ _ (by rw [Int.add_sub_cancel]; exact hplan), Int.add_sub_cancel]

/-- C11, amended, on the crew position of the examples: 1810 - 20*5 = 1710. -/
theorem getPositionCostWithoutPerDiem_eq_witness :
    getPositionCostWithoutPerDiem exampleProject exampleCrew = JSNum.ofInt 1710
      ∧ getPositionCostWithoutPerDiem exampleProject exampleLocation = JSNum.ofInt 450 :=
  have h := getPositionCostWithoutPerDiem_eq exampleProject exampleCrew rfl
  have h' := getPositionCostWithoutPerDiem_eq exampleProject exampleLocation rfl
  ⟨(h.2.2 (Or.inl rfl) (by decide!) (by decide!) (by decide!) (by decide!)).trans
      (by decide!),
    (h'.2.1 (Or.inr (Or.inl rfl))).trans (by decide!)⟩

/-- C13: `totalPerDiem` of the comparison view is the sum of
`perDiem * resolvedDays` over the positions that are active and of type crew
or darsteller, added up from 0 in the order of the list; no other position
contributes. -/
theorem totalPerDiem_eq (pr : Project) (ps : List Position) :
    (comparisonView (pr.withPositions ps) ps).totalPerDiem
      = sumFrom 0
          ((ps.filter (fun p => p.active ∧ (p.type = "crew" ∨ p.type = "darsteller"))).map
            (fun p => orZero pr.per_diem * resolvedDays pr p)) := by
  show ((ps.filter (fun p => p.active)).filter
      (fun p => p.type == "crew" || p.type == "darsteller")).foldl
      (fun acc pos => acc + orZero pr.per_diem * resolvedDays pr pos) 0 = _
  rw [sumFrom_map, List.filter_filter]
  congr 1
  apply List.filter_congr
  intro p _
  rw [Bool.eq_iff_iff]
  simp [and_comm]

/-- C13, the example of the specification: per diem 20 and two active crew
positions with 3 days on set give `totalPerDiem` 120; each position sum is 60
and each row's calculated cost leaves that 60 out. -/
theorem totalPerDiem_eq_witness :
    (comparisonView (examplePerDiemProject.withPositions
        [exampleCrewThreeDays, exampleCrewThreeDays])
        [exampleCrewThreeDays, exampleCrewThreeDays]).totalPerDiem = JSNum.ofInt 120
      ∧ calculatePositionSum (some examplePerDiemProject) exampleCrewThreeDays
        = JSNum.ofInt 60
      ∧ (comparisonView (examplePerDiemProject.withPositions
          [exampleCrewThreeDays, exampleCrewThreeDays])
          [exampleCrewThreeDays, exampleCrewThreeDays]).rows.map (fun r => r.calculated)
        = [fin 0, fin 0] :=
  ⟨(totalPerDiem_eq examplePerDiemProject [exampleCrewThreeDays, exampleCrewThreeDays]).trans
      (by decide!), by decide!, by decide!⟩

/-- C14: `totalActual` of the comparison view is the project's
`actual_per_diem` (0 when missing) plus the `actual_costs` (0 when missing) of
the active positions, added to it one after the other in the order of the
list; the same running sum from 0 is the `actual` of `calculateComparison`.
On whole amounts in the safe range it is the exact sum, and the
`actual_per_diem` plus the `actual` of `calculateComparison`. -/
theorem totalActual_eq (pr : Project) (ps : List Position) :
    (comparisonView (pr.withPositions ps) ps).totalActual
        = sumFrom (orZero pr.actual_per_diem)
            ((ps.filter (fun p => p.active)).map (fun p => orZero p.actual_costs))
      ∧ (calculateComparison (some (pr.withPositions ps))).actual
        = sumFrom 0 ((ps.filter (fun p => p.active)).map (fun p => orZero p.actual_costs))
      ∧ (safeInputs pr ps →
          (comparisonView (pr.withPositions ps) ps).totalActual
              = JSNum.ofInt (intField pr.actual_per_diem
                  + ((ps.filter (fun p => p.active)).map
                      (fun p => intField p.actual_costs)).sum)
            ∧ (comparisonView (pr.withPositions ps) ps).totalActual
              = orZero pr.actual_per_diem
                + (calculateComparison (some (pr.withPositions ps))).actual) := by
  have h1 : (comparisonView (pr.withPositions ps) ps).totalActual
      = sumFrom (orZero pr.actual_per_diem)
          ((ps.filter (fun p => p.active)).map (fun p => orZero p.actual_costs)) := by
    rw [sumFrom_map]
    rfl
  have h2 : (calculateComparison (some (pr.withPositions ps))).actual
      = sumFrom 0 ((ps.filter (fun p => p.active)).map (fun p => orZero p.actual_costs)) := by
    rw [sumFrom_map]
    rfl
  refine ⟨h1, h2, ?_⟩
  intro hsafe
  have h3 := totalActual_safe pr ps hsafe
  rw [comparisonView_with_positions]
  refine ⟨h3, ?_⟩
  have hle : ∀ p : Position, (intField p.actual_costs).natAbs ≤ magnitude pr p := fun p =>
    le_trans (Nat.le_add_left _ _) (comparison_bound pr p)
  have h4 : (calculateComparison (some (pr.withPositions ps))).actual
      = JSNum.ofInt (((ps.filter (fun p => p.active)).map
          (fun p => intField p.actual_costs)).sum) := by
    show (ps.filter (fun p => p.active)).foldl
      (fun sum (p : Position) => sum + orZero p.actual_costs) 0 = _
    exact foldl_ofInt_zero (fun sum (p : Position) => sum + orZero p.actual_costs)
      (fun p => intField p.actual_costs) (magnitude pr) _
      (fun p hp x hx => step_add x _ _ (magnitude pr p)
        (orZero_eq_ofInt _ (safeInputs_whole pr ps hsafe p hp).2.2.2.2.2.1) (hle p) hx)
      (fun p _ => hle p) (safeInputs_bound pr ps hsafe)
  rw [h3, h4, orZero_eq_ofInt _ hsafe.2.2.1]
  exact (add_ofInt_of_le _ _ _
    (Nat.add_le_add_left (natAbs_sum_le _ _ _ (fun p _ => hle p)) _)
    hsafe.2.2.2.2).symm

/-- C14 on the examples: actual per diem 90, actual costs 1500 on the crew
position and none on the location position give 1590. -/
theorem totalActual_eq_witness :
    (comparisonView
        (Project.withPositions { exampleProject with actual_per_diem := JSVal.int 90 }
          [{ exampleCrew with actual_costs := JSVal.int 1500 }, exampleLocation])
        [{ exampleCrew with actual_costs := JSVal.int 1500 }, exampleLocation]).totalActual
      = JSNum.ofInt 1590 :=
  ((totalActual_eq { exampleProject with actual_per_diem := JSVal.int 90 }
    [{ exampleCrew with actual_costs := JSVal.int 1500 }, exampleLocation]).2.2
      (by decide!)).1.trans (by decide!)

/-- C15: the comparison view shows exactly one row per active position, in
the order of the list: row and position correspond one to one, the row has
the position's cost without per diem as `calculated`, its `actual_costs` (0
when missing) as `actual` and `calculated - actual` as `diff`; `diff` is
positive exactly when the calculated cost exceeds the actual and negative
exactly when the actual exceeds the calculated cost.  An inactive position
has no row. -/
theorem comparison_rows (pr : Project) (ps : List Position) :
    List.Forall₂
        (fun (r : ComparisonRow) (p : Position) =>
          r.key = p.id ∧ r.type = p.type
            ∧ r.calculated = getPositionCostWithoutPerDiem pr p
            ∧ r.actual = orZero p.actual_costs
            ∧ r.diff = r.calculated - r.actual
            ∧ r.diff.gtZero = JSNum.lt r.actual r.calculated
            ∧ r.diff.ltZero = JSNum.lt r.calculated r.actual)
        (comparisonView (pr.withPositions ps) ps).rows
        (ps.filter (fun p => p.active))
      ∧ (comparisonView (pr.withPositions ps) ps).rows.length
        = (ps.filter (fun p => p.active)).length
      ∧ ∀ p ∈ ps, p.active = false →
          ∀ q ∈ ps.filter (fun p => p.active), q ≠ p := by
  refine ⟨?_, ?_, ?_⟩
  · simp only [comparisonView, List.forall₂_map_left_iff, List.forall₂_same]
    intro p _
    exact ⟨rfl, rfl, rfl, rfl, rfl, JSNum.gtZero_sub _ _, JSNum.ltZero_sub _ _⟩
  · simp [comparisonView]
  · intro p _ hp q hq hqp
    rw [List.mem_filter] at hq
    rw [hqp, hp] at hq
    exact absurd hq.2 (by decide)

/-- C15 on the examples: the crew position, then the location position; the
switched-off position between them has no row. -/
theorem comparison_rows_witness :
    (comparisonView
        (exampleProject.withPositions [exampleCrew, exampleUnknown.deactivate, exampleLocation])
        [exampleCrew, exampleUnknown.deactivate, exampleLocation]).rows.map
          (fun r => (r.key, r.calculated, r.actual, r.diff))
      = [("p1", JSNum.ofInt 1710, fin 0, JSNum.ofInt 1710),
          ("p2", JSNum.ofInt 450, fin 0, JSNum.ofInt 450)]
    ∧ (comparisonView
        (exampleProject.withPositions [exampleCrew, exampleUnknown.deactivate, exampleLocation])
        [exampleCrew, exampleUnknown.deactivate, exampleLocation]).rows.length = 2 :=
  ⟨by decide!,
    (comparison_rows exampleProject
      [exampleCrew, exampleUnknown.deactivate, exampleLocation]).2.1.trans (by decide)⟩

/-- C16: the per-diem row is shown exactly when `totalPerDiem > 0` (a number
above 0, `Infinity` included), and then holds `totalPerDiem` as calculated
value, the project's `actual_per_diem` (0 when missing) as actual value and
their difference. -/
theorem perDiemRow_iff (pr : Project) (ps : List Position) :
    ((comparisonView (pr.withPositions ps) ps).perDiemRow.isSome = true
        ↔ ((comparisonView (pr.withPositions ps) ps).totalPerDiem = inf false
          ∨ ∃ t : Int, (comparisonView (pr.withPositions ps) ps).totalPerDiem = fin t ∧ 0 < t))
      ∧ ∀ row : PerDiemRow, (comparisonView (pr.withPositions ps) ps).perDiemRow = some row →
          row.calculated = (comparisonView (pr.withPositions ps) ps).totalPerDiem
            ∧ row.actual = orZero pr.actual_per_diem
            ∧ row.diff = (comparisonView (pr.withPositions ps) ps).totalPerDiem
                - orZero pr.actual_per_diem := by
  have hrow : (comparisonView (pr.withPositions ps) ps).perDiemRow
      = if (comparisonView (pr.withPositions ps) ps).totalPerDiem.gtZero then
          some { calculated := (comparisonView (pr.withPositions ps) ps).totalPerDiem,
                 actual := orZero pr.actual_per_diem,
                 diff := (comparisonView (pr.withPositions ps) ps).totalPerDiem
                   - orZero pr.actual_per_diem }
        else none := rfl
  refine ⟨?_, ?_⟩
  · rw [← JSNum.gtZero_iff, hrow]
    by_cases h : (comparisonView (pr.withPositions ps) ps).totalPerDiem.gtZero = true
    · simp [h]
    · simp [h]
  · intro row hr
    rw [hrow] at hr
    by_cases h : (comparisonView (pr.withPositions ps) ps).totalPerDiem.gtZero = true
    · rw [if_pos h] at hr
      cases hr
      exact ⟨rfl, rfl, rfl⟩
    · rw [if_neg h] at hr
      cases hr

/-- C16 on the per-diem example: the row is shown with 120, 0 and 120; with
no crew or darsteller position it is not shown. -/
theorem perDiemRow_iff_witness :
    (comparisonView (examplePerDiemProject.withPositions
        [exampleCrewThreeDays, exampleCrewThreeDays])
        [exampleCrewThreeDays, exampleCrewThreeDays]).perDiemRow.isSome = true
    ∧ (comparisonView (examplePerDiemProject.withPositions
        [exampleCrewThreeDays, exampleCrewThreeDays])
        [exampleCrewThreeDays, exampleCrewThreeDays]).perDiemRow
      = some { calculated := JSNum.ofInt 120, actual := fin 0, diff := JSNum.ofInt 120 }
    ∧ (comparisonView (examplePerDiemProject.withPositions [exampleLocation])
        [exampleLocation]).perDiemRow.isSome = false :=
  ⟨(perDiemRow_iff examplePerDiemProject [exampleCrewThreeDays, exampleCrewThreeDays]).1.mpr
      (Or.inr ⟨120 * (JSNum.scale : Int), by decide!, by decide!⟩), by decide!, by decide!⟩

/-- C17: `calculateHotelNights` is the sum of `hotel_nights` (0 when missing)
over the positions that are active and of type crew or darsteller, added up
from 0 in the order of the list; positions of other types and inactive
positions add nothing. -/
theorem calculateHotelNights_eq (pr : Project) (ps : List Position) :
    calculateHotelNights (some (pr.withPositions ps))
      = sumFrom 0
          ((ps.filter (fun p => p.active ∧ (p.type = "crew" ∨ p.type = "darsteller"))).map
            (fun p => orZero p.hotel_nights)) := by
  show (ps.filter (fun p => p.active && (p.type == "crew" || p.type == "darsteller"))).foldl
      (fun sum p => sum + orZero p.hotel_nights) 0 = _
  rw [sumFrom_map]
  congr 1
  apply List.filter_congr
  intro p _
  rw [Bool.eq_iff_iff]
  simp

/-- C17 on the examples: the crew position has 2 hotel nights; the 5 nights of
a location position and the 3 nights of a switched-off crew position do not
count. -/
theorem calculateHotelNights_eq_witness :
    calculateHotelNights (some (exampleProject.withPositions
        [exampleCrew, { exampleLocation with hotel_nights := JSVal.int 5 },
          { exampleCrew with hotel_nights := JSVal.int 3, active := false }]))
      = JSNum.ofInt 2 :=
  (calculateHotelNights_eq exampleProject
    [exampleCrew, { exampleLocation with hotel_nights := JSVal.int 5 },
      { exampleCrew with hotel_nights := JSVal.int 3, active := false }]).trans (by decide!)

/-! ## Unrecognized types and non-negative inputs -/

/-- C12: an active position `u` of a type outside the five known ones has
the position sum `costs` (0 when missing), and `calculateSummaries` returns
the same eight fields with it as for the list without it; so when `costs` is
not 0, already for the list holding `u` alone the `total` of
`calculateSummaries` differs from the sum of the position sums.  All these
functions are total: nothing fails. -/
theorem unrecognized_type (pr : Project) (l1 l2 : List Position) (u : Position)
    (hactive : u.active = true) (hun : ¬ recognizedType u.type) :
    calculatePositionSum (some (pr.withPositions (l1 ++ u :: l2))) u = orZero u.costs
      ∧ calculateSummaries (some (pr.withPositions (l1 ++ u :: l2)))
        = calculateSummaries (some (pr.withPositions (l1 ++ l2)))
      ∧ (orZero u.costs ≠ fin 0 →
          (calculateSummaries (some (pr.withPositions [u]))).total
            ≠ sumFrom 0 (([u].filter (fun p => p.active)).map
                (calculatePositionSum (some (pr.withPositions [u]))))) := by
  have hcd : ¬ (u.type = "crew" ∨ u.type = "darsteller") := by
    intro h
    apply hun
    rcases h with h | h
    · exact Or.inl h
    · exact Or.inr (Or.inl h)
  have hsum : ∀ q : Project, calculatePositionSum (some q) u = orZero u.costs :=
    fun q => calculatePositionSum_other q u hactive hcd
  refine ⟨hsum _, ?_, ?_⟩
  · simp only [calculateSummaries, summaryStep_with_positions,
      filter_active_append_cons l1 l2 u hactive, List.filter_append, List.foldl_append,
      List.foldl_cons, summaryStep_unrecognized pr _ u hun]
  · intro hc
    have ht : (calculateSummaries (some (pr.withPositions [u]))).total = fin 0 := by
      simp only [calculateSummaries, summaryStep_with_positions, List.filter_cons, hactive,
        if_true, List.filter_nil, List.foldl_cons, List.foldl_nil,
        summaryStep_unrecognized pr _ u hun]
      rfl
    have hs : sumFrom 0 (([u].filter (fun p => p.active)).map
        (calculatePositionSum (some (pr.withPositions [u])))) = orZero u.costs := by
      simp only [List.filter_cons, hactive, if_true, List.filter_nil, List.map_cons,
        List.map_nil, sumFrom_cons, sumFrom_nil, hsum, JSNum.zero_add]
    rw [ht, hs]
    exact fun h => hc h.symm

/-- C12 on a position of type `position` with costs 450: its position sum is
450, the summary with it next to the location position is the summary of the
location position alone, and alone it gives `total` 0 against a sum of 450. -/
theorem unrecognized_type_witness :
    calculatePositionSum (some (exampleProject.withPositions
        ([exampleLocation] ++ { exampleUnknown with costs := JSVal.int 450 } :: [])))
        { exampleUnknown with costs := JSVal.int 450 } = JSNum.ofInt 450
      ∧ (calculateSummaries (some (exampleProject.withPositions
          [{ exampleUnknown with costs := JSVal.int 450 }]))).total
        ≠ sumFrom 0
            (([{ exampleUnknown with costs := JSVal.int 450 }].filter (fun p => p.active)).map
              (calculatePositionSum (some (exampleProject.withPositions
                [{ exampleUnknown with costs := JSVal.int 450 }])))) :=
  have h := unrecognized_type exampleProject [exampleLocation] []
    { exampleUnknown with costs := JSVal.int 450 } rfl (by decide)
  ⟨h.1.trans (by decide!), h.2.2 (by decide!)⟩

/-- C18 fails when the hotel cost per night is `Infinity`, a non-negative
number that the input of that field admits: with a crew position that has 0
hotel nights every input is non-negative, yet `0 * Infinity` is `NaN`, and
`hotel` and `total` of `calculateSummaries` are `NaN`, not non-negative
numbers. -/
theorem summaries_nan_of_infinite_hotel_cost :
    (JSNum.inf false).nonneg
      ∧ (calculateSummaries (some (Project.withPositions
          { exampleProject with hotel_cost_per_night := JSVal.num (inf false) }
          [{ exampleCrew with hotel_nights := JSVal.int 0 }]))).hotel = nan
      ∧ (calculateSummaries (some (Project.withPositions
          { exampleProject with hotel_cost_per_night := JSVal.num (inf false) }
          [{ exampleCrew with hotel_nights := JSVal.int 0 }]))).total = nan
      ∧ ¬ (calculateSummaries (some (Project.withPositions
          { exampleProject with hotel_cost_per_night := JSVal.num (inf false) }
          [{ exampleCrew with hotel_nights := JSVal.int 0 }]))).hotel.nonneg
      ∧ ¬ (calculateSummaries (some (Project.withPositions
          { exampleProject with hotel_cost_per_night := JSVal.num (inf false) }
          [{ exampleCrew with hotel_nights := JSVal.int 0 }]))).total.nonneg := by
  decide!

/-- C18, amended: when every amount of the project and of the active
positions (rates, fees, costs, hotel nights, hotel cost per night, per diem)
is finite and at least 0, and so are the days on set every active crew or
darsteller position is charged for, all seven category amounts and the total
of `calculateSummaries` are non-negative numbers (`Infinity` at most, never
`NaN`), and so is `calculateHotelNights`; when the hotel nights are whole
numbers below `2^53` together, `calculateHotelNights` is a whole number. -/
theorem summaries_nonneg (pr : Project) (ps : List Position)
    (hhotel : notNegative pr.hotel_cost_per_night) (hdiem : notNegative pr.per_diem)
    (hpos : ∀ p ∈ ps, p.active = true → notNegative p.daily_rate ∧ notNegative p.flat_fee
      ∧ notNegative p.hotel_nights ∧ notNegative p.travel_costs ∧ notNegative p.costs)
    (hdays : ∀ p ∈ ps, p.active = true → (p.type = "crew" ∨ p.type = "darsteller") →
      (resolvedDays pr p).finiteNonneg) :
    (calculateSummaries (some (pr.withPositions ps))).crew.nonneg
      ∧ (calculateSummaries (some (pr.withPositions ps))).darsteller.nonneg
      ∧ (calculateSummaries (some (pr.withPositions ps))).hotel.nonneg
      ∧ (calculateSummaries (some (pr.withPositions ps))).travel.nonneg
      ∧ (calculateSummaries (some (pr.withPositions ps))).leihe.nonneg
      ∧ (calculateSummaries (some (pr.withPositions ps))).location.nonneg
      ∧ (calculateSummaries (some (pr.withPositions ps))).sonstiges.nonneg
      ∧ (calculateSummaries (some (pr.withPositions ps))).total.nonneg
      ∧ (calculateHotelNights (some (pr.withPositions ps))).nonneg
      ∧ ((∀ p ∈ ps, p.active = true → wholeField p.hotel_nights) →
          ((ps.filter (fun p => p.active && (p.type == "crew" || p.type == "darsteller"))).map
            (fun p => (intField p.hotel_nights).natAbs)).sum < 2 ^ 53 →
          (calculateHotelNights (some (pr.withPositions ps))).isWhole = true) := by
  obtain ⟨h1, h2, h3, h4, h5, h6, h7, h8⟩ := nonneg_summaries pr ps hhotel hdiem hpos hdays
  refine ⟨h1, h2, h3, h4, h5, h6, h7, h8, ?_, ?_⟩
  · show ((ps.filter (fun p => p.active && (p.type == "crew" || p.type == "darsteller"))).foldl
      (fun sum p => sum + orZero p.hotel_nights) 0).nonneg
    rw [← sumFrom_map]
    apply nonneg_sumFrom _ _ JSNum.nonneg_zero
    intro x hx
    obtain ⟨p, hp, rfl⟩ := List.mem_map.mp hx
    rw [List.mem_filter] at hp
    have ha : p.active = true := by
      have := hp.2
      simp only [Bool.and_eq_true] at this
      exact this.1
    exact nonneg_of_finiteNonneg _ (hpos p hp.1 ha).2.2.1
  · intro hwhole hb
    have hloop := foldl_ofInt_zero (fun sum (p : Position) => sum + orZero p.hotel_nights)
      (fun p => intField p.hotel_nights) (fun p => (intField p.hotel_nights).natAbs)
      (ps.filter (fun p => p.active && (p.type == "crew" || p.type == "darsteller")))
      (fun p hp x hx => step_add x _ _ _
        (orZero_eq_ofInt _ (hwhole p (List.mem_filter.mp hp).1 (by
          have := (List.mem_filter.mp hp).2
          simp only [Bool.and_eq_true] at this
          exact this.1)))
        (le_refl _) hx)
      (fun p _ => le_refl _) hb
    show ((ps.filter (fun p => p.active && (p.type == "crew" || p.type == "darsteller"))).foldl
      (fun sum p => sum + orZero p.hotel_nights) 0).isWhole = true
    rw [hloop]
    exact JSNum.isWhole_ofInt _

/-- C18, amended, on the two positions of the examples: `total` is a
non-negative number and the hotel nights are a whole number. -/
theorem summaries_nonneg_witness :
    (calculateSummaries
        (some (exampleProject.withPositions [exampleCrew, exampleLocation]))).total.nonneg
      ∧ (calculateHotelNights
        (some (exampleProject.withPositions [exampleCrew, exampleLocation]))).nonneg
      ∧ (calculateHotelNights
        (some (exampleProject.withPositions [exampleCrew, exampleLocation]))).isWhole = true :=
  have h := summaries_nonneg exampleProject [exampleCrew, exampleLocation]
    (by decide!) (by decide!) (by decide!) (by decide!)
  ⟨h.2.2.2.2.2.2.2.1, h.2.2.2.2.2.2.2.2.1, h.2.2.2.2.2.2.2.2.2 (by decide!) (by decide!)⟩

/-! ## Partial updates of the store -/

/-- C19, the code at the failing input: a `PUT` that supplies only
`actual_per_diem: 120` leaves the stored `actual_per_diem` at 0 and refreshes
nothing but `updated_at`, while the same request with `per_diem: 120` stores
120. -/
theorem putProject_drops_actual_per_diem :
    putProject ⟨[exampleProjectRow], []⟩ "a"
        { ProjectBody.empty with actual_per_diem := Field.val 120 } "t1"
      = some ⟨[{ exampleProjectRow with updated_at := "t1" }], []⟩
    ∧ putProject ⟨[exampleProjectRow], []⟩ "a"
        { ProjectBody.empty with per_diem := Field.val 120 } "t1"
      = some ⟨[{ exampleProjectRow with per_diem := some 120, updated_at := "t1" }], []⟩ := by
  decide

/-- C20: `PUT /api/positions/:id` has partial-update semantics.  Row by row,
in place: a row with another id is not modified; in a row with the id each of
the eleven columns is overwritten when the request supplies it (an explicit
`null` empties it, `active` is stored as 1 or 0) and kept when the request
leaves it out; `id`, `project_id`, `type` and `created_at` never change. -/
theorem putPosition_partial_update (db : Db) (id : String) (body : PositionBody)
    (now : String) :
    List.Forall₂
      (fun (old new : PositionRow) =>
        new.id = old.id ∧ new.project_id = old.project_id ∧ new.type = old.type
          ∧ new.created_at = old.created_at
          ∧ (old.id ≠ id → new = old)
          ∧ (old.id = id →
              overwrites body.name old.name new.name
                ∧ overwrites body.daily_rate old.daily_rate new.daily_rate
                ∧ overwrites body.flat_fee old.flat_fee new.flat_fee
                ∧ overwrites body.hotel_nights old.hotel_nights new.hotel_nights
                ∧ overwrites body.travel_costs old.travel_costs new.travel_costs
                ∧ overwrites body.days_on_set old.days_on_set new.days_on_set
                ∧ overwrites body.costs old.costs new.costs
                ∧ overwrites body.color old.color new.color
                ∧ overwritesFlag body.active old.active new.active
                ∧ overwrites body.actual_costs old.actual_costs new.actual_costs
                ∧ overwrites body.sort_order old.sort_order new.sort_order))
      db.positions (putPosition db id body now).positions := by
  have ho : ∀ {α : Type} (f : Field α) (old : Option α), overwrites f old (f.update old) := by
    intro α f old
    cases f <;> exact rfl
  have hf : ∀ (f : Field Bool) (old : Option Int), overwritesFlag f old (f.updateFlag old) := by
    intro f old
    cases f with
    | absent => exact rfl
    | null => exact rfl
    | val b => cases b <;> exact rfl
  rw [putPosition_positions, List.forall₂_map_right_iff, List.forall₂_same]
  intro r _
  by_cases hid : r.id = id
  · rw [if_pos hid, foldl_set_positionUpdates]
    exact ⟨rfl, rfl, rfl, rfl, fun h => absurd hid h,
      fun _ => ⟨ho _ _, ho _ _, ho _ _, ho _ _, ho _ _, ho _ _, ho _ _, ho _ _, hf _ _,
        ho _ _, ho _ _⟩⟩
  · rw [if_neg hid]
    exact ⟨rfl, rfl, rfl, rfl, fun _ => rfl, fun h => absurd h hid⟩

/-- C20 on a store with two rows: supplying `daily_rate: 300`,
`days_on_set: null` and `active: false` for row `x` changes those three
columns of `x` and nothing else. -/
theorem putPosition_partial_update_witness :
    (putPosition
        ⟨[exampleProjectRow],
          [{ examplePositionRow with days_on_set := some 2 },
            { examplePositionRow with id := "y" }]⟩
        "x"
        { PositionBody.empty with daily_rate := Field.val 300, days_on_set := Field.null,
                                  active := Field.val false }
        "t1").positions
      = [{ examplePositionRow with daily_rate := some 300, days_on_set := none,
                                   active := some 0 },
          { examplePositionRow with id := "y" }]
    ∧ (putPosition
        ⟨[exampleProjectRow],
          [{ examplePositionRow with days_on_set := some 2 },
            { examplePositionRow with id := "y" }]⟩
        "x"
        { PositionBody.empty with daily_rate := Field.val 300, days_on_set := Field.null,
                                  active := Field.val false }
        "t1").positions.length = 2 :=
  ⟨by decide,
    (putPosition_partial_update
      ⟨[exampleProjectRow],
        [{ examplePositionRow with days_on_set := some 2 },
          { examplePositionRow with id := "y" }]⟩
      "x"
      { PositionBody.empty with daily_rate := Field.val 300, days_on_set := Field.null,
                                active := Field.val false }
      "t1").length_eq.symm⟩

/-! ## The overall difference -/

/-- C22 fails when the per-diem row is hidden while an actual per diem is
recorded: with the location position alone and `actual_per_diem` 50 the view
shows one row with difference 450 and no per-diem row, and an overall
difference of 450 - 50 = 400.  It also fails with the per-diem row shown, on
fractional amounts: with one shooting day, a per diem of 0.1 and an actual
per diem of 0.2, a crew position with actual costs of 0.1 gives the rows
`-0.1` and `0.1 - 0.2 = -0.1`, together `-0.2`, against an overall difference
of `0.1 - 0.30000000000000004 = -0.20000000000000004`. -/
theorem overall_difference_ne_shownDifferences :
    (comparisonView
        (Project.withPositions { exampleProject with actual_per_diem := JSVal.int 50 }
          [exampleLocation]) [exampleLocation]).perDiemRow = none
      ∧ (comparisonView
          (Project.withPositions { exampleProject with actual_per_diem := JSVal.int 50 }
            [exampleLocation]) [exampleLocation]).totalCalculated
          - (comparisonView
              (Project.withPositions { exampleProject with actual_per_diem := JSVal.int 50 }
                [exampleLocation]) [exampleLocation]).totalActual = JSNum.ofInt 400
      ∧ shownDifferences (comparisonView
          (Project.withPositions { exampleProject with actual_per_diem := JSVal.int 50 }
            [exampleLocation]) [exampleLocation]) = JSNum.ofInt 450
      ∧ (comparisonView
          (Project.withPositions { exampleProject with actual_per_diem := JSVal.int 50 }
            [exampleLocation]) [exampleLocation]).totalCalculated
          - (comparisonView
              (Project.withPositions { exampleProject with actual_per_diem := JSVal.int 50 }
                [exampleLocation]) [exampleLocation]).totalActual
        ≠ shownDifferences (comparisonView
            (Project.withPositions { exampleProject with actual_per_diem := JSVal.int 50 }
              [exampleLocation]) [exampleLocation])
      ∧ (comparisonView
          (Project.withPositions
            { exampleOneDayProject with per_diem := JSVal.dec 1 1,
                                        actual_per_diem := JSVal.dec 2 1 }
            [{ exampleBareCrew with actual_costs := JSVal.dec 1 1 }])
          [{ exampleBareCrew with actual_costs := JSVal.dec 1 1 }]).perDiemRow.isSome = true
      ∧ (comparisonView
          (Project.withPositions
            { exampleOneDayProject with per_diem := JSVal.dec 1 1,
                                        actual_per_diem := JSVal.dec 2 1 }
            [{ exampleBareCrew with actual_costs := JSVal.dec 1 1 }])
          [{ exampleBareCrew with actual_costs := JSVal.dec 1 1 }]).totalCalculated
          - (comparisonView
              (Project.withPositions
                { exampleOneDayProject with per_diem := JSVal.dec 1 1,
                                            actual_per_diem := JSVal.dec 2 1 }
                [{ exampleBareCrew with actual_costs := JSVal.dec 1 1 }])
              [{ exampleBareCrew with actual_costs := JSVal.dec 1 1 }]).totalActual
        = JSNum.dec (-20000000000000004) 17
      ∧ shownDifferences (comparisonView
          (Project.withPositions
            { exampleOneDayProject with per_diem := JSVal.dec 1 1,
                                        actual_per_diem := JSVal.dec 2 1 }
            [{ exampleBareCrew with actual_costs := JSVal.dec 1 1 }])
          [{ exampleBareCrew with actual_costs := JSVal.dec 1 1 }]) = JSNum.dec (-2) 1
      ∧ (comparisonView
          (Project.withPositions
            { exampleOneDayProject with per_diem := JSVal.dec 1 1,
                                        actual_per_diem := JSVal.dec 2 1 }
            [{ exampleBareCrew with actual_costs := JSVal.dec 1 1 }])
          [{ exampleBareCrew with actual_costs := JSVal.dec 1 1 }]).totalCalculated
          - (comparisonView
              (Project.withPositions
                { exampleOneDayProject with per_diem := JSVal.dec 1 1,
                                            actual_per_diem := JSVal.dec 2 1 }
                [{ exampleBareCrew with actual_costs := JSVal.dec 1 1 }])
              [{ exampleBareCrew with actual_costs := JSVal.dec 1 1 }]).totalActual
        ≠ shownDifferences (comparisonView
            (Project.withPositions
              { exampleOneDayProject with per_diem := JSVal.dec 1 1,
                                          actual_per_diem := JSVal.dec 2 1 }
              [{ exampleBareCrew with actual_costs := JSVal.dec 1 1 }])
            [{ exampleBareCrew with actual_costs := JSVal.dec 1 1 }]) := by
  decide!

/-- C22, amended: when the amounts are whole numbers in the safe range (below
`2^53` together), the overall difference `totalCalculated - totalActual` is
the sum of the differences of the position rows plus
`totalPerDiem - actual_per_diem`; so it is the sum of the differences of the
rows shown whenever the per-diem row is shown, or is hidden with
`totalPerDiem - actual_per_diem` equal to 0. -/
theorem overall_difference_eq_shownDifferences (pr : Project) (ps : List Position)
    (hsafe : safeInputs pr ps)
    (h : (comparisonView (pr.withPositions ps) ps).perDiemRow.isSome = true
      ∨ (comparisonView (pr.withPositions ps) ps).totalPerDiem
          - orZero pr.actual_per_diem = fin 0) :
    (comparisonView (pr.withPositions ps) ps).totalCalculated
        - (comparisonView (pr.withPositions ps) ps).totalActual
      = sumFrom 0 ((comparisonView (pr.withPositions ps) ps).rows.map (fun r => r.diff))
        + ((comparisonView (pr.withPositions ps) ps).totalPerDiem
            - orZero pr.actual_per_diem)
    ∧ (comparisonView (pr.withPositions ps) ps).totalCalculated
        - (comparisonView (pr.withPositions ps) ps).totalActual
      = shownDifferences (comparisonView (pr.withPositions ps) ps) := by
  have hgen := overall_difference_safe pr ps hsafe
  have hrow : (comparisonView pr ps).perDiemRow
      = if (comparisonView pr ps).totalPerDiem.gtZero then
          some { calculated := (comparisonView pr ps).totalPerDiem,
                 actual := orZero pr.actual_per_diem,
                 diff := (comparisonView pr ps).totalPerDiem
                   - orZero pr.actual_per_diem }
        else none := rfl
  simp only [comparisonView_with_positions] at h ⊢
  refine ⟨hgen, ?_⟩
  rw [hgen]
  unfold shownDifferences
  congr 1
  by_cases hg : (comparisonView pr ps).totalPerDiem.gtZero = true
  · rw [hrow, if_pos hg]
  · rw [hrow, if_neg hg] at h ⊢
    rcases h with h | h
    · cases h
    · exact h

/-- C22, amended, on the per-diem example with an actual per diem of 90: the
per-diem row is shown and the rows add up to the overall difference, 30. -/
theorem overall_difference_eq_shownDifferences_witness :
    (comparisonView
        (Project.withPositions { examplePerDiemProject with actual_per_diem := JSVal.int 90 }
          [exampleCrewThreeDays, exampleCrewThreeDays])
        [exampleCrewThreeDays, exampleCrewThreeDays]).totalCalculated
        - (comparisonView
            (Project.withPositions { examplePerDiemProject with actual_per_diem := JSVal.int 90 }
              [exampleCrewThreeDays, exampleCrewThreeDays])
            [exampleCrewThreeDays, exampleCrewThreeDays]).totalActual
      = shownDifferences (comparisonView
          (Project.withPositions { examplePerDiemProject with actual_per_diem := JSVal.int 90 }
            [exampleCrewThreeDays, exampleCrewThreeDays])
          [exampleCrewThreeDays, exampleCrewThreeDays])
    ∧ shownDifferences (comparisonView
          (Project.withPositions { examplePerDiemProject with actual_per_diem := JSVal.int 90 }
            [exampleCrewThreeDays, exampleCrewThreeDays])
          [exampleCrewThreeDays, exampleCrewThreeDays]) = JSNum.ofInt 30 :=
  ⟨(overall_difference_eq_shownDifferences
      { examplePerDiemProject with actual_per_diem := JSVal.int 90 }
      [exampleCrewThreeDays, exampleCrewThreeDays] (by decide!) (Or.inl (by decide!))).2,
    by decide!⟩

/-! ## Reordering -/

/-- C23 fails on fractional amounts: with three location positions of costs
0.1, 0.2 and 0.3, `handleDragOver` that drags the first to the end yields the
order 0.2, 0.3, 0.1, and `location`, `total` and `totalCalculated` are
`(0.1 + 0.2) + 0.3 = 0.6000000000000001` before and `(0.2 + 0.3) + 0.1 = 0.6`
after. -/
theorem reorder_changes_fraction_sums :
    (handleDragOver (some 0) 2
        [exampleLocationOf "a" (JSVal.dec 1 1), exampleLocationOf "b" (JSVal.dec 2 1),
          exampleLocationOf "c" (JSVal.dec 3 1)]).1
      = [some (exampleLocationOf "b" (JSVal.dec 2 1)),
          some (exampleLocationOf "c" (JSVal.dec 3 1)),
          some (exampleLocationOf "a" (JSVal.dec 1 1))]
    ∧ (calculateSummaries (some (exampleOneDayProject.withPositions
        [exampleLocationOf "a" (JSVal.dec 1 1), exampleLocationOf "b" (JSVal.dec 2 1),
          exampleLocationOf "c" (JSVal.dec 3 1)]))).location = JSNum.dec 6000000000000001 16
    ∧ (calculateSummaries (some (exampleOneDayProject.withPositions
        [exampleLocationOf "b" (JSVal.dec 2 1), exampleLocationOf "c" (JSVal.dec 3 1),
          exampleLocationOf "a" (JSVal.dec 1 1)]))).location = JSNum.dec 6 1
    ∧ (calculateSummaries (some (exampleOneDayProject.withPositions
        [exampleLocationOf "a" (JSVal.dec 1 1), exampleLocationOf "b" (JSVal.dec 2 1),
          exampleLocationOf "c" (JSVal.dec 3 1)]))).total = JSNum.dec 6000000000000001 16
    ∧ (calculateSummaries (some (exampleOneDayProject.withPositions
        [exampleLocationOf "b" (JSVal.dec 2 1), exampleLocationOf "c" (JSVal.dec 3 1),
          exampleLocationOf "a" (JSVal.dec 1 1)]))).total = JSNum.dec 6 1
    ∧ (comparisonView exampleOneDayProject
        [exampleLocationOf "a" (JSVal.dec 1 1), exampleLocationOf "b" (JSVal.dec 2 1),
          exampleLocationOf "c" (JSVal.dec 3 1)]).totalCalculated
      = JSNum.dec 6000000000000001 16
    ∧ (comparisonView exampleOneDayProject
        [exampleLocationOf "b" (JSVal.dec 2 1), exampleLocationOf "c" (JSVal.dec 3 1),
          exampleLocationOf "a" (JSVal.dec 1 1)]).totalCalculated = JSNum.dec 6 1
    ∧ calculateSummaries (some (exampleOneDayProject.withPositions
        [exampleLocationOf "b" (JSVal.dec 2 1), exampleLocationOf "c" (JSVal.dec 3 1),
          exampleLocationOf "a" (JSVal.dec 1 1)]))
      ≠ calculateSummaries (some (exampleOneDayProject.withPositions
        [exampleLocationOf "a" (JSVal.dec 1 1), exampleLocationOf "b" (JSVal.dec 2 1),
          exampleLocationOf "c" (JSVal.dec 3 1)])) := by
  decide!

/-- C23, amended: when the amounts are whole numbers in the safe range (below
`2^53` together), for every permutation of the position list
`calculateSummaries` (all eight fields), `calculateHotelNights` and the three
totals of the comparison view are what they were; and on any list
`handleDragOver` with a dragged index `d` and a target index `i` inside the
list yields a permutation of the list that has the dragged position at index
`i` and the others in their old order, and sets `draggedIndex` to `i`. -/
theorem reorder_invariant (pr : Project) (ps : List Position) :
    (safeInputs pr ps → ∀ ps' : List Position, ps'.Perm ps →
        calculateSummaries (some (pr.withPositions ps'))
            = calculateSummaries (some (pr.withPositions ps))
          ∧ calculateHotelNights (some (pr.withPositions ps'))
            = calculateHotelNights (some (pr.withPositions ps))
          ∧ (comparisonView (pr.withPositions ps') ps').totalPerDiem
            = (comparisonView (pr.withPositions ps) ps).totalPerDiem
          ∧ (comparisonView (pr.withPositions ps') ps').totalCalculated
            = (comparisonView (pr.withPositions ps) ps).totalCalculated
          ∧ (comparisonView (pr.withPositions ps') ps').totalActual
            = (comparisonView (pr.withPositions ps) ps).totalActual)
      ∧ (∀ d i : Nat, d < ps.length → i < ps.length →
          ∃ ps' : List Position,
            (handleDragOver (some d) i ps).1 = ps'.map some
              ∧ (handleDragOver (some d) i ps).2 = some i
              ∧ ps'.Perm ps
              ∧ ps'[i]? = ps[d]?
              ∧ ps'.eraseIdx i = ps.eraseIdx d) := by
  refine ⟨?_, ?_⟩
  · intro hsafe ps' h
    have hsafe' := safeInputs_perm pr ps ps' h hsafe
    have hf := h.filter (fun p : Position => p.active)
    refine ⟨?_, ?_, ?_, ?_, ?_⟩
    · rw [calculateSummaries_safe pr ps' hsafe', calculateSummaries_safe pr ps hsafe,
        summariesInt_perm pr ps ps' h]
    · rw [calculateHotelNights_safe pr ps' hsafe', calculateHotelNights_safe pr ps hsafe,
        (hf.map _).sum_eq]
    · rw [comparisonView_with_positions pr (some ps') ps',
        comparisonView_with_positions pr (some ps) ps,
        totalPerDiem_safe pr ps' hsafe', totalPerDiem_safe pr ps hsafe, (hf.map _).sum_eq]
    · rw [comparisonView_with_positions pr (some ps') ps',
        comparisonView_with_positions pr (some ps) ps,
        totalCalculated_safe pr ps' hsafe', totalCalculated_safe pr ps hsafe,
        (hf.map (planInt pr)).sum_eq, (hf.map (perDiemInt pr)).sum_eq]
    · rw [comparisonView_with_positions pr (some ps') ps',
        comparisonView_with_positions pr (some ps) ps,
        totalActual_safe pr ps' hsafe', totalActual_safe pr ps hsafe, (hf.map _).sum_eq]
  · intro d i hd hi
    by_cases hne : d = i
    · subst hne
      refine ⟨ps, ?_, ?_, List.Perm.refl ps, rfl, rfl⟩
      · simp [handleDragOver]
      · simp [handleDragOver]
    · obtain ⟨h1, h2, h3, h4⟩ := handleDragOver_move ps d i hd hi hne
      refine ⟨_, h1, ?_, h2, ?_, h4⟩
      · simp [handleDragOver, hne]
      · rw [h3, List.getElem?_eq_getElem hd]

/-- C23, amended, on three positions: dragging the first to the end gives the
other two followed by it, and the summary of the reordered list is the
summary of the list. -/
theorem reorder_invariant_witness :
    (handleDragOver (some 0) 2 [exampleCrew, exampleLocation, exampleCrewThreeDays]).1
        = [some exampleLocation, some exampleCrewThreeDays, some exampleCrew]
      ∧ calculateSummaries (some (exampleProject.withPositions
          [exampleLocation, exampleCrewThreeDays, exampleCrew]))
        = calculateSummaries (some (exampleProject.withPositions
          [exampleCrew, exampleLocation, exampleCrewThreeDays])) :=
  ⟨by decide!,
    ((reorder_invariant exampleProject [exampleCrew, exampleLocation, exampleCrewThreeDays]).1
      (by decide!) [exampleLocation, exampleCrewThreeDays, exampleCrew] (by decide!)).1⟩

/-! ## The type invariant of the store -/

/-- C21 fails: from the empty store, creating a project and adding a
position with a body that supplies no type stores a position of type
`position` (with the foreign key enforced or not), and a body that supplies
the type `extra` stores it as given; neither is one of the five types. -/
theorem addPosition_unrecognized_type :
    (([Request.createProject Field.absent "a" "t0",
        Request.addPosition "a" ⟨Field.absent⟩ "x" "t1"].foldl (step true) Db.empty).positions.map
          (fun r => r.type)) = ["position"]
      ∧ (([Request.createProject Field.absent "a" "t0",
          Request.addPosition "a" ⟨Field.absent⟩ "x" "t1"].foldl (step false)
            Db.empty).positions.map (fun r => r.type)) = ["position"]
      ∧ (([Request.createProject Field.absent "a" "t0",
          Request.addPosition "a" ⟨Field.val "extra"⟩ "x" "t1"].foldl (step true)
            Db.empty).positions.map (fun r => r.type)) = ["extra"]
      ∧ ¬ typeInvariant ([Request.createProject Field.absent "a" "t0",
          Request.addPosition "a" ⟨Field.absent⟩ "x" "t1"].foldl (step true) Db.empty)
      ∧ ¬ typeInvariant ([Request.createProject Field.absent "a" "t0",
          Request.addPosition "a" ⟨Field.val "extra"⟩ "x" "t1"].foldl (step true) Db.empty) := by
  decide

/-- C21, amended: a position added with a request body that supplies a type
string is stored as a new row of exactly that type; so when every request
that adds a position supplies one of the five types, the type invariant
holds after any sequence of requests on a store in which it held, no other
handler writing a type. -/
theorem typeInvariant_reachable (fk : Bool) (db : Db) (reqs : List Request)
    (hdb : typeInvariant db) (hreqs : ∀ q ∈ reqs, suppliesRecognizedType q) :
    typeInvariant (reqs.foldl (step fk) db)
      ∧ ∀ (projectId t positionId now : String) (db' : Db),
          addPosition fk db projectId ⟨Field.val t⟩ positionId now = some db' →
          ∃ row : PositionRow, db'.positions = db.positions ++ [row]
            ∧ row.id = positionId ∧ row.project_id = projectId ∧ row.type = t := by
  refine ⟨?_, fun projectId t positionId now db' h =>
    addPosition_val fk db db' projectId t positionId now h⟩
  induction reqs generalizing db with
  | nil => exact hdb
  | cons q rest ih =>
    rw [List.foldl_cons]
    apply ih
    · exact step_typeInvariant fk db q hdb (hreqs q (List.mem_cons_self q rest))
    · intro q' hq'
      exact hreqs q' (List.mem_cons_of_mem q hq')

/-- C21, amended, from the empty store: a project, a crew and a location
position, an update and a reorder leave two rows of types crew and location. -/
theorem typeInvariant_reachable_witness :
    typeInvariant
        ([Request.createProject Field.absent "a" "t0",
          Request.addPosition "a" ⟨Field.val "crew"⟩ "x" "t1",
          Request.addPosition "a" ⟨Field.val "location"⟩ "y" "t2",
          Request.putPosition "x" { PositionBody.empty with daily_rate := Field.val 300 } "t3",
          Request.reorder "a" ["y", "x"] "t4"].foldl (step true) Db.empty)
      ∧ ([Request.createProject Field.absent "a" "t0",
          Request.addPosition "a" ⟨Field.val "crew"⟩ "x" "t1",
          Request.addPosition "a" ⟨Field.val "location"⟩ "y" "t2",
          Request.putPosition "x" { PositionBody.empty with daily_rate := Field.val 300 } "t3",
          Request.reorder "a" ["y", "x"] "t4"].foldl (step true) Db.empty).positions.map
            (fun r => (r.id, r.type, r.sort_order))
        = [("x", "crew", some 1), ("y", "location", some 0)] :=
  ⟨(typeInvariant_reachable true Db.empty
      [Request.createProject Field.absent "a" "t0",
        Request.addPosition "a" ⟨Field.val "crew"⟩ "x" "t1",
        Request.addPosition "a" ⟨Field.val "location"⟩ "y" "t2",
        Request.putPosition "x" { PositionBody.empty with daily_rate := Field.val 300 } "t3",
        Request.reorder "a" ["y", "x"] "t4"]
      (by decide) (by decide)).1, by decide⟩

end BudgetCalculator
